import Mathlib

/-!
# DVFS governors: a shallow embedding

Three cpufreq governors are embedded here:

* `Rl`      : `main.c`, the single-table Q-learning governor;
* `DoubleQ` : `doubleqlearning.c`, the double Q-learning governor;
* `Dqn`     : `deepq.c`, the deep Q-network governor.

Conventions of the embedding.

* `unsigned int` values are naturals below `2 ^ 32`; `+` and `-` on them are
  taken modulo `2 ^ 32` (`u32_add`, `u32_sub`).  `unsigned long long` is the
  same with `2 ^ 64`.
* `int` values are integers; a conversion from `unsigned int` is `toInt32`.
* `float` and `double` values are rationals (`ℚ`).  Rounding is `f32` (the
  store into a `float`) and `f64` (one `double` operation), both round to
  nearest, ties to even, with an unbounded exponent range; it is applied where
  a result depends on it: the epsilon schedule and the exploration test of
  `deepq.c`, the initial weights, and the repeated table update of `main.c`.
  Elsewhere a float expression is its exact value.
* A float division whose divisor is zero has no finite result: it is `none`
  (`fdiv`) in `calculate_reward`, and an infinity or NaN (`XFloat`) in the tick
  of the double Q-learning governor, which stores it.
* `get_random_u32()` reads the next value of an explicit stream (`Rng`).
* Heap blocks reached through pointers (`struct neuron *`, `float *`) live in
  an explicit `Heap` indexed by address.
-/

/-! ## Machine arithmetic -/

/-- The number of values of an `unsigned int`. -/
def U32_MOD : Nat := 2 ^ 32

/-- The number of values of an `unsigned long long`. -/
def U64_MOD : Nat := 2 ^ 64

/-- The constant `UINT_MAX`. -/
def UINT_MAX : Nat := 4294967295

/-- Addition of two `unsigned int` values. -/
def u32_add (a b : Nat) : Nat := (a + b) % U32_MOD

/-- Subtraction of two `unsigned int` values (wraps below zero). -/
def u32_sub (a b : Nat) : Nat := (a % U32_MOD + (U32_MOD - b % U32_MOD)) % U32_MOD

/-- Multiplication of two `unsigned int` values. -/
def u32_mul (a b : Nat) : Nat := (a * b) % U32_MOD

/-- Subtraction of two `unsigned long long` values (wraps below zero). -/
def u64_sub (a b : Nat) : Nat := (a % U64_MOD + (U64_MOD - b % U64_MOD)) % U64_MOD

/-- Multiplication of two `unsigned long long` values. -/
def u64_mul (a b : Nat) : Nat := (a * b) % U64_MOD

/-- Conversion of an `unsigned int` to `int` (two's complement). -/
def toInt32 (a : Nat) : Int :=
  if a % U32_MOD < 2 ^ 31 then ((a % U32_MOD : Nat) : Int)
  else ((a % U32_MOD : Nat) : Int) - (U32_MOD : Int)

/-- Float division: no finite result when the divisor is zero. -/
def fdiv (a b : ℚ) : Option ℚ := if b = 0 then none else some (a / b)

/-- A `float` value that may be infinite or not a number.  The finite values
are the rationals of the rest of the embedding (no rounding, one zero). -/
inductive XFloat where
  | fin (q : ℚ)
  | pinf
  | ninf
  | nan
deriving DecidableEq

namespace XFloat

/-- Float negation. -/
def neg : XFloat → XFloat
  | fin a => fin (-a)
  | pinf => ninf
  | ninf => pinf
  | nan => nan

/-- Float addition: `inf + -inf` is NaN. -/
def add : XFloat → XFloat → XFloat
  | fin a, fin b => fin (a + b)
  | nan, _ => nan
  | _, nan => nan
  | pinf, ninf => nan
  | ninf, pinf => nan
  | pinf, _ => pinf
  | _, pinf => pinf
  | ninf, _ => ninf
  | _, ninf => ninf

/-- Float subtraction. -/
def sub (a b : XFloat) : XFloat := add a (neg b)

/-- The infinity of the sign of `a`, NaN for zero: the product of `a` and
`+inf`. -/
def signed_inf (a : ℚ) : XFloat := if a = 0 then nan else if 0 < a then pinf else ninf

/-- Float multiplication: `0 * inf` is NaN. -/
def mul : XFloat → XFloat → XFloat
  | fin a, fin b => fin (a * b)
  | nan, _ => nan
  | _, nan => nan
  | fin a, pinf => signed_inf a
  | pinf, fin a => signed_inf a
  | fin a, ninf => signed_inf (-a)
  | ninf, fin a => signed_inf (-a)
  | pinf, pinf => pinf
  | ninf, ninf => pinf
  | pinf, ninf => ninf
  | ninf, pinf => ninf

/-- Float division.  A zero divisor is `+0` (the divisors of the code are
converted unsigned integers): `x / 0` is the infinity of the sign of `x`, and
`0 / 0` and `inf / inf` are NaN. -/
def div : XFloat → XFloat → XFloat
  | fin a, fin b => if b = 0 then signed_inf a else fin (a / b)
  | nan, _ => nan
  | _, nan => nan
  | fin _, pinf => fin 0
  | fin _, ninf => fin 0
  | pinf, fin b => if 0 ≤ b then pinf else ninf
  | ninf, fin b => if 0 ≤ b then ninf else pinf
  | pinf, pinf => nan
  | pinf, ninf => nan
  | ninf, pinf => nan
  | ninf, ninf => nan

/-- The float comparison `a > b`: false as soon as one side is NaN. -/
def gt : XFloat → XFloat → Bool
  | fin a, fin b => decide (b < a)
  | nan, _ => false
  | _, nan => false
  | pinf, pinf => false
  | pinf, _ => true
  | _, pinf => false
  | ninf, _ => false
  | fin _, ninf => true

end XFloat

/-- The fields of `struct cpufreq_policy` the governors read. -/
structure Policy where
  cur : Nat
  min : Nat
  max : Nat
  util : Nat
  cpu : Nat

/-- A `for (i = lo; i < hi; i++)` loop as a state transformer: `body lo`,
`body (lo + 1)`, ... are applied in order. -/
def iterate_body {σ : Type} (body : Nat → σ → σ) (init : σ) : Nat → σ
  | 0 => init
  | n + 1 => body n (iterate_body body init n)

/-- The loop `for (i = lo; i < hi; i++) body`. -/
def for_loop {σ : Type} (lo hi : Nat) (body : Nat → σ → σ) (init : σ) : σ :=
  iterate_body (fun k => body (lo + k)) init (hi - lo)

/-- The largest of `v 0, ..., v (N - 1)`: the `max_a` of the update rules. -/
def max_over (N : Nat) (hN : 0 < N) (v : Nat → ℚ) : ℚ :=
  (Finset.range N).sup' (Finset.nonempty_range_iff.mpr (Nat.pos_iff_ne_zero.mp hN)) v

/-- The random source: a stream of values and the position of the next one. -/
structure Rng where
  draws : Nat → Nat
  pos : Nat

/-- One call of `get_random_u32()`. -/
def get_random_u32 (g : Rng) : Nat × Rng :=
  (g.draws g.pos % U32_MOD, { g with pos := g.pos + 1 })

/-- Conversion of an `int` to `unsigned int`. -/
def toU32 (i : Int) : Nat := (i % (U32_MOD : Int)).toNat

/-- The kernel `abs()` applied to an `unsigned int`: the argument is first
converted to `int`. -/
def abs_u32 (a : Nat) : Int := |toInt32 a|

/-- The number of halvings that take `n` below 2, at most `fuel` of them. -/
def log2_aux : Nat → Nat → Nat
  | 0, _ => 0
  | fuel + 1, n => if n < 2 then 0 else log2_aux fuel (n / 2) + 1

/-- The position of the leading bit of `n`. -/
def nat_log2 (n : Nat) : Nat := log2_aux n n

/-- The binary exponent of a positive rational `x`: the `e` with
`2 ^ e ≤ x < 2 ^ (e + 1)`. -/
def binade (x : ℚ) : Int :=
  let e0 : Int := (nat_log2 x.num.natAbs : Int) - (nat_log2 x.den : Int)
  if (2 : ℚ) ^ e0 ≤ x then e0 else e0 - 1

/-- Rounding to the nearest value with a significand of `p` bits, ties to the
even significand. -/
def fround (p : Nat) (x : ℚ) : ℚ :=
  if x = 0 then 0
  else
    let ulp : ℚ := (2 : ℚ) ^ (binade |x| - (p : Int) + 1)
    let t : ℚ := |x| / ulp
    let n : Int := ⌊t⌋
    let k : Int :=
      if t - n < 1 / 2 then n else if 1 / 2 < t - n then n + 1
      else if n % 2 = 0 then n else n + 1
    (if x < 0 then -1 else 1) * (k : ℚ) * ulp

/-- The conversion of a value to `float` (binary32, significand of 24 bits). -/
def f32 (x : ℚ) : ℚ := fround 24 x

/-- The rounding of a `double` operation (binary64, significand of 53 bits). -/
def f64 (x : ℚ) : ℚ := fround 53 x

/-! ## `main.c`: the single-table governor -/

namespace Rl

def NUM_STATES : Nat := 5
def NUM_ACTIONS : Nat := 3
def ALPHA : ℚ := 1 / 10
def GAMMA : ℚ := 9 / 10
def EPSILON : ℚ := 1 / 10

/-- The globals of `main.c`: `q_table` by row and column, `current_state`.
Only rows `0..NUM_STATES-1` and columns `0..NUM_ACTIONS-1` are table cells. -/
structure State where
  q_table : Int → Int → ℚ
  current_state : Int

/-- The exploitation loop of `choose_action` (lines 32-41): the pair is
`(best_action, max_q)`. -/
def best_action (st : State) : Int :=
  (for_loop 1 NUM_ACTIONS
    (fun i (acc : Int × ℚ) =>
      if st.q_table st.current_state i > acc.2 then
        ((i : Int), st.q_table st.current_state i)
      else acc)
    (0, st.q_table st.current_state 0)).1

/-- The function `choose_action` of `main.c` (lines 27-43).  The test of line
29 is made in `double`, where both sides have their exact values. -/
def choose_action (st : State) (g : Rng) : Int × Rng :=
  let r := get_random_u32 g
  if (r.1 : ℚ) < (UINT_MAX : ℚ) * EPSILON then
    let r2 := get_random_u32 r.2
    (((r2.1 % NUM_ACTIONS : Nat) : Int), r2.2)
  else
    (best_action st, r.2)

/-- The loop of `update_q_table` (lines 48-54): `max_future_q`. -/
def max_future_q (st : State) (next_state : Int) : ℚ :=
  for_loop 1 NUM_ACTIONS
    (fun i (m : ℚ) => if st.q_table next_state i > m then st.q_table next_state i else m)
    (st.q_table next_state 0)

/-- The function `update_q_table` of `main.c` (lines 46-58). -/
def update_q_table (st : State) (action next_state : Int) (reward : ℚ) : State :=
  let m := max_future_q st next_state
  let old := st.q_table st.current_state action
  let new := old + ALPHA * (reward + GAMMA * m - old)
  { q_table := Function.update st.q_table st.current_state
                 (Function.update (st.q_table st.current_state) action new),
    current_state := next_state }

/-- The action switch of `rl_governor` (`main.c`, lines 74-85). -/
def next_freq (action : Int) (p : Policy) : Nat :=
  if action = 0 then Nat.min (u32_add p.cur 100000) p.max
  else if action = 1 then Nat.max (u32_sub p.cur 100000) p.min
  else p.cur

/-- The frequency-to-state map of `rl_governor` (`main.c`, lines 69 and 91):
`(f - policy->min) / ((policy->max - policy->min) / NUM_STATES)`, unsigned,
stored in an `int`.  `none` is a division by zero. -/
def state_bin (f : Nat) (p : Policy) : Option Int :=
  let width := u32_sub p.max p.min / NUM_STATES
  if width = 0 then none else some (toInt32 (u32_sub f p.min / width))

/-- The function `update_q_table` of `main.c` (lines 46-58) with the rounding
of line 56.  `ALPHA` and `GAMMA` are `double` constants, so the right-hand
side of `+=` is computed in `double`, one rounding per operation, and the sum
is stored in the `float` cell. -/
def update_q_table_rounded (st : State) (action next_state : Int) (reward : ℚ) : State :=
  let m := max_future_q st next_state
  let old := st.q_table st.current_state action
  let new :=
    f32 (f64 (old + f64 (f64 ALPHA * f64 (f64 (reward + f64 (f64 GAMMA * m)) - old))))
  { q_table := Function.update st.q_table st.current_state
                 (Function.update (st.q_table st.current_state) action new),
    current_state := next_state }

/-- The rounding tolerance of one update of the cell `(s, a)` for the
transition `(s, a, r, n)`: `2 ^ -22` of the magnitudes that enter line 56, the
cell, the reward and the row maximum. -/
def update_tolerance (s a n : Int) (r : ℚ) (st : State) : ℚ :=
  (|st.q_table s a| + |r|
    + |max_over NUM_ACTIONS (by decide) (fun i => st.q_table n (i : Int))|) / 2 ^ 22

/-- The reward of `rl_governor` (line 88):
`-abs(policy->util - (next_freq * 100 / policy->max))`, an `int` stored in a
`float`.  `none` is the division by `policy->max = 0`. -/
def reward (util next_freq max : Nat) : Option ℚ :=
  if max = 0 then none
  else some (((-(abs_u32 (u32_sub util (u32_mul next_freq 100 / max))) : Int) : ℚ))

end Rl

/-! ## `doubleqlearning.c`: the double Q-learning governor -/

namespace DoubleQ

def NUM_CORES : Nat := 4
def NUM_STATES : Nat := 10
def NUM_ACTIONS : Nat := 5
def ALPHA : ℚ := 1 / 10
def GAMMA : ℚ := 9 / 10
def EPSILON : ℚ := 1 / 10

/-- The block `struct q_table`. -/
structure q_table where
  q1 : Int → Int → ℚ
  q2 : Int → Int → ℚ

/-- The globals of `doubleqlearning.c`, each indexed by core; `q_tables core`
is the block `q_tables[core]` points to. -/
structure State where
  q_tables : Int → q_table
  current_states : Int → Int
  last_update_time : Int → Nat
  energy_consumed : Int → Nat

/-- The exploitation loop of `choose_action` (lines 53-63): the pair is
`(best_action, max_q)`. -/
def best_action (st : State) (core : Int) : Int :=
  (for_loop 1 NUM_ACTIONS
    (fun i (acc : Int × ℚ) =>
      let q_sum := (st.q_tables core).q1 (st.current_states core) i
                 + (st.q_tables core).q2 (st.current_states core) i
      if q_sum > acc.2 then ((i : Int), q_sum) else acc)
    (0, (st.q_tables core).q1 (st.current_states core) 0
      + (st.q_tables core).q2 (st.current_states core) 0)).1

/-- The function `choose_action` of `doubleqlearning.c` (lines 48-65).  The
test of line 50 is made in `double`, where both sides have their exact values. -/
def choose_action (st : State) (core : Int) (g : Rng) : Int × Rng :=
  let r := get_random_u32 g
  if (r.1 : ℚ) < (UINT_MAX : ℚ) * EPSILON then
    let r2 := get_random_u32 r.2
    (((r2.1 % NUM_ACTIONS : Nat) : Int), r2.2)
  else
    (best_action st core, r.2)

/-- The loop of `update_q_tables` (lines 70-80): the pair is
`(max_future_q1, max_future_q2)`. -/
def max_future (t : q_table) (next_state : Int) : ℚ × ℚ :=
  for_loop 1 NUM_ACTIONS
    (fun i (m : ℚ × ℚ) =>
      (if t.q1 next_state i > m.1 then t.q1 next_state i else m.1,
       if t.q2 next_state i > m.2 then t.q2 next_state i else m.2))
    (t.q1 next_state 0, t.q2 next_state 0)

/-- The function `update_q_tables` (lines 68-89). -/
def update_q_tables (st : State) (core action next_state : Int) (reward : ℚ) (g : Rng) :
    State × Rng :=
  let t := st.q_tables core
  let m := max_future t next_state
  let s := st.current_states core
  let r := get_random_u32 g
  let new1 := t.q1 s action + ALPHA * (reward + GAMMA * m.2 - t.q1 s action)
  let new2 := t.q2 s action + ALPHA * (reward + GAMMA * m.1 - t.q2 s action)
  let t2 : q_table :=
    if r.1 % 2 ≠ 0 then
      { q1 := Function.update t.q1 s (Function.update (t.q1 s) action new1), q2 := t.q2 }
    else
      { q1 := t.q1, q2 := Function.update t.q2 s (Function.update (t.q2 s) action new2) }
  ({ st with
      q_tables := Function.update st.q_tables core t2,
      current_states := Function.update st.current_states core next_state }, r.2)

/-- The function `calculate_reward` (lines 92-99).  `cur_freq * time_diff` is an
`unsigned long long` product, `energy_diff` an `unsigned long long`
difference; the two float divisions are `fdiv`, so the result is the finite
reward, or `none` when there is none (`Ext.calculate_reward` is the value the
machine returns then). -/
def calculate_reward (st : State) (core : Int) (cur_freq next_freq time_diff : Nat) :
    Option ℚ :=
  let energy_diff := u64_sub (st.energy_consumed core) (u64_mul cur_freq time_diff / 1000000)
  (fdiv (next_freq : ℚ) (cur_freq : ℚ)).bind fun performance =>
  (fdiv performance (energy_diff : ℚ)).bind fun energy_efficiency =>
  some (energy_efficiency * 100 - 50)

/-- The action switch of `double_q_governor` (lines 118-137). -/
def next_freq (action : Int) (p : Policy) : Nat :=
  if action = 0 then Nat.max (u32_sub p.cur 300000) p.min
  else if action = 1 then Nat.max (u32_sub p.cur 100000) p.min
  else if action = 2 then p.cur
  else if action = 3 then Nat.min (u32_add p.cur 100000) p.max
  else if action = 4 then Nat.min (u32_add p.cur 300000) p.max
  else p.cur

/-- The frequency-to-state map of `double_q_governor` (lines 113 and 143). -/
def state_bin (f : Nat) (p : Policy) : Option Int :=
  let width := u32_sub p.max p.min / NUM_STATES
  if width = 0 then none else some (toInt32 (u32_sub f p.min / width))

namespace Ext

/-- The block `struct q_table`, its cells being float values that may be
infinite or NaN. -/
structure q_table where
  q1 : Int → Int → XFloat
  q2 : Int → Int → XFloat

/-- The globals of `doubleqlearning.c`, each indexed by core, with table cells
that may be infinite or NaN. -/
structure State where
  q_tables : Int → q_table
  current_states : Int → Int
  last_update_time : Int → Nat
  energy_consumed : Int → Nat

/-- A state with finite table cells. -/
def ofState (st : DoubleQ.State) : State :=
  { q_tables := fun c =>
      { q1 := fun s a => XFloat.fin ((st.q_tables c).q1 s a),
        q2 := fun s a => XFloat.fin ((st.q_tables c).q2 s a) },
    current_states := st.current_states,
    last_update_time := st.last_update_time,
    energy_consumed := st.energy_consumed }

/-- The exploitation loop of `choose_action` (lines 53-63): the pair is
`(best_action, max_q)`. -/
def best_action (st : State) (core : Int) : Int :=
  (for_loop 1 NUM_ACTIONS
    (fun i (acc : Int × XFloat) =>
      let q_sum := XFloat.add ((st.q_tables core).q1 (st.current_states core) i)
                     ((st.q_tables core).q2 (st.current_states core) i)
      if XFloat.gt q_sum acc.2 then ((i : Int), q_sum) else acc)
    (0, XFloat.add ((st.q_tables core).q1 (st.current_states core) 0)
          ((st.q_tables core).q2 (st.current_states core) 0))).1

/-- The function `choose_action` of `doubleqlearning.c` (lines 48-65). -/
def choose_action (st : State) (core : Int) (g : Rng) : Int × Rng :=
  let r := get_random_u32 g
  if (r.1 : ℚ) < (UINT_MAX : ℚ) * EPSILON then
    let r2 := get_random_u32 r.2
    (((r2.1 % NUM_ACTIONS : Nat) : Int), r2.2)
  else
    (best_action st core, r.2)

/-- The loop of `update_q_tables` (lines 70-80): the pair is
`(max_future_q1, max_future_q2)`. -/
def max_future (t : q_table) (next_state : Int) : XFloat × XFloat :=
  for_loop 1 NUM_ACTIONS
    (fun i (m : XFloat × XFloat) =>
      (if XFloat.gt (t.q1 next_state i) m.1 then t.q1 next_state i else m.1,
       if XFloat.gt (t.q2 next_state i) m.2 then t.q2 next_state i else m.2))
    (t.q1 next_state 0, t.q2 next_state 0)

/-- The function `update_q_tables` (lines 68-89). -/
def update_q_tables (st : State) (core action next_state : Int) (reward : XFloat) (g : Rng) :
    State × Rng :=
  let t := st.q_tables core
  let m := max_future t next_state
  let s := st.current_states core
  let r := get_random_u32 g
  let new1 := XFloat.add (t.q1 s action)
    (XFloat.mul (XFloat.fin ALPHA)
      (XFloat.sub (XFloat.add reward (XFloat.mul (XFloat.fin GAMMA) m.2)) (t.q1 s action)))
  let new2 := XFloat.add (t.q2 s action)
    (XFloat.mul (XFloat.fin ALPHA)
      (XFloat.sub (XFloat.add reward (XFloat.mul (XFloat.fin GAMMA) m.1)) (t.q2 s action)))
  let t2 : q_table :=
    if r.1 % 2 ≠ 0 then
      { q1 := Function.update t.q1 s (Function.update (t.q1 s) action new1), q2 := t.q2 }
    else
      { q1 := t.q1, q2 := Function.update t.q2 s (Function.update (t.q2 s) action new2) }
  ({ q_tables := Function.update st.q_tables core t2,
     current_states := Function.update st.current_states core next_state,
     last_update_time := st.last_update_time,
     energy_consumed := st.energy_consumed }, r.2)

/-- The function `calculate_reward` (lines 92-99) with the float divisions as
the machine makes them: a zero divisor gives an infinity or NaN. -/
def calculate_reward (st : State) (core : Int) (cur_freq next_freq time_diff : Nat) : XFloat :=
  let energy_diff := u64_sub (st.energy_consumed core) (u64_mul cur_freq time_diff / 1000000)
  let performance := XFloat.div (XFloat.fin (next_freq : ℚ)) (XFloat.fin (cur_freq : ℚ))
  let energy_efficiency := XFloat.div performance (XFloat.fin (energy_diff : ℚ))
  XFloat.sub (XFloat.mul energy_efficiency (XFloat.fin 100)) (XFloat.fin 50)

end Ext

/-- The globals of `doubleqlearning.c` during module initialisation:
`q_tables[i]` is a pointer, `none` for NULL. -/
structure InitState where
  q_tables : Int → Option q_table
  current_states : Int → Int
  last_update_time : Int → Nat
  energy_consumed : Int → Nat

/-- The static storage before `init_q_tables`: all zero, every pointer NULL. -/
def init_zero : InitState :=
  { q_tables := fun _ => none,
    current_states := fun _ => 0,
    last_update_time := fun _ => 0,
    energy_consumed := fun _ => 0 }

/-- The zeroing loops of `init_q_tables` (lines 35-40) on one block. -/
def zero_tables (t : q_table) : q_table :=
  for_loop 0 NUM_STATES
    (fun j (t : q_table) =>
      for_loop 0 NUM_ACTIONS
        (fun k (t : q_table) =>
          { q1 := Function.update t.q1 (j : Int) (Function.update (t.q1 (j : Int)) (k : Int) 0),
            q2 := Function.update t.q2 (j : Int) (Function.update (t.q2 (j : Int)) (k : Int) 0) })
        t)
    t

/-- The function `init_q_tables` (lines 26-45).  `kmalloc i` is the result of
the allocation made for core `i`: the fresh block, or `none` for NULL; `now i`
is the clock read for core `i`.  The flag of the loop state says that the
function has returned (line 33). -/
def init_q_tables (kmalloc : Nat → Option q_table) (now : Nat → Nat) (st : InitState) :
    InitState :=
  (for_loop 0 NUM_CORES
    (fun i (acc : InitState × Bool) =>
      if acc.2 then acc
      else
        match kmalloc i with
        | none =>
          ({ q_tables := Function.update acc.1.q_tables (i : Int) none,
             current_states := acc.1.current_states,
             last_update_time := acc.1.last_update_time,
             energy_consumed := acc.1.energy_consumed }, true)
        | some raw =>
          ({ q_tables := Function.update acc.1.q_tables (i : Int) (some (zero_tables raw)),
             current_states := Function.update acc.1.current_states (i : Int) 0,
             last_update_time := Function.update acc.1.last_update_time (i : Int) (now i),
             energy_consumed := Function.update acc.1.energy_consumed (i : Int) 0 }, false))
    (st, false)).1

/-- What a module initialisation leaves: the globals, whether
`cpufreq_register_governor` was called, and the value returned. -/
structure InitResult where
  state : InitState
  registered : Bool
  ret : Int

/-- The function `double_q_gov_init` (lines 162-166); `register_ret` is what
`cpufreq_register_governor` returns. -/
def double_q_gov_init (kmalloc : Nat → Option q_table) (now : Nat → Nat) (register_ret : Int)
    (st : InitState) : InitResult :=
  { state := init_q_tables kmalloc now st, registered := true, ret := register_ret }

end DoubleQ

/-! ## `deepq.c`: the deep Q-network governor -/

namespace Dqn

def NUM_CORES : Nat := 4
def STATE_DIM : Nat := 5
def NUM_ACTIONS : Nat := 5
def HIDDEN_SIZE : Nat := 32
def BATCH_SIZE : Nat := 32
def REPLAY_BUFFER_SIZE : Nat := 1000
def TARGET_UPDATE_FREQ : Nat := 100
def GAMMA : ℚ := 99 / 100
def LEARNING_RATE : ℚ := 1 / 1000
def EPSILON_START : ℚ := 1
def EPSILON_END : ℚ := 1 / 100
def EPSILON_DECAY : ℚ := 995 / 1000

/-- The address of a heap block. -/
abbrev Addr := Nat

/-- The block `struct neuron`: a pointer to the weights and the bias. -/
structure neuron where
  weights : Addr
  bias : ℚ

/-- The block `struct layer`: a pointer to the neuron array and two sizes. -/
structure layer where
  neurons : Addr
  input_size : Int
  output_size : Int

/-- The block `struct dqn`: two layers, held by value. -/
structure dqn where
  hidden : layer
  output : layer

/-- The block `struct experience`. -/
structure experience where
  state : Nat → ℚ
  action : Int
  reward : ℚ
  next_state : Nat → ℚ
  done : Bool

/-- The heap blocks reached through pointers: neuron arrays (`struct neuron *`)
and weight arrays (`float *`), by block address and index. -/
structure Heap where
  neurons : Addr → Nat → neuron
  floats : Addr → Nat → ℚ

/-- The globals of `deepq.c`, each indexed by core.  `q_network core` and
`target_network core` are the contents of the two `struct dqn` blocks the
pointers refer to; `replay_buffer core` is the experience array. -/
structure State where
  heap : Heap
  q_network : Int → dqn
  target_network : Int → dqn
  replay_buffer : Int → Int → experience
  replay_buffer_count : Int → Int
  total_steps : Int → Int
  epsilon : Int → ℚ

/-- The assignment `a[k] = v` on a weight array. -/
def Heap.set_weight (h : Heap) (a : Addr) (k : Nat) (v : ℚ) : Heap :=
  { neurons := h.neurons,
    floats := Function.update h.floats a (Function.update (h.floats a) k v) }

/-- The assignment `a[j].bias = v` on a neuron array. -/
def Heap.set_bias (h : Heap) (a : Addr) (j : Nat) (v : ℚ) : Heap :=
  { neurons := Function.update h.neurons a
      (Function.update (h.neurons a) j { weights := (h.neurons a j).weights, bias := v }),
    floats := h.floats }

/-- The call `memcpy(dst, src, sizeof(float) * n)` on float arrays. -/
def memcpy_floats (dst src : Nat → ℚ) (n : Nat) : Nat → ℚ :=
  fun k => if k < n then src k else dst k

/-- The function `relu` (lines 78-81). -/
def relu (x : ℚ) : ℚ := if x > 0 then x else 0

/-- The hidden activations of `forward` (lines 90-96). -/
def forward_hidden (h : Heap) (network : dqn) (input : Nat → ℚ) (i : Nat) : ℚ :=
  relu (for_loop 0 STATE_DIM
      (fun j (acc : ℚ) =>
        acc + input j * h.floats (h.neurons network.hidden.neurons i).weights j) 0
    + (h.neurons network.hidden.neurons i).bias)

/-- The function `forward` (lines 84-106); the result is the array `output`,
whose cells are `0..NUM_ACTIONS-1`. -/
def forward (h : Heap) (network : dqn) (input : Nat → ℚ) : Nat → ℚ :=
  fun i =>
    if i < NUM_ACTIONS then
      for_loop 0 HIDDEN_SIZE
        (fun j (acc : ℚ) =>
          acc + forward_hidden h network input j
                * h.floats (h.neurons network.output.neurons i).weights j) 0
      + (h.neurons network.output.neurons i).bias
    else 0

/-- The exploitation loop of `choose_action` (lines 115-122) on `q_values`. -/
def best_action (q_values : Nat → ℚ) : Nat :=
  for_loop 1 NUM_ACTIONS (fun i (best : Nat) => if q_values i > q_values best then i else best) 0

/-- The function `choose_action` of `deepq.c` (lines 109-124).  The test of
line 111 is made in `float`: `epsilon[core]` is a `float`, so `UINT_MAX` is
converted to `float`, the product is a `float` product, and the draw is
converted to `float` for the comparison. -/
def choose_action (st : State) (core : Int) (state : Nat → ℚ) (g : Rng) : Int × Rng :=
  let r := get_random_u32 g
  if f32 (r.1 : ℚ) < f32 (f32 (UINT_MAX : ℚ) * st.epsilon core) then
    let r2 := get_random_u32 r.2
    (((r2.1 % NUM_ACTIONS : Nat) : Int), r2.2)
  else
    ((best_action (forward st.heap (st.q_network core) state) : Int), r.2)

/-- The function `update_target_network` (lines 127-130): the `memcpy` copies
the `struct dqn` block, that is the two layers with their `neurons` pointers. -/
def update_target_network (core : Int) (st : State) : State :=
  { st with target_network := Function.update st.target_network core (st.q_network core) }

/-- The TD error of one sampled experience (lines 142-152). -/
def td_error (h : Heap) (q target : dqn) (exp : experience) : ℚ :=
  let current_q := forward h q exp.state
  let target_q := forward h target exp.next_state
  let max_next_q := for_loop 1 NUM_ACTIONS
    (fun j (m : ℚ) => if target_q j > m then target_q j else m) (target_q 0)
  let tgt := exp.reward + (if exp.done then 0 else GAMMA * max_next_q)
  tgt - current_q exp.action.toNat

/-- The hidden-layer adjustment of `train_network` (lines 155-160). -/
def adjust_hidden (q : dqn) (error : ℚ) (exp : experience) (h : Heap) : Heap :=
  for_loop 0 HIDDEN_SIZE
    (fun j (h : Heap) =>
      let h1 := for_loop 0 STATE_DIM
        (fun k (h : Heap) =>
          h.set_weight (h.neurons q.hidden.neurons j).weights k
            (h.floats (h.neurons q.hidden.neurons j).weights k
              + LEARNING_RATE * error * exp.state k)) h
      h1.set_bias q.hidden.neurons j
        ((h1.neurons q.hidden.neurons j).bias + LEARNING_RATE * error)) h

/-- The output-layer adjustment of `train_network` (lines 162-167). -/
def adjust_output (q : dqn) (error : ℚ) (h : Heap) : Heap :=
  for_loop 0 NUM_ACTIONS
    (fun j (h : Heap) =>
      let h1 := for_loop 0 HIDDEN_SIZE
        (fun k (h : Heap) =>
          h.set_weight (h.neurons q.output.neurons j).weights k
            (h.floats (h.neurons q.output.neurons j).weights k
              + LEARNING_RATE * error * relu (h.neurons q.hidden.neurons k).bias)) h
      h1.set_bias q.output.neurons j
        ((h1.neurons q.output.neurons j).bias + LEARNING_RATE * error)) h

/-- The body of the batch loop of `train_network` after the draw (lines 140-167),
for the experience at `index`. -/
def train_sample (core : Int) (index : Int) (st : State) : State :=
  let exp := st.replay_buffer core index
  let error := td_error st.heap (st.q_network core) (st.target_network core) exp
  { st with
      heap := adjust_output (st.q_network core) error
                (adjust_hidden (st.q_network core) error exp st.heap) }

/-- One pass of the batch loop of `train_network` (lines 139-167): the draw of
`index`, then the adjustment for the experience there. -/
def train_step (core : Int) (sg : State × Rng) : State × Rng :=
  let r := get_random_u32 sg.2
  let index : Int := ((r.1 % toU32 (sg.1.replay_buffer_count core) : Nat) : Int)
  (train_sample core index sg.1, r.2)

/-- The function `train_network` (lines 133-169). -/
def train_network (core : Int) (st : State) (g : Rng) : State × Rng :=
  if st.replay_buffer_count core < (BATCH_SIZE : Int) then (st, g)
  else for_loop 0 BATCH_SIZE (fun _ sg => train_step core sg) (st, g)

/-- The function `add_experience` (lines 172-184). -/
def add_experience (core : Int) (state : Nat → ℚ) (action : Int) (reward : ℚ)
    (next_state : Nat → ℚ) (done : Bool) (st : State) : State :=
  let index := Int.tmod (st.replay_buffer_count core) (REPLAY_BUFFER_SIZE : Int)
  let slot := st.replay_buffer core index
  let written : experience :=
    { state := memcpy_floats slot.state state STATE_DIM,
      action := action,
      reward := reward,
      next_state := memcpy_floats slot.next_state next_state STATE_DIM,
      done := done }
  { st with
      replay_buffer := Function.update st.replay_buffer core
        (Function.update (st.replay_buffer core) index written),
      replay_buffer_count := Function.update st.replay_buffer_count core
        (if st.replay_buffer_count core < (REPLAY_BUFFER_SIZE : Int)
         then st.replay_buffer_count core + 1 else st.replay_buffer_count core) }

/-- The epsilon schedule of `dqn_governor` (line 251):
`epsilon[core] = max(EPSILON_END, epsilon[core] * EPSILON_DECAY)`.  The two
constants are `double`, so the product and the maximum are taken in `double`;
the result is stored in the `float` `epsilon[core]`. -/
def decay_epsilon (e : ℚ) : ℚ := f32 (max (f64 EPSILON_END) (f64 (e * f64 EPSILON_DECAY)))

/-- The constant `EPSILON_END` as a `float` holds it: `(float)0.01`. -/
def EPSILON_END_F32 : ℚ := f32 (f64 EPSILON_END)

/-- The value of `epsilon[core]` after `n` ticks: `dqn_gov_init` stores
`EPSILON_START` (line 273) and every tick applies line 251. -/
def epsilon_after : Nat → ℚ
  | 0 => EPSILON_START
  | n + 1 => decay_epsilon (epsilon_after n)

/-- The value of `epsilon[core]` after `n` further ticks from the value `e`. -/
def epsilon_from (e : ℚ) : Nat → ℚ
  | 0 => e
  | n + 1 => decay_epsilon (epsilon_from e n)

/-- A run of `k` ticks of the schedule from `e` that is checked tick by tick:
the result is the epsilon reached, or `none` if a tick raised epsilon or took
it below `lo`. -/
def schedule_run (lo e : ℚ) : Nat → Option ℚ
  | 0 => some e
  | k + 1 =>
    if decay_epsilon e ≤ e ∧ lo ≤ decay_epsilon e then schedule_run lo (decay_epsilon e) k
    else none

/-- The action switch of `dqn_governor` (lines 211-230). -/
def next_freq (action : Int) (p : Policy) : Nat :=
  if action = 0 then Nat.max (u32_sub p.cur 300000) p.min
  else if action = 1 then Nat.max (u32_sub p.cur 100000) p.min
  else if action = 2 then p.cur
  else if action = 3 then Nat.min (u32_add p.cur 100000) p.max
  else if action = 4 then Nat.min (u32_add p.cur 300000) p.max
  else p.cur

/-- The function `dqn_governor` (lines 197-254), one tick.  `current_state` and
`next_state` are the vectors `get_current_state` writes before and after the
actuation, `p2` is the policy as read after the settle wait.  `none` is the
integer division by `policy->max = 0`. -/
def dqn_governor (p p2 : Policy) (current_state next_state : Nat → ℚ) (st : State) (g : Rng) :
    Option (State × Rng) :=
  let core : Int := toInt32 p.cpu
  let a := choose_action st core current_state g
  let nf := next_freq a.1 p
  if p2.max = 0 then none
  else
    let reward : ℚ := ((-(abs_u32 (u32_sub p2.util (u32_mul nf 100 / p2.max))) : Int) : ℚ) / 100
    let st1 := add_experience core current_state a.1 reward next_state false st
    let tr := train_network core st1 a.2
    let st2 : State :=
      { tr.1 with total_steps := Function.update tr.1.total_steps core (tr.1.total_steps core + 1) }
    let st3 : State :=
      if Int.tmod (st2.total_steps core) (TARGET_UPDATE_FREQ : Int) = 0
      then update_target_network core st2 else st2
    some ({ st3 with
              epsilon := Function.update st3.epsilon core (decay_epsilon (st3.epsilon core)) },
          tr.2)

/-- The reward of `dqn_governor` (line 240):
`-abs(policy->util - (next_freq * 100 / policy->max)) / 100.0`.  `none` is the
division by `policy->max = 0`. -/
def reward (util next_freq max : Nat) : Option ℚ :=
  if max = 0 then none
  else some (((-(abs_u32 (u32_sub util (u32_mul next_freq 100 / max))) : Int) : ℚ) / 100)

/-- The index `get_random_u32() % replay_buffer_count[core]` that a pass of the
batch loop of `train_network` computes (line 139) and the modulus it uses. -/
def sample_index (core : Int) (sg : State × Rng) : Int × Nat :=
  ((((get_random_u32 sg.2).1 % toU32 (sg.1.replay_buffer_count core) : Nat) : Int),
   toU32 (sg.1.replay_buffer_count core))

/-- The allocator behind `kmalloc`: `fails n` says whether the `n`-th call
returns NULL, `calls` counts the calls made so far. -/
structure Alloc where
  fails : Nat → Bool
  calls : Nat

/-- One call of `kmalloc`: NULL (`none`), or the fresh block `calls + 1`. -/
def kmalloc (a : Alloc) : Option Addr × Alloc :=
  (if a.fails a.calls then none else some (a.calls + 1),
   { fails := a.fails, calls := a.calls + 1 })

/-- What `init_layer` works on: the heap, the allocator and the random source. -/
structure InitCtx where
  heap : Heap
  alloc : Alloc
  rng : Rng

/-- The value `(float)get_random_int() / INT_MAX * 2 - 1` of `init_layer`,
computed in `float`: the draw and `INT_MAX` are converted to `float` (the
latter to `2 ^ 31`) and every operation rounds. -/
def rand_weight (r : Nat) : ℚ :=
  f32 (f32 (f32 (f32 (r : ℚ) / f32 (2147483647 : ℚ)) * 2) - 1)

/-- The assignment `a[j].weights = w` on a neuron array. -/
def Heap.set_weights_ptr (h : Heap) (a : Addr) (j : Nat) (w : Addr) : Heap :=
  { neurons := Function.update h.neurons a
      (Function.update (h.neurons a) j { weights := w, bias := (h.neurons a j).bias }),
    floats := h.floats }

/-- The body of the loop of `init_layer` for the neuron `i` of the array
`neurons` (lines 62-66).  `none`: the weights block is NULL and a weight is
written through it. -/
def init_neuron (neurons : Addr) (input_size : Nat) (i : Nat) (c : InitCtx) : Option InitCtx :=
  let w := kmalloc c.alloc
  match w.1 with
  | none =>
    if input_size = 0 then
      let r := get_random_u32 c.rng
      some { heap := (c.heap.set_weights_ptr neurons i 0).set_bias neurons i (rand_weight r.1),
             alloc := w.2, rng := r.2 }
    else none
  | some wp =>
    let c1 : InitCtx :=
      for_loop 0 input_size
        (fun j (c : InitCtx) =>
          let r := get_random_u32 c.rng
          { heap := c.heap.set_weight wp j (rand_weight r.1), alloc := c.alloc, rng := r.2 })
        { heap := c.heap.set_weights_ptr neurons i wp, alloc := w.2, rng := c.rng }
    let r := get_random_u32 c1.rng
    some { heap := c1.heap.set_bias neurons i (rand_weight r.1), alloc := c1.alloc, rng := r.2 }

/-- The function `init_layer` (lines 54-68) on a layer block that exists; the
result is the layer written.  `none`: a NULL pointer is dereferenced. -/
def init_layer (input_size output_size : Nat) (c : InitCtx) : Option (layer × InitCtx) :=
  let r := kmalloc c.alloc
  match r.1 with
  | none =>
    if output_size = 0 then
      some ({ neurons := 0, input_size := input_size, output_size := output_size },
            { heap := c.heap, alloc := r.2, rng := c.rng })
    else none
  | some neurons =>
    (for_loop 0 output_size
      (fun i (acc : Option InitCtx) => acc.bind (init_neuron neurons input_size i))
      (some { heap := c.heap, alloc := r.2, rng := c.rng })).map
      (fun c2 => ({ neurons := neurons, input_size := input_size, output_size := output_size },
                  c2))

/-- The function `init_dqn` (lines 71-75) on the pointer `network` (`none` for
NULL).  `none`: with a NULL `network` the first store of `init_layer` goes
through NULL. -/
def init_dqn (network : Option Addr) (c : InitCtx) : Option (dqn × InitCtx) :=
  match network with
  | none => none
  | some _ =>
    (init_layer STATE_DIM HIDDEN_SIZE c).bind fun h =>
    (init_layer HIDDEN_SIZE NUM_ACTIONS h.2).bind fun o =>
    some ({ hidden := h.1, output := o.1 }, o.2)

/-- The globals of `deepq.c` during module initialisation: the three per-core
pointers are `none` for NULL. -/
structure InitState where
  ctx : InitCtx
  q_network : Int → Option dqn
  target_network : Int → Option dqn
  replay_buffer : Int → Option Addr
  replay_buffer_count : Int → Int
  total_steps : Int → Int
  epsilon : Int → ℚ

/-- The body of the loop of `dqn_gov_init` for core `i` (lines 266-273). -/
def init_core (i : Nat) (st : InitState) : Option InitState :=
  let q := kmalloc st.ctx.alloc
  let t := kmalloc q.2
  (init_dqn q.1 { heap := st.ctx.heap, alloc := t.2, rng := st.ctx.rng }).bind fun qn =>
  (init_dqn t.1 qn.2).bind fun tn =>
  let rb := kmalloc tn.2.alloc
  some { ctx := { heap := tn.2.heap, alloc := rb.2, rng := tn.2.rng },
         q_network := Function.update st.q_network (i : Int) (some qn.1),
         target_network := Function.update st.target_network (i : Int) (some tn.1),
         replay_buffer := Function.update st.replay_buffer (i : Int) rb.1,
         replay_buffer_count := Function.update st.replay_buffer_count (i : Int) 0,
         total_steps := Function.update st.total_steps (i : Int) 0,
         epsilon := Function.update st.epsilon (i : Int) EPSILON_START }

/-- What the module initialisation leaves: the globals, whether
`cpufreq_register_governor` was called, and the value returned. -/
structure InitResult where
  state : InitState
  registered : Bool
  ret : Int

/-- The function `dqn_gov_init` (lines 262-276); `register_ret` is what
`cpufreq_register_governor` returns.  `none`: a NULL pointer is dereferenced
during the initialisation. -/
def dqn_gov_init (register_ret : Int) (st : InitState) : Option InitResult :=
  (for_loop 0 NUM_CORES (fun i (acc : Option InitState) => acc.bind (init_core i))
    (some st)).map
    (fun st2 => { state := st2, registered := true, ret := register_ret })

/-- The static storage before `dqn_gov_init`: all zero, every pointer NULL; the
heap, the allocator and the random source are given. -/
def init_zero (c : InitCtx) : InitState :=
  { ctx := c,
    q_network := fun _ => none,
    target_network := fun _ => none,
    replay_buffer := fun _ => none,
    replay_buffer_count := fun _ => 0,
    total_steps := fun _ => 0,
    epsilon := fun _ => 0 }

/-- What one tick of `dqn_governor` is given: the policy at entry and after the
settle wait, and the two sampled state vectors. -/
structure TickInput where
  p : Policy
  p2 : Policy
  current_state : Nat → ℚ
  next_state : Nat → ℚ

/-- A sequence of ticks of `dqn_governor`, one after the other; `none` as soon
as one of them divides by zero. -/
def run_ticks : List TickInput → State × Rng → Option (State × Rng)
  | [], sg => some sg
  | t :: ts, sg =>
    (dqn_governor t.p t.p2 t.current_state t.next_state sg.1 sg.2).bind (run_ticks ts)

end Dqn

/-! ## Concrete inputs -/

/-- A random source whose every draw is `UINT_MAX`. -/
def rng_max : Rng := { draws := fun _ => 4294967295, pos := 0 }

/-- A single-table state whose row 0 is `0, 1, 1`. -/
def Rl.state_ex : Rl.State :=
  { q_table := fun _ a => if a = 0 then 0 else 1, current_state := 0 }

/-- A double-table state whose row sums are `0, 0, 2, 1, 2` in every row. -/
def DoubleQ.state_ex : DoubleQ.State :=
  { q_tables := fun _ =>
      { q1 := fun _ a => if a = 2 then 1 else if a = 4 then 2 else 0,
        q2 := fun _ a => if a = 2 then 1 else if a = 3 then 1 else 0 },
    current_states := fun _ => 0,
    last_update_time := fun _ => 0,
    energy_consumed := fun _ => 0 }

/-- The double-table state as `init_q_tables` leaves it when the clock reads
0: zero tables, state 0, no energy consumed. -/
def DoubleQ.state_init : DoubleQ.State :=
  { q_tables := fun _ => { q1 := fun _ _ => 0, q2 := fun _ _ => 0 },
    current_states := fun _ => 0,
    last_update_time := fun _ => 0,
    energy_consumed := fun _ => 0 }

/-- The double-table state `DoubleQ.state_ex` after one tick of 10 ms at
1 GHz: `energy_consumed` is `1000000 * 10000000 / 1000000 = 10000000`. -/
def DoubleQ.state_after_tick : DoubleQ.State :=
  { q_tables := DoubleQ.state_ex.q_tables,
    current_states := DoubleQ.state_ex.current_states,
    last_update_time := fun _ => 10000000,
    energy_consumed := fun _ => 10000000 }

/-- A heap with every weight and every bias zero; the weights of neuron `j` of
the array at `a` are the block `2 * (a * 32 + j) + 1`. -/
def Dqn.heap_zero : Dqn.Heap :=
  { neurons := fun a j => { weights := 2 * (a * 32 + j) + 1, bias := 0 },
    floats := fun _ _ => 0 }

/-- A DQN state with an empty replay buffer on every core: the live network of
core `c` uses the neuron arrays `4 c` and `4 c + 1`, the target network the
arrays `4 c + 2` and `4 c + 3`. -/
def Dqn.state_empty : Dqn.State :=
  { heap := Dqn.heap_zero,
    q_network := fun c =>
      { hidden := { neurons := 4 * c.toNat, input_size := 5, output_size := 32 },
        output := { neurons := 4 * c.toNat + 1, input_size := 32, output_size := 5 } },
    target_network := fun c =>
      { hidden := { neurons := 4 * c.toNat + 2, input_size := 5, output_size := 32 },
        output := { neurons := 4 * c.toNat + 3, input_size := 32, output_size := 5 } },
    replay_buffer := fun _ _ =>
      { state := fun _ => 0, action := 0, reward := 0, next_state := fun _ => 0, done := false },
    replay_buffer_count := fun _ => 0,
    total_steps := fun _ => 0,
    epsilon := fun _ => 1 / 2 }

/-- An experience with the zero state vector on both sides, action 0 and
reward `-1`; `done` is `false` as in every call of `add_experience`. -/
def Dqn.exp_idle : Dqn.experience :=
  { state := fun _ => 0, action := 0, reward := -1, next_state := fun _ => 0, done := false }

/-- A heap with every weight zero, bias `-1` in the hidden neuron arrays (even
addresses) and bias `0` in the output neuron arrays (odd addresses). -/
def Dqn.heap_ex : Dqn.Heap :=
  { neurons := fun a j => { weights := 2 * (a * 32 + j) + 1, bias := if a % 2 = 0 then -1 else 0 },
    floats := fun _ _ => 0 }

/-- A DQN state past the warm-up: the blocks of `Dqn.state_empty` (live and
target networks in separate neuron arrays), the heap `Dqn.heap_ex`, and 32
stored experiences, every slot holding `Dqn.exp_idle`. -/
def Dqn.state_warm : Dqn.State :=
  { heap := Dqn.heap_ex,
    q_network := Dqn.state_empty.q_network,
    target_network := Dqn.state_empty.target_network,
    replay_buffer := fun _ _ => Dqn.exp_idle,
    replay_buffer_count := fun _ => 32,
    total_steps := fun _ => 100,
    epsilon := fun _ => 1 / 2 }

/-- The state `Dqn.state_warm` after the target refresh of core 0 (the call
`update_target_network(0)` made at tick 100). -/
def Dqn.state_refreshed : Dqn.State := Dqn.update_target_network 0 Dqn.state_warm

/-- The experience labelled `i`: its reward is `i`. -/
def Dqn.exp_labelled (i : Nat) : Dqn.experience :=
  { state := fun _ => 0, action := 0, reward := (i : ℚ), next_state := fun _ => 0,
    done := false }

/-- The state after `N` successive calls of `add_experience` on `core`, the
`i`-th call (from 0) storing the experience `es i`. -/
def Dqn.add_experiences (core : Int) (es : Nat → Dqn.experience) (st : Dqn.State) (N : Nat) :
    Dqn.State :=
  iterate_body
    (fun i st =>
      Dqn.add_experience core (es i).state (es i).action (es i).reward (es i).next_state
        (es i).done st)
    st N

/-- The heap `h` holds, for the network `q`, the bias `-1 + d` in every hidden
neuron and the bias `d` in every output neuron. -/
def Dqn.BiasShift (h : Dqn.Heap) (q : Dqn.dqn) (d : ℚ) : Prop :=
  (∀ j, j < Dqn.HIDDEN_SIZE → (h.neurons q.hidden.neurons j).bias = -1 + d) ∧
  (∀ a, a < Dqn.NUM_ACTIONS → (h.neurons q.output.neurons a).bias = d)

/-- The blocks of the network `t` are apart from those of the network `q` in
the heap `h`: the four neuron arrays are different blocks, and no weight block
of a neuron of `t` is a weight block of a neuron of `q`. -/
def Dqn.Separate (h : Dqn.Heap) (q t : Dqn.dqn) : Prop :=
  t.hidden.neurons ≠ q.hidden.neurons ∧ t.hidden.neurons ≠ q.output.neurons ∧
  t.output.neurons ≠ q.hidden.neurons ∧ t.output.neurons ≠ q.output.neurons ∧
  (∀ i j, i < Dqn.HIDDEN_SIZE → j < Dqn.HIDDEN_SIZE →
    (h.neurons t.hidden.neurons i).weights ≠ (h.neurons q.hidden.neurons j).weights) ∧
  (∀ i a, i < Dqn.HIDDEN_SIZE → a < Dqn.NUM_ACTIONS →
    (h.neurons t.hidden.neurons i).weights ≠ (h.neurons q.output.neurons a).weights) ∧
  (∀ i j, i < Dqn.NUM_ACTIONS → j < Dqn.HIDDEN_SIZE →
    (h.neurons t.output.neurons i).weights ≠ (h.neurons q.hidden.neurons j).weights) ∧
  (∀ i a, i < Dqn.NUM_ACTIONS → a < Dqn.NUM_ACTIONS →
    (h.neurons t.output.neurons i).weights ≠ (h.neurons q.output.neurons a).weights)

/-- The heap `h2` differs from `h` at most in the biases of the two neuron arrays
of `q` and in the weight blocks of the neurons of `q`. -/
def Dqn.AgreeOff (q : Dqn.dqn) (h h2 : Dqn.Heap) : Prop :=
  (∀ a j, (h2.neurons a j).weights = (h.neurons a j).weights) ∧
  (∀ a j, a ≠ q.hidden.neurons → a ≠ q.output.neurons →
    (h2.neurons a j).bias = (h.neurons a j).bias) ∧
  (∀ p k,
    (∀ j, j < Dqn.HIDDEN_SIZE → p ≠ (h.neurons q.hidden.neurons j).weights) →
    (∀ a, a < Dqn.NUM_ACTIONS → p ≠ (h.neurons q.output.neurons a).weights) →
    h2.floats p k = h.floats p k)

/-- The adjustment of one unit `j` of a layer whose neuron array is `A`: the
`m` weights of the unit are raised by `c 0, ..., c (m - 1)` and its bias by `b`. -/
def Dqn.layer_unit (A : Dqn.Addr) (m : Nat) (c : Nat → ℚ) (b : ℚ) (j : Nat) (h : Dqn.Heap) :
    Dqn.Heap :=
  (iterate_body
    (fun k (s : Dqn.Heap) =>
      s.set_weight (h.neurons A j).weights k (s.floats (h.neurons A j).weights k + c k))
    h m).set_bias A j ((h.neurons A j).bias + b)

/-- The live network `q` has its own blocks in the heap `h`, as `init_layer`
allocates them: the two neuron arrays are different blocks and the weight blocks
of its `HIDDEN_SIZE + NUM_ACTIONS` neurons are pairwise different. -/
def Dqn.OwnBlocks (h : Dqn.Heap) (q : Dqn.dqn) : Prop :=
  q.hidden.neurons ≠ q.output.neurons ∧
  (∀ i j, i < Dqn.HIDDEN_SIZE → j < Dqn.HIDDEN_SIZE → i ≠ j →
    (h.neurons q.hidden.neurons i).weights ≠ (h.neurons q.hidden.neurons j).weights) ∧
  (∀ i j, i < Dqn.NUM_ACTIONS → j < Dqn.NUM_ACTIONS → i ≠ j →
    (h.neurons q.output.neurons i).weights ≠ (h.neurons q.output.neurons j).weights) ∧
  (∀ i j, i < Dqn.HIDDEN_SIZE → j < Dqn.NUM_ACTIONS →
    (h.neurons q.hidden.neurons i).weights ≠ (h.neurons q.output.neurons j).weights)

/-- The reward of the spec, Variant A: `-|u - f|` with `u = util / 100` the
normalized utilization and `f = next_freq / max` the exact frequency ratio. -/
def reward_formula (util next_freq max : Nat) : ℚ :=
  -|(util : ℚ) / 100 - (next_freq : ℚ) / (max : ℚ)|

/-- Two allocations succeed and the third fails. -/
def DoubleQ.kmalloc_ex (i : Nat) : Option DoubleQ.q_table :=
  if i < 2 then some { q1 := fun _ _ => 1, q2 := fun _ _ => 1 } else none

/-- The allocator whose call number `n` fails and no other. -/
def Dqn.alloc_failing (n : Nat) : Dqn.Alloc := { fails := fun k => decide (k = n), calls := 0 }

/-- The context of an initialisation whose allocation number `n` fails. -/
def Dqn.ctx_failing (n : Nat) : Dqn.InitCtx :=
  { heap := Dqn.heap_zero, alloc := Dqn.alloc_failing n, rng := rng_max }

/-! ## Loop lemmas -/

/-- The running-maximum loop bounds every scanned value and returns one. -/
theorem scan_max_bounds (v : Nat → ℚ) (n : Nat) :
    (∀ j, j ≤ n →
      v j ≤ iterate_body (fun k m => if v (1 + k) > m then v (1 + k) else m) (v 0) n) ∧
    ∃ j, j ≤ n ∧
      iterate_body (fun k m => if v (1 + k) > m then v (1 + k) else m) (v 0) n = v j := by
  induction n with
  | zero =>
    refine ⟨fun j hj => ?_, 0, le_refl _, rfl⟩
    have : j = 0 := by omega
    subst this
    exact le_refl _
  | succ n ih =>
    obtain ⟨hle, j0, hj0, heq⟩ := ih
    simp only [iterate_body]
    split_ifs with hgt
    · refine ⟨fun j hj => ?_, 1 + n, by omega, rfl⟩
      rcases Nat.lt_or_ge j (n + 1) with hlt | hge
      · exact le_of_lt (lt_of_le_of_lt (hle j (by omega)) hgt)
      · have : j = 1 + n := by omega
        subst this
        exact le_refl _
    · refine ⟨fun j hj => ?_, j0, by omega, heq⟩
      rcases Nat.lt_or_ge j (n + 1) with hlt | hge
      · exact hle j (by omega)
      · have : j = 1 + n := by omega
        subst this
        exact not_lt.mp hgt

/-- The running-maximum loop over `1..N-1` started at `v 0` is `max_over`. -/
theorem scan_max_eq_max_over (v : Nat → ℚ) (N : Nat) (hN : 0 < N) :
    for_loop 1 N (fun i m => if v i > m then v i else m) (v 0) = max_over N hN v := by
  obtain ⟨hle, j0, hj0, heq⟩ := scan_max_bounds v (N - 1)
  unfold for_loop max_over
  apply le_antisymm
  · rw [heq]
    exact Finset.le_sup' v (Finset.mem_range.mpr (by omega))
  · apply Finset.sup'_le
    intro j hj
    exact hle j (by have := Finset.mem_range.mp hj; omega)

/-- The loop of `update_q_tables` computes the two running maxima side by side. -/
theorem scan_max_pair (v w : Nat → ℚ) (n : Nat) :
    iterate_body
      (fun k (m : ℚ × ℚ) =>
        (if v (1 + k) > m.1 then v (1 + k) else m.1,
         if w (1 + k) > m.2 then w (1 + k) else m.2))
      (v 0, w 0) n
    = (iterate_body (fun k m => if v (1 + k) > m then v (1 + k) else m) (v 0) n,
       iterate_body (fun k m => if w (1 + k) > m then w (1 + k) else m) (w 0) n) := by
  induction n with
  | zero => rfl
  | succ n ih => simp only [iterate_body, ih]

/-- The two values `update_q_tables` computes before its coin flip are the row
maxima of `q1` and of `q2` at `next_state`. -/
theorem DoubleQ.max_future_eq (t : DoubleQ.q_table) (next_state : Int) :
    DoubleQ.max_future t next_state
      = (max_over DoubleQ.NUM_ACTIONS (by decide) (fun a => t.q1 next_state (a : Int)),
         max_over DoubleQ.NUM_ACTIONS (by decide) (fun a => t.q2 next_state (a : Int))) := by
  have h1 := scan_max_eq_max_over (fun a => t.q1 next_state (a : Int))
    DoubleQ.NUM_ACTIONS (by decide)
  have h2 := scan_max_eq_max_over (fun a => t.q2 next_state (a : Int))
    DoubleQ.NUM_ACTIONS (by decide)
  have hp := scan_max_pair (fun a => t.q1 next_state (a : Int))
    (fun a => t.q2 next_state (a : Int)) (DoubleQ.NUM_ACTIONS - 1)
  unfold for_loop at h1 h2
  unfold DoubleQ.max_future for_loop
  rw [← h1, ← h2]
  exact hp

/-- A loop from 0 is the iteration of its body. -/
theorem for_loop_zero {σ : Type} (n : Nat) (body : Nat → σ → σ) (init : σ) :
    for_loop 0 n body init = iterate_body body init n := by
  unfold for_loop
  have hb : (fun k => body (0 + k)) = body := by
    funext k
    rw [Nat.zero_add]
  rw [hb]
  rfl

/-- A loop whose every pass leaves the initial state as it is returns it. -/
theorem iterate_body_fixed {σ : Type} (body : Nat → σ → σ) (init : σ) (n : Nat)
    (h : ∀ k, k < n → body k init = init) : iterate_body body init n = init := by
  induction n with
  | zero => rfl
  | succ n ih =>
    rw [iterate_body, ih (fun k hk => h k (Nat.lt_succ_of_lt hk))]
    exact h n (Nat.lt_succ_self n)

/-- Two loops whose bodies agree on the states satisfying an invariant that the
second body keeps return the same state, and the invariant holds there. -/
theorem iterate_body_congr_inv {σ : Type} (I : σ → Prop) (body body2 : Nat → σ → σ) (init : σ)
    (n : Nat) (h0 : I init)
    (hstep : ∀ k s, k < n → I s → body k s = body2 k s ∧ I (body2 k s)) :
    iterate_body body init n = iterate_body body2 init n ∧ I (iterate_body body2 init n) := by
  induction n with
  | zero => exact ⟨rfl, h0⟩
  | succ n ih =>
    obtain ⟨heq, hI⟩ := ih (fun k s hk hs => hstep k s (Nat.lt_succ_of_lt hk) hs)
    obtain ⟨h1, h2⟩ := hstep n (iterate_body body2 init n) (Nat.lt_succ_self n) hI
    refine ⟨?_, h2⟩
    rw [iterate_body, iterate_body, heq, h1]

/-- A summation loop all of whose terms are zero returns zero. -/
theorem sum_loop_zero (t : Nat → ℚ) (n : Nat) (h : ∀ k, k < n → t k = 0) :
    iterate_body (fun k (acc : ℚ) => acc + t k) 0 n = 0 := by
  induction n with
  | zero => rfl
  | succ n ih =>
    rw [iterate_body, ih (fun k hk => h k (Nat.lt_succ_of_lt hk)), h n (Nat.lt_succ_self n)]
    exact add_zero 0

/-! ## Rounding -/

/-- The leading-bit search finds the power of two below `n`. -/
theorem log2_aux_spec (fuel : Nat) : ∀ n : Nat, n ≤ fuel → 0 < n →
    2 ^ log2_aux fuel n ≤ n ∧ n < 2 ^ (log2_aux fuel n + 1) := by
  induction fuel with
  | zero => intro n h hn; omega
  | succ f ih =>
    intro n h hn
    unfold log2_aux
    split_ifs with h2
    · constructor
      · simpa using hn
      · simpa using h2
    · have hle : n / 2 ≤ f := by omega
      have hpos : 0 < n / 2 := by omega
      obtain ⟨h1, h3⟩ := ih (n / 2) hle hpos
      constructor
      · rw [pow_succ]; omega
      · rw [pow_succ]; omega

/-- The leading bit of `n`: `2 ^ nat_log2 n ≤ n < 2 ^ (nat_log2 n + 1)`. -/
theorem nat_log2_spec (n : Nat) (hn : 0 < n) :
    2 ^ nat_log2 n ≤ n ∧ n < 2 ^ (nat_log2 n + 1) :=
  log2_aux_spec n n (le_refl n) hn

/-- A quotient of two naturals lies within a factor 2 of the quotient of their
leading powers of two. -/
theorem ratio_bounds (A B la lb : Nat) (hB : 0 < B) (ha1 : 2 ^ la ≤ A) (ha2 : A < 2 ^ (la + 1))
    (hb1 : 2 ^ lb ≤ B) (hb2 : B < 2 ^ (lb + 1)) :
    (2 : ℚ) ^ ((la : Int) - (lb : Int) - 1) ≤ (A : ℚ) / (B : ℚ) ∧
    (A : ℚ) / (B : ℚ) < (2 : ℚ) ^ ((la : Int) - (lb : Int) + 1) := by
  have hden : (0 : ℚ) < (B : ℚ) := by exact_mod_cast hB
  have ha1q : (2 : ℚ) ^ la ≤ (A : ℚ) := by exact_mod_cast ha1
  have ha2q : (A : ℚ) < (2 : ℚ) ^ la * 2 := by
    have : (A : ℚ) < (2 : ℚ) ^ (la + 1) := by exact_mod_cast ha2
    rwa [pow_succ] at this
  have hb1q : (2 : ℚ) ^ lb ≤ (B : ℚ) := by exact_mod_cast hb1
  have hb2q : (B : ℚ) < (2 : ℚ) ^ lb * 2 := by
    have : (B : ℚ) < (2 : ℚ) ^ (lb + 1) := by exact_mod_cast hb2
    rwa [pow_succ] at this
  have hpa : (0 : ℚ) < (2 : ℚ) ^ la := pow_pos (by norm_num) _
  have hpb : (0 : ℚ) < (2 : ℚ) ^ lb := pow_pos (by norm_num) _
  have he0 : (2 : ℚ) ^ ((la : Int) - (lb : Int)) = (2 : ℚ) ^ la / (2 : ℚ) ^ lb := by
    rw [zpow_sub₀ (by norm_num : (2 : ℚ) ≠ 0), zpow_natCast, zpow_natCast]
  have hup1 : (2 : ℚ) ^ ((la : Int) - (lb : Int) + 1) = (2 : ℚ) ^ la / (2 : ℚ) ^ lb * 2 := by
    rw [zpow_add₀ (by norm_num : (2 : ℚ) ≠ 0), zpow_one, he0]
  have hlo1 : (2 : ℚ) ^ ((la : Int) - (lb : Int) - 1) = (2 : ℚ) ^ la / (2 : ℚ) ^ lb / 2 := by
    rw [zpow_sub₀ (by norm_num : (2 : ℚ) ≠ 0), zpow_one, he0]
  constructor
  · rw [hlo1, div_div, div_le_div_iff₀ (by positivity) hden]
    nlinarith
  · rw [hup1, div_mul_eq_mul_div, div_lt_div_iff₀ hden hpb]
    nlinarith

/-- The binary exponent brackets a positive rational. -/
theorem binade_spec (x : ℚ) (hx : 0 < x) :
    (2 : ℚ) ^ binade x ≤ x ∧ x < (2 : ℚ) ^ (binade x + 1) := by
  have hnum : 0 < x.num := Rat.num_pos.mpr hx
  have hnat : 0 < x.num.natAbs := Int.natAbs_pos.mpr (ne_of_gt hnum)
  obtain ⟨ha1, ha2⟩ := nat_log2_spec x.num.natAbs hnat
  obtain ⟨hb1, hb2⟩ := nat_log2_spec x.den x.den_pos
  have hcast : ((x.num.natAbs : Nat) : ℚ) = (x.num : ℚ) := by
    rw [← Int.cast_natCast, Int.natAbs_of_nonneg (le_of_lt hnum)]
  have hxeq : (x.num.natAbs : ℚ) / (x.den : ℚ) = x := by
    rw [hcast]
    exact Rat.num_div_den x
  obtain ⟨hlow, hup⟩ := ratio_bounds x.num.natAbs x.den _ _ x.den_pos ha1 ha2 hb1 hb2
  rw [hxeq] at hlow hup
  unfold binade
  simp only []
  split_ifs with hc
  · exact ⟨hc, hup⟩
  · refine ⟨hlow, ?_⟩
    rw [sub_add_cancel]
    exact not_le.mp hc

/-- The rounding error is at most half a unit in the last place: `2 ^ -p` of
the value rounded. -/
theorem fround_err (p : Nat) (x : ℚ) : |fround p x - x| ≤ |x| / 2 ^ p := by
  by_cases hx : x = 0
  · subst hx
    simp [fround]
  have ha : 0 < |x| := abs_pos.mpr hx
  obtain ⟨hlo, _⟩ := binade_spec |x| ha
  have hulp : (0 : ℚ) < (2 : ℚ) ^ (binade |x| - (p : Int) + 1) := zpow_pos (by norm_num) _
  have hhalf : (2 : ℚ) ^ (binade |x| - (p : Int) + 1) / 2 = (2 : ℚ) ^ binade |x| / 2 ^ p := by
    rw [zpow_add₀ (by norm_num : (2 : ℚ) ≠ 0), zpow_one,
      zpow_sub₀ (by norm_num : (2 : ℚ) ≠ 0), zpow_natCast]
    ring
  have hk : ∀ t : ℚ,
      |(((if t - (⌊t⌋ : ℚ) < 1 / 2 then ⌊t⌋ else if 1 / 2 < t - (⌊t⌋ : ℚ) then ⌊t⌋ + 1
          else if ⌊t⌋ % 2 = 0 then ⌊t⌋ else ⌊t⌋ + 1 : Int) : ℚ)) - t| ≤ 1 / 2 := by
    intro t
    have h1 : (⌊t⌋ : ℚ) ≤ t := Int.floor_le t
    have h2 : t < (⌊t⌋ : ℚ) + 1 := Int.lt_floor_add_one t
    split_ifs with c1 c2 c3
    · rw [abs_le]; constructor <;> linarith
    · rw [abs_le]; push_cast; constructor <;> linarith
    · rw [abs_le]; constructor <;> linarith
    · rw [abs_le]; push_cast; constructor <;> linarith
  have hxs : x = (if x < 0 then -1 else 1) * |x| := by
    split_ifs with hneg
    · rw [abs_of_neg hneg]; ring
    · rw [abs_of_nonneg (not_lt.mp hneg)]; ring
  have hs : |(if x < 0 then (-1 : ℚ) else 1)| = 1 := by
    split_ifs <;> simp
  unfold fround
  rw [if_neg hx]
  simp only []
  have key := hk (|x| / (2 : ℚ) ^ (binade |x| - (p : Int) + 1))
  set u : ℚ := (2 : ℚ) ^ (binade |x| - (p : Int) + 1) with hu
  set k : Int := (if |x| / u - (⌊|x| / u⌋ : ℚ) < 1 / 2 then ⌊|x| / u⌋
      else if 1 / 2 < |x| / u - (⌊|x| / u⌋ : ℚ) then ⌊|x| / u⌋ + 1
      else if ⌊|x| / u⌋ % 2 = 0 then ⌊|x| / u⌋ else ⌊|x| / u⌋ + 1) with hkdef
  have hdiff : (if x < 0 then (-1 : ℚ) else 1) * (k : ℚ) * u - x
      = (if x < 0 then (-1 : ℚ) else 1) * (((k : ℚ) - |x| / u) * u) := by
    have : |x| / u * u = |x| := div_mul_cancel₀ _ (ne_of_gt hulp)
    rw [sub_mul, this]
    linear_combination (-1 : ℚ) * hxs
  rw [hdiff, abs_mul, hs, one_mul, abs_mul, abs_of_pos hulp]
  calc |(k : ℚ) - |x| / u| * u ≤ 1 / 2 * u := mul_le_mul_of_nonneg_right key (le_of_lt hulp)
    _ = u / 2 := by ring
    _ = (2 : ℚ) ^ binade |x| / 2 ^ p := hhalf
    _ ≤ |x| / 2 ^ p := div_le_div_of_nonneg_right hlo (by positivity)

/-! ## The epsilon schedule -/

/-- The schedule of `n` ticks from `EPSILON_START`. -/
theorem Dqn.epsilon_after_eq_from (n : Nat) :
    Dqn.epsilon_after n = Dqn.epsilon_from Dqn.EPSILON_START n := by
  induction n with
  | zero => rfl
  | succ n ih => rw [Dqn.epsilon_after, Dqn.epsilon_from, ih]

/-- One tick first, then `k` ticks: the same as `k + 1` ticks. -/
theorem Dqn.epsilon_from_shift (e : ℚ) (k : Nat) :
    Dqn.epsilon_from (Dqn.decay_epsilon e) k = Dqn.epsilon_from e (k + 1) := by
  induction k with
  | zero => rfl
  | succ k ih => rw [Dqn.epsilon_from, ih]; rfl

/-- Ticks compose. -/
theorem Dqn.epsilon_from_add (e : ℚ) (a b : Nat) :
    Dqn.epsilon_from e (a + b) = Dqn.epsilon_from (Dqn.epsilon_from e a) b := by
  induction b with
  | zero => rfl
  | succ b ih => rw [← Nat.add_assoc, Dqn.epsilon_from, ih]; rfl

/-- A checked run of `k` ticks: its result is the epsilon after `k` ticks, no
tick raised epsilon and none took it below `lo`. -/
theorem Dqn.schedule_run_spec (lo : ℚ) (k : Nat) : ∀ e e2 : ℚ,
    Dqn.schedule_run lo e k = some e2 →
    e2 = Dqn.epsilon_from e k ∧
    ∀ j, j < k → Dqn.epsilon_from e (j + 1) ≤ Dqn.epsilon_from e j ∧
      lo ≤ Dqn.epsilon_from e (j + 1) := by
  induction k with
  | zero =>
    intro e e2 h
    refine ⟨?_, fun j hj => absurd hj (Nat.not_lt_zero j)⟩
    exact (Option.some.inj h).symm
  | succ k ih =>
    intro e e2 h
    unfold Dqn.schedule_run at h
    split_ifs at h with hc
    obtain ⟨h1, h2⟩ := ih (Dqn.decay_epsilon e) e2 h
    refine ⟨by rw [h1, Dqn.epsilon_from_shift], fun j hj => ?_⟩
    cases j with
    | zero => exact hc
    | succ j =>
      have := h2 j (by omega)
      rw [Dqn.epsilon_from_shift, Dqn.epsilon_from_shift] at this
      exact this

/-- A checked run of `k` ticks that starts at the epsilon after `a` ticks. -/
theorem Dqn.schedule_segment (lo : ℚ) (a k : Nat) (v v2 : ℚ) (ha : Dqn.epsilon_after a = v)
    (hrun : Dqn.schedule_run lo v k = some v2) :
    Dqn.epsilon_after (a + k) = v2 ∧
    ∀ n, a ≤ n → n < a + k →
      Dqn.epsilon_after (n + 1) ≤ Dqn.epsilon_after n ∧ lo ≤ Dqn.epsilon_after (n + 1) := by
  obtain ⟨h1, h2⟩ := Dqn.schedule_run_spec lo k v v2 hrun
  have hfrom : ∀ j, Dqn.epsilon_after (a + j) = Dqn.epsilon_from v j := by
    intro j
    rw [Dqn.epsilon_after_eq_from, Dqn.epsilon_from_add, ← Dqn.epsilon_after_eq_from, ha]
  refine ⟨by rw [hfrom, h1], fun n hn hn2 => ?_⟩
  obtain ⟨j, rfl⟩ : ∃ j, n = a + j := ⟨n - a, by omega⟩
  have := h2 j (by omega)
  rw [Nat.add_assoc, hfrom, hfrom]
  exact this

/-- The floor as stored in a `float`: `(float)0.01 = 5368709 / 2 ^ 29`, below
`0.01`. -/
theorem Dqn.epsilon_end_f32_value :
    Dqn.EPSILON_END_F32 = 5368709 / 536870912 ∧ Dqn.EPSILON_END_F32 < Dqn.EPSILON_END ∧
    Dqn.EPSILON_END - Dqn.EPSILON_END_F32 < 1 / 4000000000 := by
  decide!

/-- The stored floor is a fixed point of the schedule. -/
theorem Dqn.decay_epsilon_floor :
    Dqn.decay_epsilon Dqn.EPSILON_END_F32 = Dqn.EPSILON_END_F32 := by
  decide!

/-- Once at the stored floor, epsilon stays there. -/
theorem Dqn.epsilon_after_absorbing (n k : Nat)
    (h : Dqn.epsilon_after n = Dqn.EPSILON_END_F32) :
    Dqn.epsilon_after (n + k) = Dqn.EPSILON_END_F32 := by
  induction k with
  | zero => exact h
  | succ k ih =>
    show Dqn.decay_epsilon (Dqn.epsilon_after (n + k)) = Dqn.EPSILON_END_F32
    rw [ih]
    exact Dqn.decay_epsilon_floor

/-- Ticks 1 to 100, checked. -/
theorem Dqn.schedule_run_0 :
    Dqn.schedule_run Dqn.EPSILON_END 1 100 = some (2540785 / 4194304) := by
  decide!

/-- Ticks 101 to 200, checked. -/
theorem Dqn.schedule_run_100 :
    Dqn.schedule_run Dqn.EPSILON_END (2540785 / 4194304) 100 = some (3078265 / 8388608) := by
  decide!

/-- Ticks 201 to 300, checked. -/
theorem Dqn.schedule_run_200 :
    Dqn.schedule_run Dqn.EPSILON_END (3078265 / 8388608) 100 = some (1864723 / 8388608) := by
  decide!

/-- Ticks 301 to 400, checked. -/
theorem Dqn.schedule_run_300 :
    Dqn.schedule_run Dqn.EPSILON_END (1864723 / 8388608) 100 = some (4518377 / 33554432) := by
  decide!

/-- Ticks 401 to 500, checked. -/
theorem Dqn.schedule_run_400 :
    Dqn.schedule_run Dqn.EPSILON_END (4518377 / 33554432) 100 = some (2737099 / 33554432) := by
  decide!

/-- Ticks 501 to 600, checked. -/
theorem Dqn.schedule_run_500 :
    Dqn.schedule_run Dqn.EPSILON_END (2737099 / 33554432) 100 = some (3316109 / 67108864) := by
  decide!

/-- Ticks 601 to 700, checked. -/
theorem Dqn.schedule_run_600 :
    Dqn.schedule_run Dqn.EPSILON_END (3316109 / 67108864) 100
      = some (16070411 / 536870912) := by
  decide!

/-- Ticks 701 to 800, checked. -/
theorem Dqn.schedule_run_700 :
    Dqn.schedule_run Dqn.EPSILON_END (16070411 / 536870912) 100
      = some (4867491 / 268435456) := by
  decide!

/-- Ticks 801 to 900, checked. -/
theorem Dqn.schedule_run_800 :
    Dqn.schedule_run Dqn.EPSILON_END (4867491 / 268435456) 100
      = some (11794325 / 1073741824) := by
  decide!

/-- Ticks 901 to 918, checked: epsilon is still at least `EPSILON_END`. -/
theorem Dqn.schedule_run_900 :
    Dqn.schedule_run Dqn.EPSILON_END (11794325 / 1073741824) 18
      = some (10776769 / 1073741824) := by
  decide!

/-- Tick 919, checked: epsilon drops to the stored floor. -/
theorem Dqn.schedule_run_918 :
    Dqn.schedule_run Dqn.EPSILON_END_F32 (10776769 / 1073741824) 1
      = some (5368709 / 536870912) := by
  decide!

/-- The first 918 ticks: epsilon never rises and stays at or above
`EPSILON_END`; tick 919 takes it to the stored floor. -/
theorem Dqn.epsilon_after_first_919 :
    Dqn.epsilon_after 918 = 10776769 / 1073741824 ∧
    Dqn.epsilon_after 919 = Dqn.EPSILON_END_F32 ∧
    (∀ n, n < 918 → Dqn.epsilon_after (n + 1) ≤ Dqn.epsilon_after n ∧
      Dqn.EPSILON_END ≤ Dqn.epsilon_after (n + 1)) ∧
    Dqn.epsilon_after 919 ≤ Dqn.epsilon_after 918 := by
  obtain ⟨e1, s1⟩ := Dqn.schedule_segment _ 0 100 1 _ rfl Dqn.schedule_run_0
  obtain ⟨e2, s2⟩ := Dqn.schedule_segment _ 100 100 _ _ e1 Dqn.schedule_run_100
  obtain ⟨e3, s3⟩ := Dqn.schedule_segment _ 200 100 _ _ e2 Dqn.schedule_run_200
  obtain ⟨e4, s4⟩ := Dqn.schedule_segment _ 300 100 _ _ e3 Dqn.schedule_run_300
  obtain ⟨e5, s5⟩ := Dqn.schedule_segment _ 400 100 _ _ e4 Dqn.schedule_run_400
  obtain ⟨e6, s6⟩ := Dqn.schedule_segment _ 500 100 _ _ e5 Dqn.schedule_run_500
  obtain ⟨e7, s7⟩ := Dqn.schedule_segment _ 600 100 _ _ e6 Dqn.schedule_run_600
  obtain ⟨e8, s8⟩ := Dqn.schedule_segment _ 700 100 _ _ e7 Dqn.schedule_run_700
  obtain ⟨e9, s9⟩ := Dqn.schedule_segment _ 800 100 _ _ e8 Dqn.schedule_run_800
  obtain ⟨e10, s10⟩ := Dqn.schedule_segment _ 900 18 _ _ e9 Dqn.schedule_run_900
  obtain ⟨e11, s11⟩ := Dqn.schedule_segment _ 918 1 _ _ e10 Dqn.schedule_run_918
  refine ⟨e10, e11.trans Dqn.epsilon_end_f32_value.1.symm, fun n hn => ?_,
    (s11 918 (le_refl _) (by omega)).1⟩
  rcases Nat.lt_or_ge n 100 with h | h
  · exact s1 n (by omega) (by omega)
  rcases Nat.lt_or_ge n 200 with h2 | h2
  · exact s2 n (by omega) (by omega)
  rcases Nat.lt_or_ge n 300 with h3 | h3
  · exact s3 n (by omega) (by omega)
  rcases Nat.lt_or_ge n 400 with h4 | h4
  · exact s4 n (by omega) (by omega)
  rcases Nat.lt_or_ge n 500 with h5 | h5
  · exact s5 n (by omega) (by omega)
  rcases Nat.lt_or_ge n 600 with h6 | h6
  · exact s6 n (by omega) (by omega)
  rcases Nat.lt_or_ge n 700 with h7 | h7
  · exact s7 n (by omega) (by omega)
  rcases Nat.lt_or_ge n 800 with h8 | h8
  · exact s8 n (by omega) (by omega)
  rcases Nat.lt_or_ge n 900 with h9 | h9
  · exact s9 n (by omega) (by omega)
  · exact s10 n (by omega) (by omega)

/-- From tick 919 on epsilon is the stored floor. -/
theorem Dqn.epsilon_after_floor (n : Nat) (h : 919 ≤ n) :
    Dqn.epsilon_after n = Dqn.EPSILON_END_F32 := by
  obtain ⟨k, rfl⟩ : ∃ k, n = 919 + k := ⟨n - 919, by omega⟩
  exact Dqn.epsilon_after_absorbing 919 k Dqn.epsilon_after_first_919.2.1

/-- No tick raises epsilon. -/
theorem Dqn.epsilon_after_succ_le (n : Nat) :
    Dqn.epsilon_after (n + 1) ≤ Dqn.epsilon_after n := by
  rcases Nat.lt_or_ge n 918 with h | h
  · exact (Dqn.epsilon_after_first_919.2.2.1 n h).1
  rcases Nat.eq_or_lt_of_le h with h2 | h2
  · rw [← h2]
    exact Dqn.epsilon_after_first_919.2.2.2
  · rw [Dqn.epsilon_after_floor n (by omega), Dqn.epsilon_after_floor (n + 1) (by omega)]

/-- Before tick 919 epsilon is at least `EPSILON_END`. -/
theorem Dqn.end_le_epsilon_after (n : Nat) (h : n ≤ 918) :
    Dqn.EPSILON_END ≤ Dqn.epsilon_after n := by
  cases n with
  | zero => decide!
  | succ n => exact (Dqn.epsilon_after_first_919.2.2.1 n (by omega)).2

/-! ## What training leaves alone -/

/-- One pass of the batch loop writes the heap only and takes one draw. -/
theorem Dqn.train_step_frame (core : Int) (sg : Dqn.State × Rng) :
    (Dqn.train_step core sg).1.q_network = sg.1.q_network ∧
    (Dqn.train_step core sg).1.target_network = sg.1.target_network ∧
    (Dqn.train_step core sg).1.replay_buffer = sg.1.replay_buffer ∧
    (Dqn.train_step core sg).1.replay_buffer_count = sg.1.replay_buffer_count ∧
    (Dqn.train_step core sg).1.total_steps = sg.1.total_steps ∧
    (Dqn.train_step core sg).1.epsilon = sg.1.epsilon ∧
    (Dqn.train_step core sg).2.draws = sg.2.draws ∧
    (Dqn.train_step core sg).2.pos = sg.2.pos + 1 :=
  ⟨rfl, rfl, rfl, rfl, rfl, rfl, rfl, rfl⟩

/-- The batch loop writes the heap only: the two `struct dqn` blocks, the replay
buffer, its count, the step counter and epsilon are as before, and each pass
takes one draw. -/
theorem Dqn.train_loop_frame (core : Int) (st : Dqn.State) (g : Rng) (n : Nat) :
    (iterate_body (fun _ sg => Dqn.train_step core sg) (st, g) n).1.q_network = st.q_network ∧
    (iterate_body (fun _ sg => Dqn.train_step core sg) (st, g) n).1.target_network
      = st.target_network ∧
    (iterate_body (fun _ sg => Dqn.train_step core sg) (st, g) n).1.replay_buffer
      = st.replay_buffer ∧
    (iterate_body (fun _ sg => Dqn.train_step core sg) (st, g) n).1.replay_buffer_count
      = st.replay_buffer_count ∧
    (iterate_body (fun _ sg => Dqn.train_step core sg) (st, g) n).1.total_steps
      = st.total_steps ∧
    (iterate_body (fun _ sg => Dqn.train_step core sg) (st, g) n).1.epsilon = st.epsilon ∧
    (iterate_body (fun _ sg => Dqn.train_step core sg) (st, g) n).2.draws = g.draws ∧
    (iterate_body (fun _ sg => Dqn.train_step core sg) (st, g) n).2.pos = g.pos + n := by
  induction n with
  | zero => exact ⟨rfl, rfl, rfl, rfl, rfl, rfl, rfl, rfl⟩
  | succ n ih =>
    obtain ⟨h1, h2, h3, h4, h5, h6, h7, h8⟩ := ih
    obtain ⟨s1, s2, s3, s4, s5, s6, s7, s8⟩ :=
      Dqn.train_step_frame core (iterate_body (fun _ sg => Dqn.train_step core sg) (st, g) n)
    refine ⟨s1.trans h1, s2.trans h2, s3.trans h3, s4.trans h4, s5.trans h5, s6.trans h6,
      s7.trans h7, ?_⟩
    show (Dqn.train_step core
      (iterate_body (fun _ sg => Dqn.train_step core sg) (st, g) n)).2.pos = g.pos + (n + 1)
    rw [s8, h8]
    omega

/-- The function `train_network` writes the heap only. -/
theorem Dqn.train_network_frame (core : Int) (st : Dqn.State) (g : Rng) :
    (Dqn.train_network core st g).1.q_network = st.q_network ∧
    (Dqn.train_network core st g).1.target_network = st.target_network ∧
    (Dqn.train_network core st g).1.replay_buffer = st.replay_buffer ∧
    (Dqn.train_network core st g).1.replay_buffer_count = st.replay_buffer_count ∧
    (Dqn.train_network core st g).1.total_steps = st.total_steps ∧
    (Dqn.train_network core st g).1.epsilon = st.epsilon := by
  unfold Dqn.train_network
  split_ifs with h
  · exact ⟨rfl, rfl, rfl, rfl, rfl, rfl⟩
  · obtain ⟨h1, h2, h3, h4, h5, h6, _, _⟩ :=
      Dqn.train_loop_frame core st g (Dqn.BATCH_SIZE - 0)
    exact ⟨h1, h2, h3, h4, h5, h6⟩

/-- The target refresh leaves epsilon alone, whether it is taken or not. -/
theorem Dqn.refresh_epsilon (c : Prop) [Decidable c] (core : Int) (st : Dqn.State) :
    (if c then Dqn.update_target_network core st else st).epsilon = st.epsilon := by
  split_ifs <;> rfl

/-- Every tick of `dqn_governor` that returns applies the decay step to the
epsilon of its core. -/
theorem Dqn.dqn_governor_epsilon (p p2 : Policy) (cs ns : Nat → ℚ) (st st' : Dqn.State)
    (g g' : Rng) (h : Dqn.dqn_governor p p2 cs ns st g = some (st', g')) :
    st'.epsilon (toInt32 p.cpu) = Dqn.decay_epsilon (st.epsilon (toInt32 p.cpu)) := by
  have key : ∀ (s : Dqn.State) (r : Rng),
      (Dqn.train_network (toInt32 p.cpu) s r).1.epsilon = s.epsilon :=
    fun s r => (Dqn.train_network_frame (toInt32 p.cpu) s r).2.2.2.2.2
  unfold Dqn.dqn_governor at h
  by_cases hmax : p2.max = 0
  · simp [hmax] at h
  · simp only [if_neg hmax, Option.some.injEq, Prod.mk.injEq] at h
    obtain ⟨hst, _⟩ := h
    subst hst
    simp only [Function.update_same, Dqn.refresh_epsilon, key]
    rfl

/-- A tick of `dqn_governor` returns whenever `policy->max` is not zero. -/
theorem Dqn.dqn_governor_isSome (p p2 : Policy) (cs ns : Nat → ℚ) (st : Dqn.State) (g : Rng)
    (h : p2.max ≠ 0) : (Dqn.dqn_governor p p2 cs ns st g).isSome = true := by
  unfold Dqn.dqn_governor
  simp only [if_neg h, Option.isSome_some]

/-- A tick of `dqn_governor` leaves the epsilon of every other core as it was. -/
theorem Dqn.dqn_governor_epsilon_other (p p2 : Policy) (cs ns : Nat → ℚ) (st st' : Dqn.State)
    (g g' : Rng) (core : Int) (hc : core ≠ toInt32 p.cpu)
    (h : Dqn.dqn_governor p p2 cs ns st g = some (st', g')) :
    st'.epsilon core = st.epsilon core := by
  have key : ∀ (s : Dqn.State) (r : Rng),
      (Dqn.train_network (toInt32 p.cpu) s r).1.epsilon = s.epsilon :=
    fun s r => (Dqn.train_network_frame (toInt32 p.cpu) s r).2.2.2.2.2
  unfold Dqn.dqn_governor at h
  by_cases hmax : p2.max = 0
  · simp [hmax] at h
  · simp only [if_neg hmax, Option.some.injEq, Prod.mk.injEq] at h
    obtain ⟨hst, _⟩ := h
    subst hst
    simp only [Function.update_noteq hc, Dqn.refresh_epsilon, key]
    rfl

/-- Over any sequence of ticks that returns, the epsilon of a core advances along
the schedule by one step per tick made for that core: from `epsilon_after m` it
reaches `epsilon_after (m + k)`, with `k` the number of ticks of that core. -/
theorem Dqn.run_ticks_epsilon (core : Int) (ts : List Dqn.TickInput) :
    ∀ (sg sg' : Dqn.State × Rng) (m : Nat),
      sg.1.epsilon core = Dqn.epsilon_after m →
      Dqn.run_ticks ts sg = some sg' →
      sg'.1.epsilon core
        = Dqn.epsilon_after (m + ts.countP (fun t => decide (toInt32 t.p.cpu = core))) := by
  induction ts with
  | nil =>
    intro sg sg' m hm hrun
    simp only [Dqn.run_ticks, Option.some.injEq] at hrun
    subst hrun
    simpa using hm
  | cons t ts ih =>
    intro sg sg' m hm hrun
    simp only [Dqn.run_ticks] at hrun
    cases htick : Dqn.dqn_governor t.p t.p2 t.current_state t.next_state sg.1 sg.2 with
    | none => simp [htick] at hrun
    | some mid =>
      rw [htick, Option.some_bind] at hrun
      by_cases hc : toInt32 t.p.cpu = core
      · have hstep := Dqn.dqn_governor_epsilon t.p t.p2 t.current_state t.next_state
          sg.1 mid.1 sg.2 mid.2 htick
        rw [hc, hm] at hstep
        have := ih mid sg' (m + 1) hstep hrun
        rw [this, List.countP_cons_of_pos _ _ (by simpa using hc)]
        congr 1
        omega
      · have hstep := Dqn.dqn_governor_epsilon_other t.p t.p2 t.current_state t.next_state
          sg.1 mid.1 sg.2 mid.2 core (fun h => hc h.symm) htick
        rw [hm] at hstep
        have := ih mid sg' m hstep hrun
        rw [this, List.countP_cons_of_neg _ _ (by simpa using hc)]

/-- A sequence of ticks returns when no tick has `policy->max = 0`. -/
theorem Dqn.run_ticks_isSome (ts : List Dqn.TickInput) :
    ∀ (sg : Dqn.State × Rng), (∀ t, t ∈ ts → t.p2.max ≠ 0) →
      (Dqn.run_ticks ts sg).isSome = true := by
  induction ts with
  | nil => intro sg _; rfl
  | cons t ts ih =>
    intro sg hall
    have h1 := Dqn.dqn_governor_isSome t.p t.p2 t.current_state t.next_state sg.1 sg.2
      (hall t (List.mem_cons_self t ts))
    obtain ⟨mid, hmid⟩ := Option.isSome_iff_exists.mp h1
    simp only [Dqn.run_ticks, hmid, Option.some_bind]
    exact ih mid (fun t2 ht2 => hall t2 (List.mem_cons_of_mem t ht2))

/-! ## The replay buffer -/

/-- The count and the reward stored by one `add_experience`. -/
theorem Dqn.add_experience_reward (core : Int) (x : Nat → ℚ) (a : Int) (r : ℚ) (y : Nat → ℚ)
    (d : Bool) (st : Dqn.State) (i : Int) :
    ((Dqn.add_experience core x a r y d st).replay_buffer core i).reward
      = if i = Int.tmod (st.replay_buffer_count core) (Dqn.REPLAY_BUFFER_SIZE : Int) then r
        else (st.replay_buffer core i).reward := by
  simp only [Dqn.add_experience, Function.update_same, Function.update_apply]
  split_ifs <;> rfl

/-- The count after one `add_experience`. -/
theorem Dqn.add_experience_count (core : Int) (x : Nat → ℚ) (a : Int) (r : ℚ) (y : Nat → ℚ)
    (d : Bool) (st : Dqn.State) :
    (Dqn.add_experience core x a r y d st).replay_buffer_count core
      = if st.replay_buffer_count core < (Dqn.REPLAY_BUFFER_SIZE : Int)
        then st.replay_buffer_count core + 1 else st.replay_buffer_count core := by
  simp only [Dqn.add_experience, Function.update_same]

/-- The buffer after `n` insertions from an empty buffer: the count is
`min n REPLAY_BUFFER_SIZE`; every slot `i >= 1` below the count holds the
`i`-th experience; slot 0 holds the first experience until the buffer is full
and the last inserted one afterwards. -/
theorem Dqn.add_experiences_spec (core : Int) (es : Nat → Dqn.experience) (st : Dqn.State)
    (h0 : st.replay_buffer_count core = 0) (n : Nat) :
    (Dqn.add_experiences core es st n).replay_buffer_count core
      = ((min n Dqn.REPLAY_BUFFER_SIZE : Nat) : Int) ∧
    (∀ i : Nat, 1 ≤ i → i < min n Dqn.REPLAY_BUFFER_SIZE →
      ((Dqn.add_experiences core es st n).replay_buffer core (i : Int)).reward
        = (es i).reward) ∧
    (1 ≤ n →
      ((Dqn.add_experiences core es st n).replay_buffer core 0).reward
        = (es (if n ≤ Dqn.REPLAY_BUFFER_SIZE then 0 else n - 1)).reward) := by
  have hcap : Dqn.REPLAY_BUFFER_SIZE = 1000 := rfl
  induction n with
  | zero =>
    refine ⟨?_, fun i h1 h2 => ?_, fun h => absurd h (by decide)⟩
    · simpa [Dqn.add_experiences, iterate_body] using h0
    · simp at h2
  | succ n ih =>
    obtain ⟨hc, hs, hz⟩ := ih
    have hstep : Dqn.add_experiences core es st (n + 1)
        = Dqn.add_experience core (es n).state (es n).action (es n).reward (es n).next_state
            (es n).done (Dqn.add_experiences core es st n) := rfl
    rw [hstep]
    rcases Nat.lt_or_ge n 1000 with hlt | hge
    · have hmin : min n Dqn.REPLAY_BUFFER_SIZE = n := by rw [hcap]; omega
      have hmin1 : min (n + 1) Dqn.REPLAY_BUFFER_SIZE = n + 1 := by rw [hcap]; omega
      rw [hmin] at hc hs
      have hidx : Int.tmod ((Dqn.add_experiences core es st n).replay_buffer_count core)
          (Dqn.REPLAY_BUFFER_SIZE : Int) = (n : Int) := by
        rw [hc, hcap, ← Int.ofNat_tmod, Nat.mod_eq_of_lt hlt]
      refine ⟨?_, fun i h1 h2 => ?_, fun _ => ?_⟩
      · rw [Dqn.add_experience_count, hc, hmin1, hcap]
        have : ((n : Int) < ((1000 : Nat) : Int)) := by exact_mod_cast hlt
        rw [if_pos this]
        push_cast
        rfl
      · rw [Dqn.add_experience_reward, hidx]
        rw [hmin1] at h2
        by_cases hin : i = n
        · subst hin
          rw [if_pos rfl]
        · have : ¬ ((i : Int) = (n : Int)) := by exact_mod_cast hin
          rw [if_neg this]
          exact hs i h1 (by omega)
      · rw [Dqn.add_experience_reward, hidx]
        have hle : n + 1 ≤ Dqn.REPLAY_BUFFER_SIZE := by rw [hcap]; omega
        rw [if_pos hle]
        by_cases hn : n = 0
        · subst hn
          rw [if_pos (by rfl)]
        · have : ¬ ((0 : Int) = (n : Int)) := by exact_mod_cast (Ne.symm hn)
          rw [if_neg this]
          have h := hz (by omega)
          rw [if_pos (by rw [hcap]; omega)] at h
          exact h
    · have hmin : min n Dqn.REPLAY_BUFFER_SIZE = 1000 := by rw [hcap]; omega
      have hmin1 : min (n + 1) Dqn.REPLAY_BUFFER_SIZE = 1000 := by rw [hcap]; omega
      rw [hmin] at hc hs
      have hidx : Int.tmod ((Dqn.add_experiences core es st n).replay_buffer_count core)
          (Dqn.REPLAY_BUFFER_SIZE : Int) = 0 := by
        rw [hc, hcap]
        rfl
      refine ⟨?_, fun i h1 h2 => ?_, fun _ => ?_⟩
      · rw [Dqn.add_experience_count, hc, hmin1, hcap]
        rw [if_neg (lt_irrefl _)]
      · rw [Dqn.add_experience_reward, hidx]
        rw [hmin1] at h2
        have : ¬ ((i : Int) = 0) := by omega
        rw [if_neg this]
        exact hs i h1 h2
      · rw [Dqn.add_experience_reward, hidx, if_pos rfl]
        have hle : ¬ (n + 1 ≤ Dqn.REPLAY_BUFFER_SIZE) := by rw [hcap]; omega
        rw [if_neg hle]
        rfl

/-! ## Training with a separate target -/

/-- Storing in a weight the value it holds leaves the heap as it is. -/
theorem Dqn.set_weight_self (h : Dqn.Heap) (a : Dqn.Addr) (k : Nat) :
    h.set_weight a k (h.floats a k) = h := by
  cases h
  simp only [Dqn.Heap.set_weight, Function.update_eq_self]

/-- The bias read after a bias write. -/
theorem Dqn.set_bias_bias (h : Dqn.Heap) (A : Dqn.Addr) (n : Nat) (v : ℚ) (a : Dqn.Addr)
    (j : Nat) :
    ((h.set_bias A n v).neurons a j).bias
      = if a = A ∧ j = n then v else (h.neurons a j).bias := by
  unfold Dqn.Heap.set_bias
  by_cases ha : a = A
  · subst ha
    by_cases hj : j = n
    · subst hj
      simp only [Function.update_same, and_self, if_true]
    · simp only [Function.update_same, Function.update_noteq hj, hj, and_false, if_false]
  · simp only [Function.update_noteq ha, ha, false_and, if_false]

/-- A loop keeps an invariant that every pass keeps. -/
theorem iterate_body_inv {σ : Type} (I : σ → Prop) (body : Nat → σ → σ) (init : σ) (n : Nat)
    (h0 : I init) (hstep : ∀ k s, k < n → I s → I (body k s)) :
    I (iterate_body body init n) := by
  induction n with
  | zero => exact h0
  | succ n ih =>
    exact hstep n _ (Nat.lt_succ_self n) (ih (fun k s hk hs => hstep k s (Nat.lt_succ_of_lt hk) hs))

/-- Two loops whose bodies agree below the bound return the same state. -/
theorem iterate_body_congr {σ : Type} (body body2 : Nat → σ → σ) (init : σ) (n : Nat)
    (h : ∀ k s, k < n → body k s = body2 k s) :
    iterate_body body init n = iterate_body body2 init n :=
  (iterate_body_congr_inv (fun _ => True) body body2 init n trivial
    (fun k s hk _ => ⟨h k s hk, trivial⟩)).1

/-- Every heap agrees with itself. -/
theorem Dqn.agreeOff_refl (q : Dqn.dqn) (h : Dqn.Heap) : Dqn.AgreeOff q h h :=
  ⟨fun _ _ => rfl, fun _ _ _ _ => rfl, fun _ _ _ _ => rfl⟩

/-- A weight write into a block of a hidden neuron of `q` keeps the agreement. -/
theorem Dqn.agreeOff_set_weight_hidden (q : Dqn.dqn) (h s : Dqn.Heap) (j k : Nat) (v : ℚ)
    (hj : j < Dqn.HIDDEN_SIZE) (hs : Dqn.AgreeOff q h s) :
    Dqn.AgreeOff q h (s.set_weight (s.neurons q.hidden.neurons j).weights k v) := by
  obtain ⟨h1, h2, h3⟩ := hs
  refine ⟨h1, h2, fun p k2 hp1 hp2 => ?_⟩
  have hne : p ≠ (s.neurons q.hidden.neurons j).weights := by
    rw [h1]
    exact hp1 j hj
  simp only [Dqn.Heap.set_weight, Function.update_noteq hne]
  exact h3 p k2 hp1 hp2

/-- A weight write into a block of an output neuron of `q` keeps the agreement. -/
theorem Dqn.agreeOff_set_weight_output (q : Dqn.dqn) (h s : Dqn.Heap) (a k : Nat) (v : ℚ)
    (ha : a < Dqn.NUM_ACTIONS) (hs : Dqn.AgreeOff q h s) :
    Dqn.AgreeOff q h (s.set_weight (s.neurons q.output.neurons a).weights k v) := by
  obtain ⟨h1, h2, h3⟩ := hs
  refine ⟨h1, h2, fun p k2 hp1 hp2 => ?_⟩
  have hne : p ≠ (s.neurons q.output.neurons a).weights := by
    rw [h1]
    exact hp2 a ha
  simp only [Dqn.Heap.set_weight, Function.update_noteq hne]
  exact h3 p k2 hp1 hp2

/-- The weights pointer read after a bias write. -/
theorem Dqn.set_bias_weights (h : Dqn.Heap) (A : Dqn.Addr) (n : Nat) (v : ℚ) (a : Dqn.Addr)
    (j : Nat) : ((h.set_bias A n v).neurons a j).weights = (h.neurons a j).weights := by
  unfold Dqn.Heap.set_bias
  by_cases ha : a = A
  · subst ha
    by_cases hj : j = n
    · subst hj
      simp only [Function.update_same]
    · simp only [Function.update_same, Function.update_noteq hj]
  · simp only [Function.update_noteq ha]

/-- A bias write into one of the two neuron arrays of `q` keeps the agreement. -/
theorem Dqn.agreeOff_set_bias (q : Dqn.dqn) (h s : Dqn.Heap) (A : Dqn.Addr) (j : Nat) (v : ℚ)
    (hA : A = q.hidden.neurons ∨ A = q.output.neurons) (hs : Dqn.AgreeOff q h s) :
    Dqn.AgreeOff q h (s.set_bias A j v) := by
  obtain ⟨h1, h2, h3⟩ := hs
  refine ⟨fun a i => ?_, fun a i ha1 ha2 => ?_, fun p k hp1 hp2 => h3 p k hp1 hp2⟩
  · rw [Dqn.set_bias_weights]
    exact h1 a i
  · rw [Dqn.set_bias_bias]
    have hne : ¬ (a = A ∧ i = j) := by
      intro hc
      rcases hA with hA | hA
      · exact ha1 (hc.1.trans hA)
      · exact ha2 (hc.1.trans hA)
    rw [if_neg hne]
    exact h2 a i ha1 ha2

/-- The hidden-layer adjustment keeps the agreement. -/
theorem Dqn.agreeOff_adjust_hidden (q : Dqn.dqn) (e : ℚ) (exp : Dqn.experience)
    (h s : Dqn.Heap) (hs : Dqn.AgreeOff q h s) :
    Dqn.AgreeOff q h (Dqn.adjust_hidden q e exp s) := by
  unfold Dqn.adjust_hidden
  rw [for_loop_zero]
  apply iterate_body_inv (Dqn.AgreeOff q h) _ _ _ hs
  intro j s1 hj hs1
  apply Dqn.agreeOff_set_bias q h _ _ _ _ (Or.inl rfl)
  rw [for_loop_zero]
  apply iterate_body_inv (Dqn.AgreeOff q h) _ _ _ hs1
  intro k s2 _ hs2
  exact Dqn.agreeOff_set_weight_hidden q h s2 j k _ hj hs2

/-- The output-layer adjustment keeps the agreement. -/
theorem Dqn.agreeOff_adjust_output (q : Dqn.dqn) (e : ℚ) (h s : Dqn.Heap)
    (hs : Dqn.AgreeOff q h s) : Dqn.AgreeOff q h (Dqn.adjust_output q e s) := by
  unfold Dqn.adjust_output
  rw [for_loop_zero]
  apply iterate_body_inv (Dqn.AgreeOff q h) _ _ _ hs
  intro j s1 hj hs1
  apply Dqn.agreeOff_set_bias q h _ _ _ _ (Or.inr rfl)
  rw [for_loop_zero]
  apply iterate_body_inv (Dqn.AgreeOff q h) _ _ _ hs1
  intro k s2 _ hs2
  exact Dqn.agreeOff_set_weight_output q h s2 j k _ hj hs2

/-- A network whose blocks are apart from those of `q` computes the same
`forward` on two heaps that agree off the blocks of `q`. -/
theorem Dqn.forward_agreeOff (q t : Dqn.dqn) (h s : Dqn.Heap) (x : Nat → ℚ)
    (hsep : Dqn.Separate h q t) (hs : Dqn.AgreeOff q h s) :
    Dqn.forward s t x = Dqn.forward h t x := by
  obtain ⟨n1, n2, n3, n4, w1, w2, w3, w4⟩ := hsep
  obtain ⟨h1, h2, h3⟩ := hs
  have hhid : ∀ j, j < Dqn.HIDDEN_SIZE →
      Dqn.forward_hidden s t x j = Dqn.forward_hidden h t x j := by
    intro j hj
    unfold Dqn.forward_hidden
    rw [h2 _ j n1 n2, h1]
    congr 2
    unfold for_loop
    apply iterate_body_congr
    intro k acc _
    show acc + x (0 + k) * s.floats _ (0 + k) = acc + x (0 + k) * h.floats _ (0 + k)
    rw [h3 _ _ (fun j2 hj2 => w1 j j2 hj hj2) (fun a ha => w2 j a hj ha)]
  funext i
  unfold Dqn.forward
  by_cases hi : i < Dqn.NUM_ACTIONS
  · rw [if_pos hi, if_pos hi, h2 _ i n3 n4, h1]
    congr 1
    unfold for_loop
    apply iterate_body_congr
    intro k acc hk
    show acc + Dqn.forward_hidden s t x (0 + k) * s.floats _ (0 + k)
       = acc + Dqn.forward_hidden h t x (0 + k) * h.floats _ (0 + k)
    have hk2 : 0 + k < Dqn.HIDDEN_SIZE := by
      have : Dqn.HIDDEN_SIZE - 0 = Dqn.HIDDEN_SIZE := rfl
      omega
    rw [hhid _ hk2, h3 _ _ (fun j2 hj2 => w3 i j2 hi hj2) (fun a ha => w4 i a hi ha)]
  · rw [if_neg hi, if_neg hi]

/-- As long as the blocks of the target network are apart from those of the
live network, `train_network` leaves `forward(target_network[core], x)` as it
was, for every input `x`: this is the situation from `dqn_gov_init` until the
first `update_target_network`. -/
theorem Dqn.train_network_separate_target (core : Int) (st : Dqn.State) (g : Rng)
    (x : Nat → ℚ)
    (hsep : Dqn.Separate st.heap (st.q_network core) (st.target_network core)) :
    Dqn.forward (Dqn.train_network core st g).1.heap
        ((Dqn.train_network core st g).1.target_network core) x
      = Dqn.forward st.heap (st.target_network core) x := by
  rw [(Dqn.train_network_frame core st g).2.1]
  apply Dqn.forward_agreeOff (st.q_network core) _ _ _ x hsep
  unfold Dqn.train_network
  split_ifs with hc
  · exact Dqn.agreeOff_refl _ _
  · rw [for_loop_zero]
    refine (iterate_body_inv
      (fun sg : Dqn.State × Rng =>
        sg.1.q_network = st.q_network ∧ Dqn.AgreeOff (st.q_network core) st.heap sg.1.heap)
      (fun _ sg => Dqn.train_step core sg) (st, g) Dqn.BATCH_SIZE
      ⟨rfl, Dqn.agreeOff_refl _ _⟩ ?_).2
    intro k sg _ hI
    obtain ⟨hq, hag⟩ := hI
    refine ⟨(Dqn.train_step_frame core sg).1.trans hq, ?_⟩
    show Dqn.AgreeOff (st.q_network core) st.heap (Dqn.train_step core sg).1.heap
    -- the heap of the pass is `adjust_output` after `adjust_hidden` on the live network
    have hheap : (Dqn.train_step core sg).1.heap
        = Dqn.adjust_output (st.q_network core)
            (Dqn.td_error sg.1.heap (sg.1.q_network core) (sg.1.target_network core)
              (sg.1.replay_buffer core
                (((get_random_u32 sg.2).1 % toU32 (sg.1.replay_buffer_count core) : Nat) : Int)))
            (Dqn.adjust_hidden (st.q_network core)
              (Dqn.td_error sg.1.heap (sg.1.q_network core) (sg.1.target_network core)
                (sg.1.replay_buffer core
                  (((get_random_u32 sg.2).1 % toU32 (sg.1.replay_buffer_count core) : Nat)
                    : Int)))
              (sg.1.replay_buffer core
                (((get_random_u32 sg.2).1 % toU32 (sg.1.replay_buffer_count core) : Nat) : Int))
              sg.1.heap) := by
      rw [← hq]
      rfl
    rw [hheap]
    exact Dqn.agreeOff_adjust_output _ _ _ _ (Dqn.agreeOff_adjust_hidden _ _ _ _ _ hag)

/-- In `Dqn.state_warm` the target network of core 0 is apart from the live one. -/
theorem Dqn.state_warm_separate :
    Dqn.Separate Dqn.state_warm.heap (Dqn.state_warm.q_network 0)
      (Dqn.state_warm.target_network 0) := by
  have hh : Dqn.HIDDEN_SIZE = 32 := rfl
  have ha : Dqn.NUM_ACTIONS = 5 := rfl
  refine ⟨by decide, by decide, by decide, by decide, ?_, ?_, ?_, ?_⟩
  · intro i j hi hj
    show 2 * ((4 * (0 : Int).toNat + 2) * 32 + i) + 1 ≠ 2 * ((4 * (0 : Int).toNat) * 32 + j) + 1
    simp only [Int.toNat_zero]
    omega
  · intro i j hi hj
    show 2 * ((4 * (0 : Int).toNat + 2) * 32 + i) + 1
      ≠ 2 * ((4 * (0 : Int).toNat + 1) * 32 + j) + 1
    simp only [Int.toNat_zero]
    omega
  · intro i j hi hj
    show 2 * ((4 * (0 : Int).toNat + 3) * 32 + i) + 1 ≠ 2 * ((4 * (0 : Int).toNat) * 32 + j) + 1
    simp only [Int.toNat_zero]
    omega
  · intro i j hi hj
    show 2 * ((4 * (0 : Int).toNat + 3) * 32 + i) + 1
      ≠ 2 * ((4 * (0 : Int).toNat + 1) * 32 + j) + 1
    simp only [Int.toNat_zero]
    omega

/-! ## Training after a target refresh -/

/-- The loop `for (j = 0; j < n; j++) A[j].bias += c` adds `c` to the first `n`
biases of the array `A` and to nothing else. -/
theorem Dqn.bias_loop (A : Dqn.Addr) (c : ℚ) (h : Dqn.Heap) (n : Nat) (a : Dqn.Addr) (j : Nat) :
    ((iterate_body (fun j (h : Dqn.Heap) => h.set_bias A j ((h.neurons A j).bias + c)) h
        n).neurons a j).bias
      = (h.neurons a j).bias + (if a = A ∧ j < n then c else 0) := by
  induction n with
  | zero =>
    have hne : ¬ (a = A ∧ j < 0) := fun hc => Nat.not_lt_zero j hc.2
    rw [if_neg hne, add_zero]
    rfl
  | succ n ih =>
    rw [iterate_body, Dqn.set_bias_bias]
    by_cases hc : a = A ∧ j = n
    · obtain ⟨ha, hj⟩ := hc
      subst ha
      subst hj
      have hih := ih
      simp only [lt_irrefl, and_false, if_false, add_zero] at hih
      simp only [and_self, if_true, Nat.lt_succ_self, hih]
    · rw [if_neg hc, ih]
      by_cases ha : a = A
      · have hj : j ≠ n := fun hj => hc ⟨ha, hj⟩
        by_cases hlt : j < n
        · have : j < n + 1 := by omega
          simp only [ha, hlt, this, and_self, if_true]
        · have : ¬ j < n + 1 := by omega
          simp only [ha, hlt, this, and_false, if_false]
      · simp only [ha, false_and, if_false]

/-- On the zero input, with no positive hidden bias, `forward` returns the
output biases. -/
theorem Dqn.forward_zero_input (h : Dqn.Heap) (net : Dqn.dqn) (i : Nat)
    (hi : i < Dqn.NUM_ACTIONS)
    (hb : ∀ j, j < Dqn.HIDDEN_SIZE → (h.neurons net.hidden.neurons j).bias ≤ 0) :
    Dqn.forward h net (fun _ => 0) i = (h.neurons net.output.neurons i).bias := by
  unfold Dqn.forward
  rw [if_pos hi, for_loop_zero, sum_loop_zero, zero_add]
  intro k hk
  have hsum : for_loop 0 Dqn.STATE_DIM
      (fun j (acc : ℚ) =>
        acc + (fun _ => (0 : ℚ)) j * h.floats (h.neurons net.hidden.neurons k).weights j) 0
      = 0 := by
    rw [for_loop_zero]
    exact sum_loop_zero _ _ (fun j _ => zero_mul _)
  have hz : Dqn.forward_hidden h net (fun _ => 0) k = 0 := by
    unfold Dqn.forward_hidden
    rw [hsum, zero_add]
    unfold Dqn.relu
    exact if_neg (not_lt.mpr (hb k hk))
  rw [hz, zero_mul]

/-- The TD error of `Dqn.exp_idle` when target and live network are the same
block `q` and the biases are shifted by `d`: it is `-1 - d / 100`. -/
theorem Dqn.td_error_shift (h : Dqn.Heap) (q : Dqn.dqn) (d : ℚ) (hs : Dqn.BiasShift h q d)
    (hd : d ≤ 0) : Dqn.td_error h q q Dqn.exp_idle = -1 - d / 100 := by
  have hb : ∀ j, j < Dqn.HIDDEN_SIZE → (h.neurons q.hidden.neurons j).bias ≤ 0 := by
    intro j hj
    rw [hs.1 j hj]
    linarith
  have hf : ∀ i, i < Dqn.NUM_ACTIONS → Dqn.forward h q (fun _ => 0) i = d :=
    fun i hi => (Dqn.forward_zero_input h q i hi hb).trans (hs.2 i hi)
  have hmax : for_loop 1 Dqn.NUM_ACTIONS
      (fun j (m : ℚ) =>
        if Dqn.forward h q (fun _ => 0) j > m then Dqn.forward h q (fun _ => 0) j else m)
      (Dqn.forward h q (fun _ => 0) 0) = d := by
    obtain ⟨_, j0, hj0, heq⟩ :=
      scan_max_bounds (Dqn.forward h q (fun _ => 0)) (Dqn.NUM_ACTIONS - 1)
    unfold for_loop
    rw [heq]
    apply hf
    have : Dqn.NUM_ACTIONS - 1 = 4 := rfl
    have : Dqn.NUM_ACTIONS = 5 := rfl
    omega
  have h0 : Dqn.forward h q (fun _ => 0) 0 = d := hf 0 (by decide)
  unfold Dqn.td_error
  simp only [Dqn.exp_idle, Int.toNat_zero, Bool.false_eq_true, if_false]
  rw [hmax, h0]
  unfold Dqn.GAMMA
  ring

/-- With a zero state vector the hidden-layer adjustment moves the hidden
biases only. -/
theorem Dqn.adjust_hidden_zero_state (q : Dqn.dqn) (e : ℚ) (exp : Dqn.experience)
    (h : Dqn.Heap) (hx : ∀ k, exp.state k = 0) :
    Dqn.adjust_hidden q e exp h
      = iterate_body
          (fun j (h : Dqn.Heap) =>
            h.set_bias q.hidden.neurons j
              ((h.neurons q.hidden.neurons j).bias + Dqn.LEARNING_RATE * e))
          h Dqn.HIDDEN_SIZE := by
  unfold Dqn.adjust_hidden
  rw [for_loop_zero]
  congr 1
  funext j s
  have hin : for_loop 0 Dqn.STATE_DIM
      (fun k (h : Dqn.Heap) =>
        h.set_weight (h.neurons q.hidden.neurons j).weights k
          (h.floats (h.neurons q.hidden.neurons j).weights k
            + Dqn.LEARNING_RATE * e * exp.state k)) s = s := by
    rw [for_loop_zero]
    apply iterate_body_fixed
    intro k _
    simp only [hx k, mul_zero, add_zero, Dqn.set_weight_self]
  simp only [hin]

/-- With no positive hidden bias the output-layer adjustment moves the output
biases only (the hidden and output neuron arrays being different blocks). -/
theorem Dqn.adjust_output_nonpos (q : Dqn.dqn) (e : ℚ) (h : Dqn.Heap)
    (hne : q.hidden.neurons ≠ q.output.neurons)
    (hb : ∀ k, k < Dqn.HIDDEN_SIZE → (h.neurons q.hidden.neurons k).bias ≤ 0) :
    Dqn.adjust_output q e h
      = iterate_body
          (fun j (h : Dqn.Heap) =>
            h.set_bias q.output.neurons j
              ((h.neurons q.output.neurons j).bias + Dqn.LEARNING_RATE * e))
          h Dqn.NUM_ACTIONS := by
  unfold Dqn.adjust_output
  rw [for_loop_zero]
  refine (iterate_body_congr_inv
    (fun s : Dqn.Heap =>
      ∀ k, k < Dqn.HIDDEN_SIZE → (s.neurons q.hidden.neurons k).bias ≤ 0)
    _ _ h Dqn.NUM_ACTIONS hb ?_).1
  intro j s _ hI
  refine ⟨?_, fun k hk => ?_⟩
  · have hin : for_loop 0 Dqn.HIDDEN_SIZE
        (fun k (h : Dqn.Heap) =>
          h.set_weight (h.neurons q.output.neurons j).weights k
            (h.floats (h.neurons q.output.neurons j).weights k
              + Dqn.LEARNING_RATE * e * Dqn.relu (h.neurons q.hidden.neurons k).bias)) s
        = s := by
      rw [for_loop_zero]
      apply iterate_body_fixed
      intro k hk
      have hr : Dqn.relu (s.neurons q.hidden.neurons k).bias = 0 := by
        unfold Dqn.relu
        exact if_neg (not_lt.mpr (hI k hk))
      simp only [hr, mul_zero, add_zero, Dqn.set_weight_self]
    simp only [hin]
  · rw [Dqn.set_bias_bias]
    have : ¬ (q.hidden.neurons = q.output.neurons ∧ k = j) := fun hc => hne hc.1
    rw [if_neg this]
    exact hI k hk

/-- One training pass on `Dqn.exp_idle` with target and live network in the
same block moves the bias shift from `d` to `d + LEARNING_RATE * (-1 - d / 100)`. -/
theorem Dqn.train_sample_shift (h : Dqn.Heap) (q : Dqn.dqn) (d : ℚ)
    (hne : q.hidden.neurons ≠ q.output.neurons) (hs : Dqn.BiasShift h q d) (hd : d ≤ 0) :
    Dqn.BiasShift
      (Dqn.adjust_output q (Dqn.td_error h q q Dqn.exp_idle)
        (Dqn.adjust_hidden q (Dqn.td_error h q q Dqn.exp_idle) Dqn.exp_idle h))
      q (d + Dqn.LEARNING_RATE * (-1 - d / 100)) := by
  rw [Dqn.td_error_shift h q d hs hd]
  rw [Dqn.adjust_hidden_zero_state q _ Dqn.exp_idle h (fun _ => rfl)]
  have hlr : Dqn.LEARNING_RATE = 1 / 1000 := rfl
  have hb : ∀ k, k < Dqn.HIDDEN_SIZE →
      ((iterate_body
          (fun j (h : Dqn.Heap) =>
            h.set_bias q.hidden.neurons j
              ((h.neurons q.hidden.neurons j).bias + Dqn.LEARNING_RATE * (-1 - d / 100)))
          h Dqn.HIDDEN_SIZE).neurons q.hidden.neurons k).bias
        = -1 + (d + Dqn.LEARNING_RATE * (-1 - d / 100)) := by
    intro k hk
    rw [Dqn.bias_loop, if_pos ⟨rfl, hk⟩, hs.1 k hk]
    ring
  rw [Dqn.adjust_output_nonpos q _ _ hne
    (fun k hk => by rw [hb k hk, hlr]; linarith)]
  refine ⟨fun j hj => ?_, fun a ha => ?_⟩
  · rw [Dqn.bias_loop]
    have : ¬ (q.hidden.neurons = q.output.neurons ∧ j < Dqn.NUM_ACTIONS) := fun hc => hne hc.1
    rw [if_neg this, add_zero]
    exact hb j hj
  · rw [Dqn.bias_loop, if_pos ⟨rfl, ha⟩, Dqn.bias_loop]
    have : ¬ (q.output.neurons = q.hidden.neurons ∧ a < Dqn.HIDDEN_SIZE) :=
      fun hc => hne hc.1.symm
    rw [if_neg this, add_zero, hs.2 a ha]

/-- The heap after one pass of the batch loop. -/
theorem Dqn.train_step_heap (core : Int) (sg : Dqn.State × Rng) :
    (Dqn.train_step core sg).1.heap
      = Dqn.adjust_output (sg.1.q_network core)
          (Dqn.td_error sg.1.heap (sg.1.q_network core) (sg.1.target_network core)
            (sg.1.replay_buffer core
              (((get_random_u32 sg.2).1 % toU32 (sg.1.replay_buffer_count core) : Nat) : Int)))
          (Dqn.adjust_hidden (sg.1.q_network core)
            (Dqn.td_error sg.1.heap (sg.1.q_network core) (sg.1.target_network core)
              (sg.1.replay_buffer core
                (((get_random_u32 sg.2).1 % toU32 (sg.1.replay_buffer_count core) : Nat) : Int)))
            (sg.1.replay_buffer core
              (((get_random_u32 sg.2).1 % toU32 (sg.1.replay_buffer_count core) : Nat) : Int))
            sg.1.heap) :=
  rfl

/-- The biases of the live network of core 0 in `Dqn.state_refreshed` are not
shifted. -/
theorem Dqn.state_refreshed_shift :
    Dqn.BiasShift Dqn.state_refreshed.heap (Dqn.state_warm.q_network 0) 0 := by
  refine ⟨fun j _ => ?_, fun a _ => ?_⟩
  · show (if (4 * (0 : Int).toNat) % 2 = 0 then (-1 : ℚ) else 0) = -1 + 0
    norm_num
  · show (if (4 * (0 : Int).toNat + 1) % 2 = 0 then (-1 : ℚ) else 0) = 0
    norm_num

/-- The batch loop on `Dqn.state_refreshed`: after `n` passes the biases of the
live network of core 0 are shifted by some `d` with `-100 < d <= 0`, and
`d < 0` as soon as one pass was made. -/
theorem Dqn.train_loop_shift (g : Rng) (n : Nat) :
    ∃ d : ℚ,
      Dqn.BiasShift
        (iterate_body (fun _ sg => Dqn.train_step 0 sg) (Dqn.state_refreshed, g) n).1.heap
        (Dqn.state_warm.q_network 0) d ∧
      -100 < d ∧ d ≤ 0 ∧ (1 ≤ n → d < 0) := by
  have hne : (Dqn.state_warm.q_network 0).hidden.neurons
      ≠ (Dqn.state_warm.q_network 0).output.neurons := by decide
  induction n with
  | zero =>
    exact ⟨0, Dqn.state_refreshed_shift, by norm_num, le_refl _,
      fun h => absurd h (by decide)⟩
  | succ n ih =>
    obtain ⟨d, hs, hlo, hhi, _⟩ := ih
    obtain ⟨hq, ht, hbuf, _, _, _, _, _⟩ := Dqn.train_loop_frame 0 Dqn.state_refreshed g n
    have hq0 : (iterate_body (fun _ sg => Dqn.train_step 0 sg) (Dqn.state_refreshed, g)
        n).1.q_network 0 = Dqn.state_warm.q_network 0 := by
      rw [hq]
      rfl
    have ht0 : (iterate_body (fun _ sg => Dqn.train_step 0 sg) (Dqn.state_refreshed, g)
        n).1.target_network 0 = Dqn.state_warm.q_network 0 := by
      rw [ht]
      simp only [Dqn.state_refreshed, Dqn.update_target_network, Function.update_same]
    have hb0 : ∀ i, (iterate_body (fun _ sg => Dqn.train_step 0 sg) (Dqn.state_refreshed, g)
        n).1.replay_buffer 0 i = Dqn.exp_idle := by
      intro i
      rw [hbuf]
      rfl
    have hlr : Dqn.LEARNING_RATE = 1 / 1000 := rfl
    refine ⟨d + Dqn.LEARNING_RATE * (-1 - d / 100), ?_, ?_, ?_, fun _ => ?_⟩
    · have hshift := Dqn.train_sample_shift _ _ d hne hs hhi
      show Dqn.BiasShift
        (Dqn.train_step 0
          (iterate_body (fun _ sg => Dqn.train_step 0 sg) (Dqn.state_refreshed, g) n)).1.heap
        _ _
      rw [Dqn.train_step_heap, hq0, ht0, hb0]
      exact hshift
    · rw [hlr]
      linarith
    · rw [hlr]
      linarith
    · rw [hlr]
      linarith

/-! ## The action switch without wrap-around -/

/-- When neither `cur - 300000` nor `cur + 300000` wraps, the target of the DQN
governor is within `[min, max]`. -/
theorem Dqn.next_freq_in_range_of_no_wrap (action : Int) (p : Policy)
    (h1 : p.min ≤ p.cur) (h2 : p.cur ≤ p.max) (h3 : 300000 ≤ p.cur)
    (h4 : p.cur + 300000 < U32_MOD) :
    p.min ≤ Dqn.next_freq action p ∧ Dqn.next_freq action p ≤ p.max := by
  have h5 : p.cur + 300000 < 4294967296 := h4
  unfold Dqn.next_freq u32_sub u32_add U32_MOD
  norm_num only
  split_ifs
  all_goals first
    | omega
    | (simp only [Nat.max_def, Nat.min_def]; split_ifs <;> omega)

/-- When neither `cur - 300000` nor `cur + 300000` wraps, the target of the
double Q-learning governor is within `[min, max]`. -/
theorem DoubleQ.double_next_freq_in_range_of_no_wrap (action : Int) (p : Policy)
    (h1 : p.min ≤ p.cur) (h2 : p.cur ≤ p.max) (h3 : 300000 ≤ p.cur)
    (h4 : p.cur + 300000 < U32_MOD) :
    p.min ≤ DoubleQ.next_freq action p ∧ DoubleQ.next_freq action p ≤ p.max := by
  have h5 : p.cur + 300000 < 4294967296 := h4
  unfold DoubleQ.next_freq u32_sub u32_add U32_MOD
  norm_num only
  split_ifs
  all_goals first
    | omega
    | (simp only [Nat.max_def, Nat.min_def]; split_ifs <;> omega)

/-- When neither `cur - 100000` nor `cur + 100000` wraps, the target of the
single-table governor is within `[min, max]`. -/
theorem Rl.single_next_freq_in_range_of_no_wrap (action : Int) (p : Policy)
    (h1 : p.min ≤ p.cur) (h2 : p.cur ≤ p.max) (h3 : 100000 ≤ p.cur)
    (h4 : p.cur + 100000 < U32_MOD) :
    p.min ≤ Rl.next_freq action p ∧ Rl.next_freq action p ≤ p.max := by
  have h5 : p.cur + 100000 < 4294967296 := h4
  unfold Rl.next_freq u32_sub u32_add U32_MOD
  norm_num only
  split_ifs
  all_goals first
    | omega
    | (simp only [Nat.max_def, Nat.min_def]; split_ifs <;> omega)

/-! ## Tie-breaks at concrete inputs -/

/-- The exploration test of `main.c` and `doubleqlearning.c` is made in
`double`: the product `UINT_MAX * 0.1` rounds to its exact value
`429496729.5`, and a draw converts to `double` exactly, so the test is the
comparison of the exact values. -/
theorem exploration_threshold_exact :
    f64 ((UINT_MAX : ℚ) * f64 Rl.EPSILON) = (UINT_MAX : ℚ) * Rl.EPSILON ∧
    f64 ((UINT_MAX : ℚ) * f64 DoubleQ.EPSILON) = (UINT_MAX : ℚ) * DoubleQ.EPSILON ∧
    (UINT_MAX : ℚ) * Rl.EPSILON = 858993459 / 2 := by
  decide!

/-- In `deepq.c` the exploration test is made in `float`, where it differs
from the comparison of the exact values: with epsilon `1 / 2` the draw
2147483647 is below `UINT_MAX / 2`, but as a `float` it is `2 ^ 31`, which is
not below the `float` product `2 ^ 32 * 0.5`, so the code exploits. -/
theorem Dqn.exploration_test_in_float :
    ((2147483647 : Nat) : ℚ) < (UINT_MAX : ℚ) * (1 / 2) ∧
    ¬ (f32 ((2147483647 : Nat) : ℚ) < f32 (f32 (UINT_MAX : ℚ) * (1 / 2))) ∧
    f32 (UINT_MAX : ℚ) = 4294967296 := by
  decide!

/-- A call of `add_experience` writes the slot `count % REPLAY_BUFFER_SIZE` only. -/
theorem Dqn.add_experience_other_slot (core : Int) (x : Nat → ℚ) (a : Int) (r : ℚ)
    (y : Nat → ℚ) (d : Bool) (st : Dqn.State) (i : Int)
    (hi : i ≠ Int.tmod (st.replay_buffer_count core) (Dqn.REPLAY_BUFFER_SIZE : Int)) :
    (Dqn.add_experience core x a r y d st).replay_buffer core i = st.replay_buffer core i := by
  simp only [Dqn.add_experience, Function.update_same, Function.update_noteq hi]

/-- An `int` between 0 and `REPLAY_BUFFER_SIZE` converts to `unsigned int`
without change. -/
theorem toU32_of_small (c : Int) (h0 : 0 ≤ c) (h1 : c ≤ (Dqn.REPLAY_BUFFER_SIZE : Int)) :
    ((toU32 c : Nat) : Int) = c := by
  have hcap : (Dqn.REPLAY_BUFFER_SIZE : Int) = 1000 := rfl
  have hm : ((U32_MOD : Nat) : Int) = 4294967296 := rfl
  unfold toU32
  rw [hcap] at h1
  rw [hm, Int.emod_eq_of_lt h0 (by omega), Int.toNat_of_nonneg h0]

/-- A pass of the batch loop adjusts for the experience at `sample_index`. -/
theorem Dqn.train_step_eq (core : Int) (sg : Dqn.State × Rng) :
    Dqn.train_step core sg
      = (Dqn.train_sample core (Dqn.sample_index core sg).1 sg.1, (get_random_u32 sg.2).2) :=
  rfl

/-! ## Reward Variant A -/

/-- The signed difference of two percentages, computed in `unsigned int` and
read back as an `int`, is their difference. -/
theorem toInt32_u32_sub_small (a b : Nat) (ha : a ≤ 100) (hb : b ≤ 100) :
    toInt32 (u32_sub a b) = (a : Int) - (b : Int) := by
  unfold toInt32 u32_sub U32_MOD
  norm_num only
  split_ifs with h <;> omega

/-- The `unsigned int` difference of a value with itself is zero. -/
theorem u32_sub_self (a : Nat) : u32_sub a a = 0 := by
  unfold u32_sub U32_MOD
  have : a % 2 ^ 32 < 2 ^ 32 := Nat.mod_lt _ (by norm_num)
  omega

/-- The integer frequency percentage is at most 100 when `next_freq <= max`,
also when `next_freq * 100` wraps. -/
theorem percent_le (nf mx : Nat) (h : nf ≤ mx) : u32_mul nf 100 / mx ≤ 100 := by
  unfold u32_mul
  have h1 : nf * 100 % U32_MOD ≤ nf * 100 := Nat.mod_le _ _
  exact Nat.div_le_of_le_mul (by nlinarith)

/-- The experience a tick of `dqn_governor` stores carries the reward
`Dqn.reward`, computed from the policy read after the settle wait and the
requested target. -/
theorem Dqn.dqn_governor_stores_reward (p p2 : Policy) (cs ns : Nat → ℚ) (st st' : Dqn.State)
    (g g' : Rng) (h : Dqn.dqn_governor p p2 cs ns st g = some (st', g')) :
    Dqn.reward p2.util (Dqn.next_freq (Dqn.choose_action st (toInt32 p.cpu) cs g).1 p) p2.max
      = some ((st'.replay_buffer (toInt32 p.cpu)
          (Int.tmod (st.replay_buffer_count (toInt32 p.cpu))
            (Dqn.REPLAY_BUFFER_SIZE : Int))).reward) := by
  have key : ∀ (s : Dqn.State) (r : Rng),
      (Dqn.train_network (toInt32 p.cpu) s r).1.replay_buffer = s.replay_buffer :=
    fun s r => (Dqn.train_network_frame (toInt32 p.cpu) s r).2.2.1
  have hrefresh : ∀ (c : Prop) [Decidable c] (s : Dqn.State),
      (if c then Dqn.update_target_network (toInt32 p.cpu) s else s).replay_buffer
        = s.replay_buffer := by
    intro c _ s
    split_ifs <;> rfl
  unfold Dqn.dqn_governor at h
  by_cases hmax : p2.max = 0
  · simp [hmax] at h
  · simp only [if_neg hmax, Option.some.injEq, Prod.mk.injEq] at h
    obtain ⟨hst, _⟩ := h
    subst hst
    simp only [Dqn.reward, if_neg hmax, hrefresh, key, Dqn.add_experience_reward, if_true]

/-! ## The row maximum -/

/-- Every value is at most the maximum. -/
theorem le_max_over (N : Nat) (hN : 0 < N) (v : Nat → ℚ) (i : Nat) (hi : i < N) :
    v i ≤ max_over N hN v :=
  Finset.le_sup' v (Finset.mem_range.mpr hi)

/-- The maximum is monotone in the values. -/
theorem max_over_mono (N : Nat) (hN : 0 < N) (v w : Nat → ℚ) (h : ∀ i, i < N → v i ≤ w i) :
    max_over N hN v ≤ max_over N hN w := by
  unfold max_over
  apply Finset.sup'_le
  intro i hi
  exact le_trans (h i (Finset.mem_range.mp hi)) (Finset.le_sup' w hi)

/-- One `double` operation on an argument that is within `c` units of
`M / 2 ^ 53` of the exact value `y`: the result is within `c + K + 1` units. -/
theorem f64_step (x y c K M : ℚ) (hM : 0 ≤ M) (hc1 : c ≤ 1000)
    (h1 : |x - y| ≤ c * (M / 2 ^ 53)) (h2 : |y| ≤ K * M) :
    |f64 x - y| ≤ (c + K + 1) * (M / 2 ^ 53) := by
  have herr : |f64 x - x| ≤ |x| / 2 ^ 53 := fround_err 53 x
  have hx : |x| ≤ |y| + |x - y| := by
    have := abs_add (x - y) y
    rw [sub_add_cancel] at this
    linarith
  have hd : (0 : ℚ) ≤ M / 2 ^ 53 := div_nonneg hM (by positivity)
  have hsmall : c * (M / 2 ^ 53) ≤ M := by
    have h3 : c * (M / 2 ^ 53) ≤ 1000 * (M / 2 ^ 53) := mul_le_mul_of_nonneg_right hc1 hd
    have h4 : 1000 * (M / 2 ^ 53) ≤ M := by
      rw [show (1000 : ℚ) * (M / 2 ^ 53) = M * (1000 / 2 ^ 53) by ring]
      have : (1000 : ℚ) / 2 ^ 53 ≤ 1 := by norm_num
      nlinarith
    linarith
  have hx2 : |x| / 2 ^ 53 ≤ (K + 1) * (M / 2 ^ 53) := by
    rw [show (K + 1) * (M / 2 ^ 53) = ((K + 1) * M) / 2 ^ 53 by ring]
    apply div_le_div_of_nonneg_right _ (by positivity)
    linarith
  have htri : |f64 x - y| ≤ |f64 x - x| + |x - y| := by
    have := abs_add (f64 x - x) (x - y)
    rw [sub_add_sub_cancel] at this
    exact this
  linarith

/-- The rounded right-hand side of line 56 of `main.c` is within `2 ^ -22` of
the magnitudes that enter it of the exact value
`q + ALPHA * (r + GAMMA * m - q)`. -/
theorem Rl.update_rounding_error (q r m : ℚ) :
    |f32 (f64 (q + f64 (f64 Rl.ALPHA * f64 (f64 (r + f64 (f64 Rl.GAMMA * m)) - q))))
        - (q + 1 / 10 * (r + 9 / 10 * m - q))|
      ≤ (|q| + |r| + |m|) / 2 ^ 22 := by
  have hq := abs_nonneg q
  have hr := abs_nonneg r
  have hm := abs_nonneg m
  have hM : (0 : ℚ) ≤ |q| + |r| + |m| := by linarith
  have hd : (0 : ℚ) ≤ (|q| + |r| + |m|) / 2 ^ 53 := div_nonneg hM (by positivity)
  have hga : |f64 Rl.GAMMA - 9 / 10| ≤ 9 / 10 / 2 ^ 53 := by
    have := fround_err 53 Rl.GAMMA
    rwa [show |Rl.GAMMA| = 9 / 10 from by norm_num [Rl.GAMMA]] at this
  have hal : |f64 Rl.ALPHA - 1 / 10| ≤ 1 / 10 / 2 ^ 53 := by
    have := fround_err 53 Rl.ALPHA
    rwa [show |Rl.ALPHA| = 1 / 10 from by norm_num [Rl.ALPHA]] at this
  -- GAMMA * max_future_q
  have s1 : |f64 (f64 Rl.GAMMA * m) - 9 / 10 * m| ≤ 3 * ((|q| + |r| + |m|) / 2 ^ 53) := by
    have h := f64_step (f64 Rl.GAMMA * m) (9 / 10 * m) 1 1 _ hM (by norm_num)
      (by
        rw [← sub_mul, abs_mul]
        have : |f64 Rl.GAMMA - 9 / 10| * |m| ≤ 9 / 10 / 2 ^ 53 * |m| :=
          mul_le_mul_of_nonneg_right hga hm
        have h2 : 9 / 10 / 2 ^ 53 * |m| ≤ 1 * ((|q| + |r| + |m|) / 2 ^ 53) := by
          rw [show (9 : ℚ) / 10 / 2 ^ 53 * |m| = (9 / 10 * |m|) / 2 ^ 53 by ring, one_mul]
          apply div_le_div_of_nonneg_right _ (by positivity)
          linarith
        linarith)
      (by rw [abs_mul, show |(9 : ℚ) / 10| = 9 / 10 from by norm_num]; linarith)
    linarith
  -- reward + ...
  have s2 : |f64 (r + f64 (f64 Rl.GAMMA * m)) - (r + 9 / 10 * m)|
      ≤ 5 * ((|q| + |r| + |m|) / 2 ^ 53) := by
    have h := f64_step (r + f64 (f64 Rl.GAMMA * m)) (r + 9 / 10 * m) 3 1 _ hM (by norm_num)
      (by rw [add_sub_add_left_eq_sub]; exact s1)
      (by
        have := abs_add r (9 / 10 * m)
        rw [abs_mul, show |(9 : ℚ) / 10| = 9 / 10 from by norm_num] at this
        linarith)
    linarith
  -- ... - q_table[current_state][action]
  have s3 : |f64 (f64 (r + f64 (f64 Rl.GAMMA * m)) - q) - (r + 9 / 10 * m - q)|
      ≤ 7 * ((|q| + |r| + |m|) / 2 ^ 53) := by
    have h := f64_step (f64 (r + f64 (f64 Rl.GAMMA * m)) - q) (r + 9 / 10 * m - q) 5 1 _ hM
      (by norm_num)
      (by rw [sub_sub_sub_cancel_right]; exact s2)
      (by
        have h1 := abs_sub (r + 9 / 10 * m) q
        have h2 := abs_add r (9 / 10 * m)
        rw [abs_mul, show |(9 : ℚ) / 10| = 9 / 10 from by norm_num] at h2
        linarith)
    linarith
  have y3 : |r + 9 / 10 * m - q| ≤ |q| + |r| + |m| := by
    have h1 := abs_sub (r + 9 / 10 * m) q
    have h2 := abs_add r (9 / 10 * m)
    rw [abs_mul, show |(9 : ℚ) / 10| = 9 / 10 from by norm_num] at h2
    linarith
  have t3 : |f64 (f64 (r + f64 (f64 Rl.GAMMA * m)) - q)| ≤ 2 * (|q| + |r| + |m|) := by
    have h1 := abs_add (f64 (f64 (r + f64 (f64 Rl.GAMMA * m)) - q) - (r + 9 / 10 * m - q))
      (r + 9 / 10 * m - q)
    rw [sub_add_cancel] at h1
    have h2 : 7 * ((|q| + |r| + |m|) / 2 ^ 53) ≤ |q| + |r| + |m| := by
      rw [show (7 : ℚ) * ((|q| + |r| + |m|) / 2 ^ 53) = (|q| + |r| + |m|) * (7 / 2 ^ 53) by ring]
      have : (7 : ℚ) / 2 ^ 53 ≤ 1 := by norm_num
      nlinarith
    linarith
  -- ALPHA * (...)
  have s4 : |f64 (f64 Rl.ALPHA * f64 (f64 (r + f64 (f64 Rl.GAMMA * m)) - q))
      - 1 / 10 * (r + 9 / 10 * m - q)| ≤ 3 * ((|q| + |r| + |m|) / 2 ^ 53) := by
    have h := f64_step (f64 Rl.ALPHA * f64 (f64 (r + f64 (f64 Rl.GAMMA * m)) - q))
      (1 / 10 * (r + 9 / 10 * m - q)) 1 1 _ hM (by norm_num)
      (by
        have e : f64 Rl.ALPHA * f64 (f64 (r + f64 (f64 Rl.GAMMA * m)) - q)
            - 1 / 10 * (r + 9 / 10 * m - q)
            = (f64 Rl.ALPHA - 1 / 10) * f64 (f64 (r + f64 (f64 Rl.GAMMA * m)) - q)
              + 1 / 10 * (f64 (f64 (r + f64 (f64 Rl.GAMMA * m)) - q) - (r + 9 / 10 * m - q)) := by
          ring
        rw [e]
        have h1 := abs_add
          ((f64 Rl.ALPHA - 1 / 10) * f64 (f64 (r + f64 (f64 Rl.GAMMA * m)) - q))
          (1 / 10 * (f64 (f64 (r + f64 (f64 Rl.GAMMA * m)) - q) - (r + 9 / 10 * m - q)))
        rw [abs_mul, abs_mul, show |(1 : ℚ) / 10| = 1 / 10 from by norm_num] at h1
        have h2 : |f64 Rl.ALPHA - 1 / 10| * |f64 (f64 (r + f64 (f64 Rl.GAMMA * m)) - q)|
            ≤ 1 / 10 / 2 ^ 53 * (2 * (|q| + |r| + |m|)) :=
          mul_le_mul hal t3 (abs_nonneg _) (by positivity)
        have h3 : (1 : ℚ) / 10 / 2 ^ 53 * (2 * (|q| + |r| + |m|))
            = 2 / 10 * ((|q| + |r| + |m|) / 2 ^ 53) := by ring
        linarith)
      (by
        rw [abs_mul, show |(1 : ℚ) / 10| = 1 / 10 from by norm_num]
        linarith)
    linarith
  -- q_table[current_state][action] + ...
  have s5 : |f64 (q + f64 (f64 Rl.ALPHA * f64 (f64 (r + f64 (f64 Rl.GAMMA * m)) - q)))
      - (q + 1 / 10 * (r + 9 / 10 * m - q))| ≤ 6 * ((|q| + |r| + |m|) / 2 ^ 53) := by
    have h := f64_step (q + f64 (f64 Rl.ALPHA * f64 (f64 (r + f64 (f64 Rl.GAMMA * m)) - q)))
      (q + 1 / 10 * (r + 9 / 10 * m - q)) 3 2 _ hM (by norm_num)
      (by rw [add_sub_add_left_eq_sub]; exact s4)
      (by
        have h1 := abs_add q (1 / 10 * (r + 9 / 10 * m - q))
        rw [abs_mul, show |(1 : ℚ) / 10| = 1 / 10 from by norm_num] at h1
        linarith)
    linarith
  -- the store into the float cell
  have y5 : |q + 1 / 10 * (r + 9 / 10 * m - q)| ≤ 2 * (|q| + |r| + |m|) := by
    have h1 := abs_add q (1 / 10 * (r + 9 / 10 * m - q))
    rw [abs_mul, show |(1 : ℚ) / 10| = 1 / 10 from by norm_num] at h1
    linarith
  have hsm : 6 * ((|q| + |r| + |m|) / 2 ^ 53) ≤ (|q| + |r| + |m|) / 2 ^ 24 := by
    rw [show (6 : ℚ) * ((|q| + |r| + |m|) / 2 ^ 53) = (|q| + |r| + |m|) * (6 / 2 ^ 53) by ring,
      show (|q| + |r| + |m|) / 2 ^ 24 = (|q| + |r| + |m|) * (1 / 2 ^ 24) by ring]
    exact mul_le_mul_of_nonneg_left (by norm_num) hM
  have t5 : |f64 (q + f64 (f64 Rl.ALPHA * f64 (f64 (r + f64 (f64 Rl.GAMMA * m)) - q)))|
      ≤ 3 * (|q| + |r| + |m|) := by
    have h1 := abs_add
      (f64 (q + f64 (f64 Rl.ALPHA * f64 (f64 (r + f64 (f64 Rl.GAMMA * m)) - q)))
        - (q + 1 / 10 * (r + 9 / 10 * m - q)))
      (q + 1 / 10 * (r + 9 / 10 * m - q))
    rw [sub_add_cancel] at h1
    have h2 : (|q| + |r| + |m|) / 2 ^ 24 ≤ |q| + |r| + |m| := by
      rw [show (|q| + |r| + |m|) / 2 ^ 24 = (|q| + |r| + |m|) * (1 / 2 ^ 24) by ring]
      have : (1 : ℚ) / 2 ^ 24 ≤ 1 := by norm_num
      nlinarith
    linarith
  have herr := fround_err 24
    (f64 (q + f64 (f64 Rl.ALPHA * f64 (f64 (r + f64 (f64 Rl.GAMMA * m)) - q))))
  have herr2 : |f64 (q + f64 (f64 Rl.ALPHA * f64 (f64 (r + f64 (f64 Rl.GAMMA * m)) - q)))|
      / 2 ^ 24 ≤ 3 * ((|q| + |r| + |m|) / 2 ^ 24) := by
    rw [show (3 : ℚ) * ((|q| + |r| + |m|) / 2 ^ 24) = (3 * (|q| + |r| + |m|)) / 2 ^ 24 by ring]
    exact div_le_div_of_nonneg_right t5 (by positivity)
  have htri := abs_add
    (f32 (f64 (q + f64 (f64 Rl.ALPHA * f64 (f64 (r + f64 (f64 Rl.GAMMA * m)) - q))))
      - f64 (q + f64 (f64 Rl.ALPHA * f64 (f64 (r + f64 (f64 Rl.GAMMA * m)) - q))))
    (f64 (q + f64 (f64 Rl.ALPHA * f64 (f64 (r + f64 (f64 Rl.GAMMA * m)) - q)))
      - (q + 1 / 10 * (r + 9 / 10 * m - q)))
  rw [sub_add_sub_cancel] at htri
  have hfin : (|q| + |r| + |m|) / 2 ^ 22 = 4 * ((|q| + |r| + |m|) / 2 ^ 24) := by ring
  have herr3 : |f32 (f64 (q + f64 (f64 Rl.ALPHA * f64 (f64 (r + f64 (f64 Rl.GAMMA * m)) - q))))
      - f64 (q + f64 (f64 Rl.ALPHA * f64 (f64 (r + f64 (f64 Rl.GAMMA * m)) - q)))|
      ≤ 3 * ((|q| + |r| + |m|) / 2 ^ 24) := le_trans herr herr2
  rw [hfin]
  linarith

/-- The update as the machine rounds it and the exact update of
`Rl.update_q_table` write the same cell and move to the same state; the two
values written differ by at most the rounding tolerance, and every other cell
is the same. -/
theorem Rl.update_q_table_rounded_close (st : Rl.State) (a n : Int) (r : ℚ) :
    (Rl.update_q_table_rounded st a n r).current_state
      = (Rl.update_q_table st a n r).current_state ∧
    (∀ s2 a2 : Int, ¬ (s2 = st.current_state ∧ a2 = a) →
      (Rl.update_q_table_rounded st a n r).q_table s2 a2
        = (Rl.update_q_table st a n r).q_table s2 a2) ∧
    |(Rl.update_q_table_rounded st a n r).q_table st.current_state a
        - (Rl.update_q_table st a n r).q_table st.current_state a|
      ≤ Rl.update_tolerance st.current_state a n r st := by
  have hmax : Rl.max_future_q st n
      = max_over Rl.NUM_ACTIONS (by decide) (fun a' => st.q_table n (a' : Int)) :=
    scan_max_eq_max_over (fun a' => st.q_table n (a' : Int)) Rl.NUM_ACTIONS (by decide)
  refine ⟨rfl, fun s2 a2 hne => ?_, ?_⟩
  · simp only [Rl.update_q_table_rounded, Rl.update_q_table]
    by_cases hs : s2 = st.current_state
    · have ha : a2 ≠ a := fun h => hne ⟨hs, h⟩
      rw [hs]
      simp only [Function.update_same, Function.update_noteq ha]
    · simp only [Function.update_noteq hs]
  · have herr := Rl.update_rounding_error (st.q_table st.current_state a) r
      (Rl.max_future_q st n)
    simp only [Rl.update_q_table_rounded, Rl.update_q_table, Function.update_same]
    unfold Rl.update_tolerance
    rw [← hmax]
    exact herr

/-! ## The weight adjustment of one sample -/

/-- The weight read after a weight write. -/
theorem Dqn.set_weight_floats (h : Dqn.Heap) (P : Dqn.Addr) (k : Nat) (v : ℚ) (p : Dqn.Addr)
    (k2 : Nat) :
    (h.set_weight P k v).floats p k2 = if p = P ∧ k2 = k then v else h.floats p k2 := by
  unfold Dqn.Heap.set_weight
  by_cases hp : p = P
  · subst hp
    by_cases hk : k2 = k
    · subst hk
      simp only [Function.update_same, and_self, if_true]
    · simp only [Function.update_same, Function.update_noteq hk, hk, and_false, if_false]
  · simp only [Function.update_noteq hp, hp, false_and, if_false]

/-- The loop `for (k = 0; k < n; k++) P[k] += c k` adds `c k` to the first `n`
weights of the block `P` and to nothing else, and leaves the neuron arrays. -/
theorem Dqn.weights_loop (P : Dqn.Addr) (c : Nat → ℚ) (h : Dqn.Heap) (n : Nat) :
    (iterate_body (fun k (s : Dqn.Heap) => s.set_weight P k (s.floats P k + c k)) h n).neurons
      = h.neurons ∧
    ∀ p k,
      (iterate_body (fun k (s : Dqn.Heap) => s.set_weight P k (s.floats P k + c k)) h n).floats
          p k
        = h.floats p k + if p = P ∧ k < n then c k else 0 := by
  induction n with
  | zero =>
    refine ⟨rfl, fun p k => ?_⟩
    have hne : ¬ (p = P ∧ k < 0) := fun hc => Nat.not_lt_zero k hc.2
    rw [if_neg hne, add_zero]
    rfl
  | succ n ih =>
    obtain ⟨hn, hf⟩ := ih
    refine ⟨?_, fun p k => ?_⟩
    · rw [iterate_body]
      exact hn
    · rw [iterate_body, Dqn.set_weight_floats]
      by_cases hc : p = P ∧ k = n
      · obtain ⟨hp, hk⟩ := hc
        subst hp
        subst hk
        rw [if_pos ⟨rfl, rfl⟩, hf, if_neg (fun hc => lt_irrefl _ hc.2), add_zero,
          if_pos ⟨rfl, Nat.lt_succ_self _⟩]
      · rw [if_neg hc, hf]
        by_cases hp : p = P
        · have hk : k ≠ n := fun hk => hc ⟨hp, hk⟩
          by_cases hlt : k < n
          · rw [if_pos ⟨hp, hlt⟩, if_pos ⟨hp, Nat.lt_succ_of_lt hlt⟩]
          · rw [if_neg (fun hc2 => hlt hc2.2), if_neg (fun hc2 => hlt (by omega))]
        · rw [if_neg (fun hc2 => hp hc2.1), if_neg (fun hc2 => hp hc2.1)]

/-- The inner loop of a layer adjustment, whose pointer and increments are read
from the neuron arrays, is a weights loop on the block read at its start. -/
theorem Dqn.inner_loop (ptr : (Dqn.Addr → Nat → Dqn.neuron) → Dqn.Addr)
    (c : Nat → (Dqn.Addr → Nat → Dqn.neuron) → ℚ) (h : Dqn.Heap) (n : Nat) :
    iterate_body
        (fun k (s : Dqn.Heap) =>
          s.set_weight (ptr s.neurons) k (s.floats (ptr s.neurons) k + c k s.neurons)) h n
      = iterate_body
        (fun k (s : Dqn.Heap) =>
          s.set_weight (ptr h.neurons) k (s.floats (ptr h.neurons) k + c k h.neurons)) h n :=
  (iterate_body_congr_inv (fun s : Dqn.Heap => s.neurons = h.neurons)
    (fun k (s : Dqn.Heap) =>
      s.set_weight (ptr s.neurons) k (s.floats (ptr s.neurons) k + c k s.neurons))
    (fun k (s : Dqn.Heap) =>
      s.set_weight (ptr h.neurons) k (s.floats (ptr h.neurons) k + c k h.neurons))
    h n rfl
    (fun k s _ hs => by
      have hs2 : s.neurons = h.neurons := hs
      exact ⟨by simp only [hs2], hs2⟩)).1

/-- What the adjustment of one unit changes. -/
theorem Dqn.layer_unit_spec (A : Dqn.Addr) (m : Nat) (c : Nat → ℚ) (b : ℚ) (j : Nat)
    (h : Dqn.Heap) :
    (∀ a i, ((Dqn.layer_unit A m c b j h).neurons a i).weights = (h.neurons a i).weights) ∧
    (∀ a i, ((Dqn.layer_unit A m c b j h).neurons a i).bias
        = (h.neurons a i).bias + if a = A ∧ i = j then b else 0) ∧
    (∀ p k, (Dqn.layer_unit A m c b j h).floats p k
        = h.floats p k + if p = (h.neurons A j).weights ∧ k < m then c k else 0) := by
  obtain ⟨hn, hf⟩ := Dqn.weights_loop (h.neurons A j).weights c h m
  refine ⟨fun a i => ?_, fun a i => ?_, fun p k => ?_⟩
  · unfold Dqn.layer_unit
    rw [Dqn.set_bias_weights, hn]
  · unfold Dqn.layer_unit
    rw [Dqn.set_bias_bias, hn]
    by_cases hc : a = A ∧ i = j
    · obtain ⟨ha, hi⟩ := hc
      subst ha
      subst hi
      rw [if_pos ⟨rfl, rfl⟩, if_pos ⟨rfl, rfl⟩]
    · rw [if_neg hc, if_neg hc, add_zero]
  · exact hf p k

/-- What the adjustment of the first `n` units of a layer changes, the weight
blocks of the units being pairwise different. -/
theorem Dqn.layer_loop_spec (A : Dqn.Addr) (m : Nat) (c : Nat → ℚ) (b : ℚ) (h : Dqn.Heap)
    (L : Nat)
    (hdist : ∀ i j, i < L → j < L → i ≠ j →
      (h.neurons A i).weights ≠ (h.neurons A j).weights)
    (n : Nat) (hn : n ≤ L) :
    (∀ a i, ((iterate_body (Dqn.layer_unit A m c b) h n).neurons a i).weights
        = (h.neurons a i).weights) ∧
    (∀ a i, ((iterate_body (Dqn.layer_unit A m c b) h n).neurons a i).bias
        = (h.neurons a i).bias + if a = A ∧ i < n then b else 0) ∧
    (∀ p k, (iterate_body (Dqn.layer_unit A m c b) h n).floats p k
        = h.floats p k
          + if (∃ j, j < n ∧ p = (h.neurons A j).weights) ∧ k < m then c k else 0) := by
  induction n with
  | zero =>
    refine ⟨fun _ _ => rfl, fun a i => ?_, fun p k => ?_⟩
    · rw [if_neg (fun hc => Nat.not_lt_zero i hc.2), add_zero]
      rfl
    · rw [if_neg (fun hc => by obtain ⟨⟨j, hj, _⟩, _⟩ := hc; exact Nat.not_lt_zero j hj),
        add_zero]
      rfl
  | succ n ih =>
    obtain ⟨hw, hb, hf⟩ := ih (Nat.le_of_succ_le hn)
    obtain ⟨uw, ub, uf⟩ :=
      Dqn.layer_unit_spec A m c b n (iterate_body (Dqn.layer_unit A m c b) h n)
    have hnL : n < L := hn
    refine ⟨fun a i => ?_, fun a i => ?_, fun p k => ?_⟩
    · rw [iterate_body, uw, hw]
    · rw [iterate_body, ub, hb]
      by_cases ha : a = A
      · subst ha
        by_cases hlt : i < n
        · rw [if_pos ⟨rfl, hlt⟩, if_neg (fun hc => by omega), if_pos ⟨rfl, by omega⟩, add_zero]
        · by_cases hi : i = n
          · rw [if_neg (fun hc => hlt hc.2), if_pos ⟨rfl, hi⟩, if_pos ⟨rfl, by omega⟩, add_zero]
          · rw [if_neg (fun hc => hlt hc.2), if_neg (fun hc => hi hc.2),
              if_neg (fun hc => by omega), add_zero]
      · rw [if_neg (fun hc => ha hc.1), if_neg (fun hc => ha hc.1),
          if_neg (fun hc => ha hc.1), add_zero]
    · rw [iterate_body, uf, hf, hw]
      have hstep : ((∃ j, j < n + 1 ∧ p = (h.neurons A j).weights) ∧ k < m)
          ↔ ((∃ j, j < n ∧ p = (h.neurons A j).weights) ∧ k < m)
            ∨ (p = (h.neurons A n).weights ∧ k < m) := by
        constructor
        · rintro ⟨⟨j, hj, hpj⟩, hk⟩
          by_cases hjn : j = n
          · exact Or.inr ⟨hjn ▸ hpj, hk⟩
          · exact Or.inl ⟨⟨j, by omega, hpj⟩, hk⟩
        · rintro (⟨⟨j, hj, hpj⟩, hk⟩ | ⟨hp, hk⟩)
          · exact ⟨⟨j, Nat.lt_succ_of_lt hj, hpj⟩, hk⟩
          · exact ⟨⟨n, Nat.lt_succ_self n, hp⟩, hk⟩
      have hexcl : ¬ (((∃ j, j < n ∧ p = (h.neurons A j).weights) ∧ k < m)
          ∧ (p = (h.neurons A n).weights ∧ k < m)) := by
        rintro ⟨⟨⟨j, hj, hpj⟩, _⟩, hp, _⟩
        exact hdist j n (by omega) hnL (by omega) (hpj.symm.trans hp)
      by_cases h1 : (∃ j, j < n ∧ p = (h.neurons A j).weights) ∧ k < m
      · have h2 : ¬ (p = (h.neurons A n).weights ∧ k < m) := fun h2 => hexcl ⟨h1, h2⟩
        rw [if_pos h1, if_neg h2, if_pos (hstep.mpr (Or.inl h1)), add_zero]
      · by_cases h2 : p = (h.neurons A n).weights ∧ k < m
        · rw [if_neg h1, if_pos h2, if_pos (hstep.mpr (Or.inr h2)), add_zero]
        · rw [if_neg h1, if_neg h2, if_neg (fun h3 => (hstep.mp h3).elim h1 h2), add_zero]

/-- The hidden-layer adjustment is the adjustment of its `HIDDEN_SIZE` units. -/
theorem Dqn.adjust_hidden_eq (q : Dqn.dqn) (e : ℚ) (exp : Dqn.experience) (h : Dqn.Heap) :
    Dqn.adjust_hidden q e exp h
      = iterate_body
          (Dqn.layer_unit q.hidden.neurons Dqn.STATE_DIM
            (fun k => Dqn.LEARNING_RATE * e * exp.state k) (Dqn.LEARNING_RATE * e))
          h Dqn.HIDDEN_SIZE := by
  unfold Dqn.adjust_hidden
  rw [for_loop_zero]
  congr 1

/-- The output-layer adjustment is the adjustment of its `NUM_ACTIONS` units, the
increments being read from the hidden biases at its start. -/
theorem Dqn.adjust_output_eq (q : Dqn.dqn) (e : ℚ) (h : Dqn.Heap)
    (hne : q.hidden.neurons ≠ q.output.neurons) :
    Dqn.adjust_output q e h
      = iterate_body
          (Dqn.layer_unit q.output.neurons Dqn.HIDDEN_SIZE
            (fun k => Dqn.LEARNING_RATE * e * Dqn.relu (h.neurons q.hidden.neurons k).bias)
            (Dqn.LEARNING_RATE * e))
          h Dqn.NUM_ACTIONS := by
  unfold Dqn.adjust_output
  rw [for_loop_zero]
  refine (iterate_body_congr_inv
    (fun s : Dqn.Heap =>
      ∀ k, (s.neurons q.hidden.neurons k).bias = (h.neurons q.hidden.neurons k).bias)
    _ _ h Dqn.NUM_ACTIONS (fun _ => rfl) ?_).1
  intro j s _ hI
  have hI2 : ∀ k, (s.neurons q.hidden.neurons k).bias = (h.neurons q.hidden.neurons k).bias :=
    hI
  refine ⟨?_, fun k => ?_⟩
  · have hin : for_loop 0 Dqn.HIDDEN_SIZE
        (fun k (h : Dqn.Heap) =>
          h.set_weight (h.neurons q.output.neurons j).weights k
            (h.floats (h.neurons q.output.neurons j).weights k
              + Dqn.LEARNING_RATE * e * Dqn.relu (h.neurons q.hidden.neurons k).bias)) s
        = iterate_body
            (fun k (s2 : Dqn.Heap) =>
              s2.set_weight (s.neurons q.output.neurons j).weights k
                (s2.floats (s.neurons q.output.neurons j).weights k
                  + Dqn.LEARNING_RATE * e * Dqn.relu (s.neurons q.hidden.neurons k).bias))
            s Dqn.HIDDEN_SIZE := by
      rw [for_loop_zero]
      exact Dqn.inner_loop (fun N => (N q.output.neurons j).weights)
        (fun k N => Dqn.LEARNING_RATE * e * Dqn.relu (N q.hidden.neurons k).bias) s
        Dqn.HIDDEN_SIZE
    have hneur := (Dqn.weights_loop (s.neurons q.output.neurons j).weights
      (fun k => Dqn.LEARNING_RATE * e * Dqn.relu (s.neurons q.hidden.neurons k).bias) s
      Dqn.HIDDEN_SIZE).1
    simp only [hin]
    unfold Dqn.layer_unit
    rw [hneur]
    simp only [hI2]
  · rw [(Dqn.layer_unit_spec _ _ _ _ j s).2.1 q.hidden.neurons k,
      if_neg (fun hc => hne hc.1), add_zero]
    exact hI2 k

/-- The live network of core 0 in `Dqn.state_warm` has its own blocks. -/
theorem Dqn.state_warm_own_blocks :
    Dqn.OwnBlocks Dqn.state_warm.heap (Dqn.state_warm.q_network 0) := by
  refine ⟨by decide, ?_, ?_, ?_⟩
  · intro i j _ _ hij
    show 2 * ((4 * (0 : Int).toNat) * 32 + i) + 1 ≠ 2 * ((4 * (0 : Int).toNat) * 32 + j) + 1
    omega
  · intro i j _ _ hij
    show 2 * ((4 * (0 : Int).toNat + 1) * 32 + i) + 1
      ≠ 2 * ((4 * (0 : Int).toNat + 1) * 32 + j) + 1
    omega
  · intro i j hi hj
    have hh : Dqn.HIDDEN_SIZE = 32 := rfl
    show 2 * ((4 * (0 : Int).toNat) * 32 + i) + 1
      ≠ 2 * ((4 * (0 : Int).toNat + 1) * 32 + j) + 1
    simp only [Int.toNat_zero]
    omega

/-! ## Ticks and the other cores -/

/-- On finite tables `calculate_reward` is the reward of the finite embedding
when that exists; when a divisor is zero it is `+inf` or NaN. -/
theorem DoubleQ.calculate_reward_ext (st : DoubleQ.State) (core : Int)
    (cur_freq next_freq time_diff : Nat) :
    (∀ r, DoubleQ.calculate_reward st core cur_freq next_freq time_diff = some r →
      DoubleQ.Ext.calculate_reward (DoubleQ.Ext.ofState st) core cur_freq next_freq time_diff
        = XFloat.fin r) ∧
    (DoubleQ.calculate_reward st core cur_freq next_freq time_diff = none →
      DoubleQ.Ext.calculate_reward (DoubleQ.Ext.ofState st) core cur_freq next_freq time_diff
          = XFloat.pinf ∨
      DoubleQ.Ext.calculate_reward (DoubleQ.Ext.ofState st) core cur_freq next_freq time_diff
          = XFloat.nan) := by
  unfold DoubleQ.calculate_reward DoubleQ.Ext.calculate_reward fdiv
  simp only [DoubleQ.Ext.ofState]
  generalize u64_sub (st.energy_consumed core) (u64_mul cur_freq time_diff / 1000000) = e
  have hn : (0 : ℚ) ≤ (next_freq : ℚ) := Nat.cast_nonneg _
  have hc0 : (0 : ℚ) ≤ (cur_freq : ℚ) := Nat.cast_nonneg _
  have he0 : (0 : ℚ) ≤ (e : ℚ) := Nat.cast_nonneg _
  by_cases hc : (cur_freq : ℚ) = 0
  · refine ⟨fun r hr => ?_, fun _ => ?_⟩
    · simp [hc] at hr
    · rcases eq_or_lt_of_le hn with h0 | hpos
      · right
        simp [XFloat.div, XFloat.mul, XFloat.sub, XFloat.add, XFloat.neg, XFloat.signed_inf,
          hc, ← h0]
      · left
        simp [XFloat.div, XFloat.mul, XFloat.sub, XFloat.add, XFloat.neg, XFloat.signed_inf,
          hc, ne_of_gt hpos, hpos, he0]
  · by_cases he : (e : ℚ) = 0
    · refine ⟨fun r hr => ?_, fun _ => ?_⟩
      · simp [hc, he] at hr
      · have hcpos : (0 : ℚ) < (cur_freq : ℚ) := lt_of_le_of_ne hc0 (Ne.symm hc)
        rcases eq_or_lt_of_le hn with h0 | hpos
        · right
          simp [XFloat.div, XFloat.mul, XFloat.sub, XFloat.add, XFloat.neg, XFloat.signed_inf,
            hc, he, ← h0]
        · left
          have hq : (0 : ℚ) < (next_freq : ℚ) / (cur_freq : ℚ) := div_pos hpos hcpos
          simp [XFloat.div, XFloat.mul, XFloat.sub, XFloat.add, XFloat.neg, XFloat.signed_inf,
            hc, he, ne_of_gt hq, hq]
    · refine ⟨fun r hr => ?_, fun hnone => ?_⟩
      · simp only [if_neg hc, if_neg he, Option.some_bind, Option.some.injEq] at hr
        simp only [XFloat.div, if_neg hc, if_neg he, XFloat.mul, XFloat.sub, XFloat.neg,
          XFloat.add]
        rw [← hr]
        congr 1
        ring
      · simp [hc, he] at hnone

/-- A bound on every value bounds the maximum. -/
theorem max_over_le (N : Nat) (hN : 0 < N) (v : Nat → ℚ) (c : ℚ) (h : ∀ i, i < N → v i ≤ c) :
    max_over N hN v ≤ c := by
  unfold max_over
  exact Finset.sup'_le _ _ (fun i hi => h i (Finset.mem_range.mp hi))

/-- The percentage mismatch at `util = 50`, `next_freq = 1100000`. -/
theorem Rl.policy_ex_abs : abs_u32 (u32_sub 50 (u32_mul 1100000 100 / 2000000)) = 5 := by decide
/-- The weight-filling loop of `init_neuron` leaves the allocator alone. -/
theorem Dqn.fill_alloc (wp : Dqn.Addr) (n : Nat) (c : Dqn.InitCtx) :
    (for_loop 0 n
      (fun j (c : Dqn.InitCtx) =>
        ({ heap := c.heap.set_weight wp j (Dqn.rand_weight (get_random_u32 c.rng).1),
           alloc := c.alloc, rng := (get_random_u32 c.rng).2 } : Dqn.InitCtx)) c).alloc
      = c.alloc := by
  rw [for_loop_zero]
  exact iterate_body_inv (fun s : Dqn.InitCtx => s.alloc = c.alloc)
    (fun j (c : Dqn.InitCtx) =>
      ({ heap := c.heap.set_weight wp j (Dqn.rand_weight (get_random_u32 c.rng).1),
         alloc := c.alloc, rng := (get_random_u32 c.rng).2 } : Dqn.InitCtx))
    c n rfl (fun k s _ hs => hs)

/-- A neuron whose weights block is allocated is initialised, with one call of
`kmalloc`. -/
theorem Dqn.init_neuron_ok (neurons : Dqn.Addr) (m i : Nat) (c : Dqn.InitCtx)
    (h : c.alloc.fails c.alloc.calls = false) :
    ∃ c2, Dqn.init_neuron neurons m i c = some c2 ∧ c2.alloc.fails = c.alloc.fails ∧
      c2.alloc.calls = c.alloc.calls + 1 := by
  simp only [Dqn.init_neuron, Dqn.kmalloc, h, Bool.false_eq_true, if_false]
  refine ⟨_, rfl, ?_, ?_⟩
  · simp only [Dqn.fill_alloc]
  · simp only [Dqn.fill_alloc]

/-- The neuron loop of `init_layer` when none of its allocations fails. -/
theorem Dqn.neuron_loop_ok (neurons : Dqn.Addr) (m : Nat) (c : Dqn.InitCtx) (n : Nat)
    (h : ∀ k, c.alloc.calls ≤ k → k < c.alloc.calls + n → c.alloc.fails k = false) :
    ∃ c2, iterate_body (fun i (acc : Option Dqn.InitCtx) =>
        acc.bind (Dqn.init_neuron neurons m i)) (some c) n = some c2 ∧
      c2.alloc.fails = c.alloc.fails ∧ c2.alloc.calls = c.alloc.calls + n := by
  induction n with
  | zero => exact ⟨c, rfl, rfl, rfl⟩
  | succ n ih =>
    obtain ⟨c1, h1, hf, hc⟩ := ih (fun k hk hk2 => h k hk (by omega))
    obtain ⟨c2, h2, hf2, hc2⟩ := Dqn.init_neuron_ok neurons m n c1
      (by rw [hf, hc]; exact h _ (by omega) (by omega))
    refine ⟨c2, ?_, hf2.trans hf, by omega⟩
    rw [iterate_body, h1]
    exact h2

/-- A layer none of whose allocations fails is initialised, with
`1 + output_size` calls of `kmalloc`. -/
theorem Dqn.init_layer_ok (m n : Nat) (c : Dqn.InitCtx)
    (h : ∀ k, c.alloc.calls ≤ k → k < c.alloc.calls + (1 + n) → c.alloc.fails k = false) :
    ∃ r, Dqn.init_layer m n c = some r ∧ r.2.alloc.fails = c.alloc.fails ∧
      r.2.alloc.calls = c.alloc.calls + (1 + n) := by
  have h0 : c.alloc.fails c.alloc.calls = false := h _ (le_refl _) (by omega)
  simp only [Dqn.init_layer, Dqn.kmalloc, h0, Bool.false_eq_true, if_false]
  rw [for_loop_zero]
  obtain ⟨c2, h2, hf, hc⟩ := Dqn.neuron_loop_ok (c.alloc.calls + 1) m
    { heap := c.heap, alloc := { fails := c.alloc.fails, calls := c.alloc.calls + 1 },
      rng := c.rng } n
    (fun k hk hk2 => h k (Nat.le_of_succ_le hk) (by simp only [] at hk2 ⊢; omega))
  rw [h2]
  exact ⟨_, rfl, hf, by rw [hc]; simp only []; omega⟩

/-- A network whose block exists and none of whose 39 allocations fails is
initialised. -/
theorem Dqn.init_dqn_ok (p : Dqn.Addr) (c : Dqn.InitCtx)
    (h : ∀ k, c.alloc.calls ≤ k → k < c.alloc.calls + 39 → c.alloc.fails k = false) :
    ∃ r, Dqn.init_dqn (some p) c = some r ∧ r.2.alloc.fails = c.alloc.fails ∧
      r.2.alloc.calls = c.alloc.calls + 39 := by
  obtain ⟨r1, h1, hf1, hc1⟩ := Dqn.init_layer_ok Dqn.STATE_DIM Dqn.HIDDEN_SIZE c
    (fun k hk hk2 => h k hk (by simp only [Dqn.HIDDEN_SIZE] at hk2; omega))
  obtain ⟨r2, h2, hf2, hc2⟩ := Dqn.init_layer_ok Dqn.HIDDEN_SIZE Dqn.NUM_ACTIONS r1.2
    (fun k hk hk2 => by
      rw [hf1]
      simp only [Dqn.NUM_ACTIONS, Dqn.HIDDEN_SIZE] at hk hk2 hc1
      exact h k (by omega) (by omega))
  refine ⟨({ hidden := r1.1, output := r2.1 }, r2.2), ?_, hf2.trans hf1, ?_⟩
  · simp only [Dqn.init_dqn, h1, Option.some_bind, h2]
  · simp only [Dqn.NUM_ACTIONS, Dqn.HIDDEN_SIZE] at hc1 hc2 ⊢
    omega

/-- A core none of whose first 80 allocations fails is initialised with 81
calls of `kmalloc`; its replay buffer is what the last of them returns. -/
theorem Dqn.init_core_ok (i : Nat) (st : Dqn.InitState)
    (h : ∀ k, st.ctx.alloc.calls ≤ k → k < st.ctx.alloc.calls + 80 →
      st.ctx.alloc.fails k = false) :
    ∃ st2, Dqn.init_core i st = some st2 ∧ st2.ctx.alloc.fails = st.ctx.alloc.fails ∧
      st2.ctx.alloc.calls = st.ctx.alloc.calls + 81 ∧
      st2.replay_buffer = Function.update st.replay_buffer (i : Int)
        (if st.ctx.alloc.fails (st.ctx.alloc.calls + 80) then none
         else some (st.ctx.alloc.calls + 80 + 1)) := by
  have h0 : st.ctx.alloc.fails st.ctx.alloc.calls = false := h _ (le_refl _) (by omega)
  have h1 : st.ctx.alloc.fails (st.ctx.alloc.calls + 1) = false := h _ (by omega) (by omega)
  obtain ⟨r1, e1, hf1, hc1⟩ := Dqn.init_dqn_ok (st.ctx.alloc.calls + 1)
    { heap := st.ctx.heap,
      alloc := { fails := st.ctx.alloc.fails, calls := st.ctx.alloc.calls + 1 + 1 },
      rng := st.ctx.rng }
    (fun k hk hk2 => h k (by simp only [] at hk; omega) (by simp only [] at hk2; omega))
  obtain ⟨r2, e2, hf2, hc2⟩ := Dqn.init_dqn_ok (st.ctx.alloc.calls + 1 + 1) r1.2
    (fun k hk hk2 => by
      rw [hf1]
      simp only [] at hc1
      exact h k (by omega) (by omega))
  simp only [] at hf1 hc1
  have hc : r2.2.alloc.calls = st.ctx.alloc.calls + 80 := by omega
  have hf : r2.2.alloc.fails = st.ctx.alloc.fails := hf2.trans hf1
  simp only [Dqn.init_core, Dqn.kmalloc, h0, h1, Bool.false_eq_true, if_false, e1,
    Option.some_bind, e2]
  refine ⟨_, rfl, ?_, ?_, ?_⟩
  · exact hf
  · show r2.2.alloc.calls + 1 = _
    omega
  · simp only [hf, hc]

/-- A core whose first allocation fails is not initialised: `init_dqn` stores
through the NULL pointer. -/
theorem Dqn.init_core_null (i : Nat) (st : Dqn.InitState)
    (h : st.ctx.alloc.fails st.ctx.alloc.calls = true) : Dqn.init_core i st = none := by
  simp only [Dqn.init_core, Dqn.kmalloc, h, if_true, Dqn.init_dqn, Option.none_bind]

/-- When the first allocation of `dqn_gov_init` fails the initialisation does
not return: `init_dqn` stores through the NULL pointer. -/
theorem Dqn.dqn_gov_init_null (r : Int) (st : Dqn.InitState)
    (h : st.ctx.alloc.fails st.ctx.alloc.calls = true) : Dqn.dqn_gov_init r st = none := by
  have h4 : ∀ (b : Nat → Option Dqn.InitState → Option Dqn.InitState) (x : Option Dqn.InitState),
      iterate_body b x 4 = b 3 (b 2 (b 1 (b 0 x))) := fun _ _ => rfl
  unfold Dqn.dqn_gov_init
  rw [for_loop_zero]
  simp only [Dqn.NUM_CORES, h4, Option.some_bind, Dqn.init_core_null _ st h, Option.none_bind,
    Option.map_none']

/-- Every run of `dqn_gov_init` that returns has registered the governor and
returns what the registration returned. -/
theorem Dqn.dqn_gov_init_registers (r : Int) (st : Dqn.InitState) (res : Dqn.InitResult)
    (h : Dqn.dqn_gov_init r st = some res) : res.registered = true ∧ res.ret = r := by
  unfold Dqn.dqn_gov_init at h
  obtain ⟨st2, _, h2⟩ := Option.map_eq_some'.mp h
  rw [← h2]
  exact ⟨rfl, rfl⟩

/-- When only the allocation of core 0's replay buffer fails, `dqn_gov_init`
returns with the governor registered and `replay_buffer[0]` NULL. -/
theorem Dqn.dqn_gov_init_missing_buffer (r : Int) :
    ∃ res, Dqn.dqn_gov_init r (Dqn.init_zero (Dqn.ctx_failing 80)) = some res ∧
      res.registered = true ∧ res.ret = r ∧ res.state.replay_buffer 0 = none := by
  have hfail : ∀ k, k ≠ 80 → (Dqn.init_zero (Dqn.ctx_failing 80)).ctx.alloc.fails k = false :=
    fun k hk => decide_eq_false hk
  have h80 : (Dqn.init_zero (Dqn.ctx_failing 80)).ctx.alloc.fails 80 = true := rfl
  have hc0 : (Dqn.init_zero (Dqn.ctx_failing 80)).ctx.alloc.calls = 0 := rfl
  obtain ⟨s1, e1, f1, c1, b1⟩ := Dqn.init_core_ok 0 (Dqn.init_zero (Dqn.ctx_failing 80))
    (fun k _ hk => hfail k (by rw [hc0] at hk; omega))
  rw [hc0] at c1 b1
  obtain ⟨s2, e2, f2, c2, b2⟩ := Dqn.init_core_ok 1 s1
    (fun k hk hk2 => by rw [f1]; exact hfail k (by omega))
  obtain ⟨s3, e3, f3, c3, b3⟩ := Dqn.init_core_ok 2 s2
    (fun k hk hk2 => by rw [f2, f1]; exact hfail k (by omega))
  obtain ⟨s4, e4, f4, c4, b4⟩ := Dqn.init_core_ok 3 s3
    (fun k hk hk2 => by rw [f3, f2, f1]; exact hfail k (by omega))
  refine ⟨{ state := s4, registered := true, ret := r }, ?_, rfl, rfl, ?_⟩
  · unfold Dqn.dqn_gov_init
    rw [for_loop_zero]
    show Option.map _ (((((some (Dqn.init_zero (Dqn.ctx_failing 80))).bind
      (Dqn.init_core 0)).bind (Dqn.init_core 1)).bind (Dqn.init_core 2)).bind
      (Dqn.init_core 3)) = _
    rw [Option.some_bind, e1, Option.some_bind, e2, Option.some_bind, e3, Option.some_bind, e4]
    rfl
  · show s4.replay_buffer 0 = none
    rw [b4, Function.update_noteq (by decide), b3, Function.update_noteq (by decide), b2,
      Function.update_noteq (by decide), b1]
    rfl

/-- Whatever the allocations do, `double_q_gov_init` registers the governor
and returns what the registration returned. -/
theorem DoubleQ.double_q_gov_init_registers (kmalloc : Nat → Option DoubleQ.q_table)
    (now : Nat → Nat) (r : Int) (st : DoubleQ.InitState) :
    (DoubleQ.double_q_gov_init kmalloc now r st).registered = true ∧
      (DoubleQ.double_q_gov_init kmalloc now r st).ret = r :=
  ⟨rfl, rfl⟩

/-- When the allocation for core 2 fails, `init_q_tables` leaves cores 0 and 1
initialised and the tables of cores 2 and 3 NULL. -/
theorem DoubleQ.init_q_tables_partial (now : Nat → Nat) :
    ((DoubleQ.init_q_tables DoubleQ.kmalloc_ex now DoubleQ.init_zero).q_tables 0).isSome = true ∧
    ((DoubleQ.init_q_tables DoubleQ.kmalloc_ex now DoubleQ.init_zero).q_tables 1).isSome = true ∧
    (DoubleQ.init_q_tables DoubleQ.kmalloc_ex now DoubleQ.init_zero).q_tables 2 = none ∧
    (DoubleQ.init_q_tables DoubleQ.kmalloc_ex now DoubleQ.init_zero).q_tables 3 = none := by
  have h4 : ∀ (b : Nat → DoubleQ.InitState × Bool → DoubleQ.InitState × Bool)
      (x : DoubleQ.InitState × Bool), iterate_body b x 4 = b 3 (b 2 (b 1 (b 0 x))) :=
    fun _ _ => rfl
  have k0 : DoubleQ.kmalloc_ex 0 = some { q1 := fun _ _ => 1, q2 := fun _ _ => 1 } := rfl
  have k1 : DoubleQ.kmalloc_ex 1 = some { q1 := fun _ _ => 1, q2 := fun _ _ => 1 } := rfl
  have k2 : DoubleQ.kmalloc_ex 2 = none := rfl
  unfold DoubleQ.init_q_tables
  rw [for_loop_zero]
  simp only [DoubleQ.NUM_CORES, h4, k0, k1, k2, Bool.false_eq_true, if_false, if_true]
  refine ⟨?_, ?_, ?_, ?_⟩
  · rw [Function.update_noteq (by decide), Function.update_noteq (by decide)]
    rfl
  · rw [Function.update_noteq (by decide)]
    rfl
  · rfl
  · rw [Function.update_noteq (by decide), Function.update_noteq (by decide),
      Function.update_noteq (by decide)]
    rfl

/-- When every allocation succeeds and the clock reads 0, `init_q_tables`
leaves the state `DoubleQ.state_init`: for every core, every table cell is 0
(whatever the allocated block held, here ones), the state is 0, the time is 0
and no energy is consumed. -/
theorem DoubleQ.init_q_tables_state_init :
    ∀ i, i < DoubleQ.NUM_CORES →
      (DoubleQ.init_q_tables (fun _ => some { q1 := fun _ _ => 1, q2 := fun _ _ => 1 })
          (fun _ => 0) DoubleQ.init_zero).current_states (i : Int)
        = DoubleQ.state_init.current_states (i : Int) ∧
      (DoubleQ.init_q_tables (fun _ => some { q1 := fun _ _ => 1, q2 := fun _ _ => 1 })
          (fun _ => 0) DoubleQ.init_zero).last_update_time (i : Int)
        = DoubleQ.state_init.last_update_time (i : Int) ∧
      (DoubleQ.init_q_tables (fun _ => some { q1 := fun _ _ => 1, q2 := fun _ _ => 1 })
          (fun _ => 0) DoubleQ.init_zero).energy_consumed (i : Int)
        = DoubleQ.state_init.energy_consumed (i : Int) ∧
      ∀ j, j < DoubleQ.NUM_STATES → ∀ k, k < DoubleQ.NUM_ACTIONS →
        ((DoubleQ.init_q_tables (fun _ => some { q1 := fun _ _ => 1, q2 := fun _ _ => 1 })
            (fun _ => 0) DoubleQ.init_zero).q_tables (i : Int)).map
          (fun t => (t.q1 (j : Int) (k : Int), t.q2 (j : Int) (k : Int)))
          = some ((DoubleQ.state_init.q_tables (i : Int)).q1 (j : Int) (k : Int),
                  (DoubleQ.state_init.q_tables (i : Int)).q2 (j : Int) (k : Int)) := by
  decide!

/-! ## The order of float values -/

/-- A loop on lifted states: when every pass commutes with the lifting, so
does the loop. -/
theorem iterate_body_map {σ τ : Type} (f : σ → τ) (b : Nat → σ → σ) (B : Nat → τ → τ)
    (h : ∀ k s, B k (f s) = f (b k s)) (init : σ) (n : Nat) :
    iterate_body B (f init) n = f (iterate_body b init n) := by
  induction n with
  | zero => rfl
  | succ n ih => rw [iterate_body, ih, h]; rfl

/-- Overwriting a cell of a table of finite values. -/
theorem XFloat.update_fin (t : Int → Int → ℚ) (s a : Int) (v : ℚ) :
    Function.update (fun s' a' => XFloat.fin (t s' a')) s
        (Function.update (fun a' => XFloat.fin (t s a')) a (XFloat.fin v))
      = fun s' a' => XFloat.fin (Function.update t s (Function.update (t s) a v) s' a') := by
  funext s' a'
  by_cases hs : s' = s
  · subst hs
    by_cases ha : a' = a
    · subst ha
      simp only [Function.update_same]
    · simp only [Function.update_same, Function.update_noteq ha]
  · simp only [Function.update_noteq hs]

/-- On finite tables the exploitation loop is the one of the finite embedding. -/
theorem DoubleQ.best_action_ext (st : DoubleQ.State) (core : Int) :
    DoubleQ.Ext.best_action (DoubleQ.Ext.ofState st) core = DoubleQ.best_action st core := by
  unfold DoubleQ.Ext.best_action DoubleQ.best_action for_loop
  have h := iterate_body_map (fun (s : Int × ℚ) => ((s.1, XFloat.fin s.2) : Int × XFloat))
    (fun k (acc : Int × ℚ) =>
      if (st.q_tables core).q1 (st.current_states core) ((1 + k : Nat) : Int)
          + (st.q_tables core).q2 (st.current_states core) ((1 + k : Nat) : Int) > acc.2
      then (((1 + k : Nat) : Int),
        (st.q_tables core).q1 (st.current_states core) ((1 + k : Nat) : Int)
          + (st.q_tables core).q2 (st.current_states core) ((1 + k : Nat) : Int))
      else acc)
    (fun k (acc : Int × XFloat) =>
      if XFloat.gt
          (XFloat.add
            (XFloat.fin ((st.q_tables core).q1 (st.current_states core) ((1 + k : Nat) : Int)))
            (XFloat.fin ((st.q_tables core).q2 (st.current_states core) ((1 + k : Nat) : Int))))
          acc.2
      then (((1 + k : Nat) : Int),
        XFloat.add
          (XFloat.fin ((st.q_tables core).q1 (st.current_states core) ((1 + k : Nat) : Int)))
          (XFloat.fin ((st.q_tables core).q2 (st.current_states core) ((1 + k : Nat) : Int))))
      else acc)
    (fun k s => by
      simp only [XFloat.add, XFloat.gt, decide_eq_true_eq, gt_iff_lt]
      split_ifs <;> rfl)
    (0, (st.q_tables core).q1 (st.current_states core) 0
          + (st.q_tables core).q2 (st.current_states core) 0)
    (DoubleQ.NUM_ACTIONS - 1)
  exact congrArg Prod.fst h

/-- On finite tables `choose_action` is the one of the finite embedding. -/
theorem DoubleQ.choose_action_ext (st : DoubleQ.State) (core : Int) (g : Rng) :
    DoubleQ.Ext.choose_action (DoubleQ.Ext.ofState st) core g
      = DoubleQ.choose_action st core g := by
  unfold DoubleQ.Ext.choose_action DoubleQ.choose_action
  rw [DoubleQ.best_action_ext]

/-- On finite tables the two running maxima are those of the finite embedding. -/
theorem DoubleQ.max_future_ext (t : DoubleQ.q_table) (n : Int) :
    DoubleQ.Ext.max_future
        { q1 := fun s a => XFloat.fin (t.q1 s a), q2 := fun s a => XFloat.fin (t.q2 s a) } n
      = (XFloat.fin (DoubleQ.max_future t n).1, XFloat.fin (DoubleQ.max_future t n).2) := by
  unfold DoubleQ.Ext.max_future DoubleQ.max_future for_loop
  exact iterate_body_map (fun (m : ℚ × ℚ) => ((XFloat.fin m.1, XFloat.fin m.2) : XFloat × XFloat))
    (fun k (m : ℚ × ℚ) =>
      (if t.q1 n ((1 + k : Nat) : Int) > m.1 then t.q1 n ((1 + k : Nat) : Int) else m.1,
       if t.q2 n ((1 + k : Nat) : Int) > m.2 then t.q2 n ((1 + k : Nat) : Int) else m.2))
    (fun k (m : XFloat × XFloat) =>
      (if XFloat.gt (XFloat.fin (t.q1 n ((1 + k : Nat) : Int))) m.1
         then XFloat.fin (t.q1 n ((1 + k : Nat) : Int)) else m.1,
       if XFloat.gt (XFloat.fin (t.q2 n ((1 + k : Nat) : Int))) m.2
         then XFloat.fin (t.q2 n ((1 + k : Nat) : Int)) else m.2))
    (fun k s => by
      simp only [XFloat.gt, decide_eq_true_eq, gt_iff_lt]
      split_ifs <;> rfl)
    (t.q1 n 0, t.q2 n 0) (DoubleQ.NUM_ACTIONS - 1)

/-- On finite tables and with a finite reward `update_q_tables` is the one of
the finite embedding. -/
theorem DoubleQ.update_q_tables_ext (st : DoubleQ.State) (core action next_state : Int)
    (reward : ℚ) (g : Rng) :
    DoubleQ.Ext.update_q_tables (DoubleQ.Ext.ofState st) core action next_state
        (XFloat.fin reward) g
      = (DoubleQ.Ext.ofState (DoubleQ.update_q_tables st core action next_state reward g).1,
         (DoubleQ.update_q_tables st core action next_state reward g).2) := by
  have hm := DoubleQ.max_future_ext (st.q_tables core) next_state
  unfold DoubleQ.Ext.update_q_tables DoubleQ.update_q_tables
  simp only [DoubleQ.Ext.ofState, hm, XFloat.add, XFloat.mul, XFloat.sub, XFloat.neg,
    XFloat.update_fin, Prod.mk.injEq, and_true]
  congr 1
  funext c
  by_cases hc : c = core
  · subst hc
    simp only [Function.update_same]
    split_ifs <;> simp only [sub_eq_add_neg]
  · simp only [Function.update_noteq hc]

/-! ## The bootstrap of the TD error -/

/-- The maximum of values that are all `d` is `d`. -/
theorem max_over_const (N : Nat) (hN : 0 < N) (v : Nat → ℚ) (d : ℚ)
    (h : ∀ i, i < N → v i = d) : max_over N hN v = d := by
  apply le_antisymm
  · exact max_over_le N hN v d (fun i hi => le_of_eq (h i hi))
  · rw [← h 0 hN]
    exact le_max_over N hN v 0 hN

/-! ## Theorems -/

/-- C1 (fails on the code): with `cur` below the step, `cur - 300000` (or
`cur - 100000` in the single-table governor) wraps modulo `2 ^ 32`, the `max`
with `policy->min` keeps the wrapped value, and the requested target lies far
above `policy->max` although `min <= cur <= max`; symmetrically a wrapped
`cur + 300000` falls below `policy->min`. -/
theorem C1_next_freq_out_of_range :
    (100000 ≤ 200000 ∧ 200000 ≤ 1000000) ∧
    DoubleQ.next_freq 0 ⟨200000, 100000, 1000000, 50, 0⟩ = 4294867296 ∧
    Dqn.next_freq 0 ⟨200000, 100000, 1000000, 50, 0⟩ = 4294867296 ∧
    Rl.next_freq 1 ⟨80000, 50000, 1000000, 50, 0⟩ = 4294947296 ∧
    ¬ (DoubleQ.next_freq 0 ⟨200000, 100000, 1000000, 50, 0⟩ ≤ 1000000) ∧
    ¬ (Dqn.next_freq 0 ⟨200000, 100000, 1000000, 50, 0⟩ ≤ 1000000) ∧
    ¬ (Rl.next_freq 1 ⟨80000, 50000, 1000000, 50, 0⟩ ≤ 1000000) ∧
    Dqn.next_freq 4 ⟨4294900000, 4294000000, 4294967295, 50, 0⟩ = 232704 ∧
    ¬ (4294000000 ≤ Dqn.next_freq 4 ⟨4294900000, 4294000000, 4294967295, 50, 0⟩) := by
  decide

/-- C2 (fails on the code): 1002 experiences labelled `0..1001` are added to
the empty buffer of core 0.  The count stays at `REPLAY_BUFFER_SIZE = 1000`, but
the write index is `count % 1000 = 0` from then on: slot 1 still holds
experience 1, one of the two oldest, slot 0 holds experience 1001, and
experience 1000, one of the 1000 most recent, is in no slot. -/
theorem C2_add_experience_keeps_old :
    (Dqn.add_experiences 0 Dqn.exp_labelled Dqn.state_empty 1002).replay_buffer_count 0
      = 1000 ∧
    ((Dqn.add_experiences 0 Dqn.exp_labelled Dqn.state_empty 1002).replay_buffer 0 1).reward
      = (Dqn.exp_labelled 1).reward ∧
    ((Dqn.add_experiences 0 Dqn.exp_labelled Dqn.state_empty 1002).replay_buffer 0 0).reward
      = (Dqn.exp_labelled 1001).reward ∧
    (∀ i : Nat, i < Dqn.REPLAY_BUFFER_SIZE →
      ((Dqn.add_experiences 0 Dqn.exp_labelled Dqn.state_empty 1002).replay_buffer 0
          (i : Int)).reward ≠ (Dqn.exp_labelled 1000).reward) := by
  obtain ⟨hc, hs, hz⟩ :=
    Dqn.add_experiences_spec 0 Dqn.exp_labelled Dqn.state_empty rfl 1002
  have hmin : min 1002 Dqn.REPLAY_BUFFER_SIZE = 1000 := by decide
  rw [hmin] at hc hs
  have hz0 := hz (by decide)
  rw [if_neg (by decide)] at hz0
  refine ⟨hc, hs 1 (le_refl _) (by decide), hz0, fun i hi => ?_⟩
  have hi1000 : i < 1000 := hi
  by_cases h0 : i = 0
  · subst h0
    show ((Dqn.add_experiences 0 Dqn.exp_labelled Dqn.state_empty 1002).replay_buffer 0
      0).reward ≠ _
    rw [hz0]
    norm_num [Dqn.exp_labelled]
  · rw [hs i (by omega) hi1000]
    simp only [Dqn.exp_labelled]
    intro h
    have : i = 1000 := by exact_mod_cast h
    omega

/-- C3 (fails on the code): at `f = policy->max` the bin is `NUM_STATES`, one
past the last table row, in both tabular governors (`min = 800000`,
`max = 2000000`); and with `max - min < NUM_STATES` the bin width is zero and
the map divides by zero although `min < max`. -/
theorem C3_state_bin_out_of_bounds :
    Rl.state_bin 2000000 ⟨2000000, 800000, 2000000, 50, 0⟩ = some 5 ∧
    DoubleQ.state_bin 2000000 ⟨2000000, 800000, 2000000, 50, 0⟩ = some 10 ∧
    Rl.state_bin 2 ⟨2, 0, 3, 50, 0⟩ = none ∧
    DoubleQ.state_bin 2 ⟨2, 0, 3, 50, 0⟩ = none := by
  decide

/-- C4 (the claim fails): a second tick with the frequency and the interval of
the first one (`cur_freq = 1000000`, `time_diff = 10000000`, so that
`cur_freq * time_diff / 1000000 = energy_consumed[core] = 10000000`) makes
`energy_diff` zero, and `calculate_reward` does not return the neutral reward
0: the division by `energy_diff` is made and has no finite result. -/
theorem C4_calculate_reward_counterexample :
    (0 : Nat) < 1000000 ∧
    u64_sub (DoubleQ.state_after_tick.energy_consumed 0)
      (u64_mul 1000000 10000000 / 1000000) = 0 ∧
    DoubleQ.calculate_reward DoubleQ.state_after_tick 0 1000000 1000000 10000000 = none ∧
    DoubleQ.calculate_reward DoubleQ.state_after_tick 0 1000000 1000000 10000000 ≠ some 0 := by
  have h0 : u64_sub (DoubleQ.state_after_tick.energy_consumed 0)
      (u64_mul 1000000 10000000 / 1000000) = 0 := by
    decide
  have hn : DoubleQ.calculate_reward DoubleQ.state_after_tick 0 1000000 1000000 10000000
      = none := by
    simp only [DoubleQ.calculate_reward, h0]
    norm_num [fdiv]
  refine ⟨by decide, h0, hn, ?_⟩
  rw [hn]
  exact fun h => Option.noConfusion h

/-- C4 (amended): `calculate_reward` has no guard on `energy_diff`.  For
`cur_freq > 0`, with
`energy_diff = energy_consumed[core] - cur_freq * time_diff / 1000000` in
`unsigned long long` arithmetic: when `energy_diff` is not zero the result is
`(next_freq / cur_freq) / energy_diff * 100 - 50`, and when it is zero the
division by zero is made and there is no finite result. -/
theorem C4_calculate_reward_unguarded (st : DoubleQ.State) (core : Int)
    (cur_freq next_freq time_diff : Nat) (hcur : 0 < cur_freq) :
    DoubleQ.calculate_reward st core cur_freq next_freq time_diff
      = if u64_sub (st.energy_consumed core) (u64_mul cur_freq time_diff / 1000000) = 0
        then none
        else some ((next_freq : ℚ) / (cur_freq : ℚ)
              / ((u64_sub (st.energy_consumed core)
                    (u64_mul cur_freq time_diff / 1000000) : Nat) : ℚ) * 100 - 50) := by
  have hc : (cur_freq : ℚ) ≠ 0 := Nat.cast_ne_zero.mpr (Nat.pos_iff_ne_zero.mp hcur)
  unfold DoubleQ.calculate_reward
  simp only [fdiv, if_neg hc, Option.some_bind]
  split_ifs with h1 h2 h2
  · rfl
  · exact absurd (by exact_mod_cast h1) h2
  · exact absurd (by rw [h2]; rfl) h1
  · rfl

/-- C4 (amended) at a concrete input: `energy_consumed = 0`,
`cur_freq = 1000000`, `time_diff = 1000`, so that `energy_diff` wraps to
`2 ^ 64 - 1000`. -/
theorem C4_calculate_reward_unguarded_witness :
    (0 : Nat) < 1000000 ∧
    DoubleQ.calculate_reward DoubleQ.state_ex 0 1000000 1200000 1000
      = if u64_sub (DoubleQ.state_ex.energy_consumed 0) (u64_mul 1000000 1000 / 1000000) = 0
        then none
        else some ((1200000 : ℚ) / (1000000 : ℚ)
              / ((u64_sub (DoubleQ.state_ex.energy_consumed 0)
                    (u64_mul 1000000 1000 / 1000000) : Nat) : ℚ) * 100 - 50) :=
  ⟨by decide, by
    have h := C4_calculate_reward_unguarded DoubleQ.state_ex 0 1000000 1200000 1000 (by decide)
    simpa using h⟩

/-- C5: `update_q_tables` writes exactly one table cell and bootstraps it off the
other table.  With `s = current_states[core]` before the call: when the coin
`get_random_u32() % 2` is 1, `q1[s][action]` becomes
`q1[s][action] + ALPHA * (reward + GAMMA * max_a q2[next_state][a] - q1[s][action])`,
every other entry of `q1` and all of `q2` are unchanged; when the coin is 0 the
same holds with `q1` and `q2` exchanged.  The target of the written table is
built from the other table's row only. -/
theorem C5_update_q_tables (st : DoubleQ.State) (core action next_state : Int) (reward : ℚ)
    (g : Rng) :
    ((get_random_u32 g).1 % 2 = 1 ∧
      (((DoubleQ.update_q_tables st core action next_state reward g).1).q_tables core).q1
          (st.current_states core) action
        = (st.q_tables core).q1 (st.current_states core) action
          + DoubleQ.ALPHA * (reward + DoubleQ.GAMMA
              * max_over DoubleQ.NUM_ACTIONS (by decide)
                  (fun a => (st.q_tables core).q2 next_state (a : Int))
              - (st.q_tables core).q1 (st.current_states core) action) ∧
      (∀ s' a' : Int, ¬ (s' = st.current_states core ∧ a' = action) →
        (((DoubleQ.update_q_tables st core action next_state reward g).1).q_tables core).q1 s' a'
          = (st.q_tables core).q1 s' a') ∧
      (((DoubleQ.update_q_tables st core action next_state reward g).1).q_tables core).q2
        = (st.q_tables core).q2)
    ∨
    ((get_random_u32 g).1 % 2 = 0 ∧
      (((DoubleQ.update_q_tables st core action next_state reward g).1).q_tables core).q2
          (st.current_states core) action
        = (st.q_tables core).q2 (st.current_states core) action
          + DoubleQ.ALPHA * (reward + DoubleQ.GAMMA
              * max_over DoubleQ.NUM_ACTIONS (by decide)
                  (fun a => (st.q_tables core).q1 next_state (a : Int))
              - (st.q_tables core).q2 (st.current_states core) action) ∧
      (∀ s' a' : Int, ¬ (s' = st.current_states core ∧ a' = action) →
        (((DoubleQ.update_q_tables st core action next_state reward g).1).q_tables core).q2 s' a'
          = (st.q_tables core).q2 s' a') ∧
      (((DoubleQ.update_q_tables st core action next_state reward g).1).q_tables core).q1
        = (st.q_tables core).q1) := by
  have hm := DoubleQ.max_future_eq (st.q_tables core) next_state
  rcases Nat.mod_two_eq_zero_or_one (get_random_u32 g).1 with h0 | h1
  · right
    have hc : ¬ ((get_random_u32 g).1 % 2 ≠ 0) := fun h => h h0
    refine ⟨h0, ?_, ?_, ?_⟩
    · simp only [DoubleQ.update_q_tables, if_neg hc, Function.update_same, hm]
    · intro s' a' hne
      simp only [DoubleQ.update_q_tables, if_neg hc, Function.update_same]
      by_cases hs : s' = st.current_states core
      · subst hs
        have ha : a' ≠ action := fun h => hne ⟨rfl, h⟩
        simp only [Function.update_same, Function.update_noteq ha]
      · simp only [Function.update_noteq hs]
    · simp only [DoubleQ.update_q_tables, if_neg hc, Function.update_same]
  · left
    have hc : (get_random_u32 g).1 % 2 ≠ 0 := by omega
    refine ⟨h1, ?_, ?_, ?_⟩
    · simp only [DoubleQ.update_q_tables, if_pos hc, Function.update_same, hm]
    · intro s' a' hne
      simp only [DoubleQ.update_q_tables, if_pos hc, Function.update_same]
      by_cases hs : s' = st.current_states core
      · subst hs
        have ha : a' ≠ action := fun h => hne ⟨rfl, h⟩
        simp only [Function.update_same, Function.update_noteq ha]
      · simp only [Function.update_noteq hs]
    · simp only [DoubleQ.update_q_tables, if_pos hc, Function.update_same]

/-- C6: `update_q_table(a, n, r)` stores
`q[s][a] + ALPHA * (r + GAMMA * max_a' q[n][a'] - q[s][a])` in `q_table[s][a]`,
with `s` the current state and the maximum taken over the table as it was
before the call, leaves every other entry as it was, and sets `current_state`
to `n`.  It holds for all indices, in particular for those in range. -/
theorem C6_update_q_table (st : Rl.State) (a n : Int) (r : ℚ) :
    (Rl.update_q_table st a n r).q_table st.current_state a
        = st.q_table st.current_state a
          + Rl.ALPHA * (r + Rl.GAMMA
              * max_over Rl.NUM_ACTIONS (by decide) (fun a' => st.q_table n (a' : Int))
              - st.q_table st.current_state a) ∧
    (∀ s' a' : Int, ¬ (s' = st.current_state ∧ a' = a) →
        (Rl.update_q_table st a n r).q_table s' a' = st.q_table s' a') ∧
    (Rl.update_q_table st a n r).current_state = n := by
  have hmax : Rl.max_future_q st n
      = max_over Rl.NUM_ACTIONS (by decide) (fun a' => st.q_table n (a' : Int)) :=
    scan_max_eq_max_over (fun a' => st.q_table n (a' : Int)) Rl.NUM_ACTIONS (by decide)
  refine ⟨?_, ?_, rfl⟩
  · simp only [Rl.update_q_table, Function.update_same, hmax]
  · intro s' a' hne
    simp only [Rl.update_q_table]
    by_cases hs : s' = st.current_state
    · subst hs
      have ha : a' ≠ a := fun h => hne ⟨rfl, h⟩
      simp only [Function.update_same, Function.update_noteq ha]
    · simp only [Function.update_noteq hs]

/-- C7 (the claim fails): `epsilon[core]` is a `float`.  After 919 ticks from
`EPSILON_START` the stored value is `(float)0.01 = 5368709 / 2 ^ 29`, which is
below `EPSILON_END = 0.01`, so epsilon has left `[EPSILON_END, EPSILON_START]`;
it never equals `EPSILON_END` there. -/
theorem C7_epsilon_below_floor_counterexample :
    Dqn.epsilon_after 919 = 5368709 / 536870912 ∧
    Dqn.epsilon_after 919 < Dqn.EPSILON_END ∧
    Dqn.EPSILON_END = 1 / 100 ∧
    (∀ k : Nat, Dqn.epsilon_after (919 + k) ≠ Dqn.EPSILON_END) := by
  have h919 := Dqn.epsilon_after_first_919.2.1
  have hv := Dqn.epsilon_end_f32_value
  refine ⟨h919.trans hv.1, ?_, rfl, fun k hk => ?_⟩
  · rw [h919]
    exact hv.2.1
  · rw [Dqn.epsilon_after_floor (919 + k) (by omega)] at hk
    exact absurd hk (ne_of_lt hv.2.1)

/-- C7 (amended): the epsilon of the DQN governor starts at `EPSILON_START = 1`
and every tick stores `max(EPSILON_END, epsilon * EPSILON_DECAY)`, computed in
`double`, in the `float` `epsilon[core]`.  After any number `n` of ticks the
next value is not larger and the value lies in
`[(float)EPSILON_END, EPSILON_START]`, where
`(float)EPSILON_END = 5368709 / 2 ^ 29` is less than `1 / 4000000000` below
`EPSILON_END = 0.01`; during the first 918 ticks it lies in
`[EPSILON_END, EPSILON_START]`; if it equals `(float)EPSILON_END` it does so
after any further `k` ticks; and it is `(float)EPSILON_END` from tick 919 on. -/
theorem C7_epsilon_schedule (n : Nat) :
    Dqn.epsilon_after (n + 1) ≤ Dqn.epsilon_after n ∧
    Dqn.EPSILON_END_F32 ≤ Dqn.epsilon_after n ∧
    Dqn.epsilon_after n ≤ Dqn.EPSILON_START ∧
    (Dqn.EPSILON_END_F32 = 5368709 / 536870912 ∧ Dqn.EPSILON_END_F32 < Dqn.EPSILON_END ∧
      Dqn.EPSILON_END - Dqn.EPSILON_END_F32 < 1 / 4000000000) ∧
    Dqn.EPSILON_END = 1 / 100 ∧ Dqn.EPSILON_START = 1 ∧
    (n ≤ 918 → Dqn.EPSILON_END ≤ Dqn.epsilon_after n) ∧
    (∀ k : Nat, Dqn.epsilon_after n = Dqn.EPSILON_END_F32 →
      Dqn.epsilon_after (n + k) = Dqn.EPSILON_END_F32) ∧
    (919 ≤ n → Dqn.epsilon_after n = Dqn.EPSILON_END_F32) := by
  refine ⟨Dqn.epsilon_after_succ_le n, ?_, ?_, Dqn.epsilon_end_f32_value, rfl, rfl,
    Dqn.end_le_epsilon_after n, fun k h => Dqn.epsilon_after_absorbing n k h,
    Dqn.epsilon_after_floor n⟩
  · rcases Nat.lt_or_ge n 919 with h | h
    · exact le_trans (le_of_lt Dqn.epsilon_end_f32_value.2.1)
        (Dqn.end_le_epsilon_after n (by omega))
    · rw [Dqn.epsilon_after_floor n h]
  · induction n with
    | zero => exact le_refl _
    | succ n ih => exact le_trans (Dqn.epsilon_after_succ_le n) ih

/-- C7 (amended) at the ticks 918 and 919: after 918 ticks epsilon is
`10776769 / 2 ^ 30`, still at least `EPSILON_END`; after 919 ticks and after
920 ticks it is `(float)EPSILON_END`. -/
theorem C7_epsilon_schedule_witness :
    Dqn.epsilon_after 918 = 10776769 / 1073741824 ∧
    Dqn.EPSILON_END ≤ Dqn.epsilon_after 918 ∧
    Dqn.epsilon_after 919 = Dqn.EPSILON_END_F32 ∧
    Dqn.epsilon_after (919 + 1) = Dqn.EPSILON_END_F32 := by
  obtain ⟨_, _, _, _, _, _, h918, _, _⟩ := C7_epsilon_schedule 918
  obtain ⟨_, _, _, _, _, _, _, habs, h919⟩ := C7_epsilon_schedule 919
  exact ⟨Dqn.epsilon_after_first_919.1, h918 (le_refl _), h919 (le_refl _),
    habs 1 (h919 (le_refl _))⟩

/-- C9: while `replay_buffer_count[core] < BATCH_SIZE`, `train_network(core)`
returns at once: the whole state (every weight and bias of both networks, the
replay buffer and its count) and the random source are exactly as before, so no
sample is drawn. -/
theorem C9_train_network_warmup (core : Int) (st : Dqn.State) (g : Rng)
    (h : st.replay_buffer_count core < (Dqn.BATCH_SIZE : Int)) :
    Dqn.train_network core st g = (st, g) := by
  unfold Dqn.train_network
  rw [if_pos h]

/-- C9 at a concrete input: the empty replay buffer of `Dqn.state_empty`. -/
theorem C9_train_network_warmup_witness :
    Dqn.state_empty.replay_buffer_count 0 < (Dqn.BATCH_SIZE : Int) ∧
    Dqn.train_network 0 Dqn.state_empty rng_max = (Dqn.state_empty, rng_max) :=
  ⟨by decide, C9_train_network_warmup 0 Dqn.state_empty rng_max (by decide)⟩

/-- C10 (fails on the code): on `Dqn.state_warm`, where the target network of
core 0 still has its own blocks, `train_network(0)` leaves
`forward(target_network[0], x)` as it was for every `x`.  But
`update_target_network` copies the `struct dqn` block, so after a refresh the
target network holds the same `neurons` pointers as the live network and stays
equal to it through every later `train_network`.  On `Dqn.state_refreshed`
(`Dqn.state_warm` with core 0 just refreshed, 32 stored experiences) the output
of the target network on the zero input is 0 before `train_network(0)` and
negative after it, and so is the bias of output neuron 0 read through
`target_network[0]`, whatever the random draws. -/
theorem C10_train_network_moves_target :
    (∀ (g : Rng) (x : Nat → ℚ),
      Dqn.forward (Dqn.train_network 0 Dqn.state_warm g).1.heap
          ((Dqn.train_network 0 Dqn.state_warm g).1.target_network 0) x
        = Dqn.forward Dqn.state_warm.heap (Dqn.state_warm.target_network 0) x) ∧
    (∀ (st : Dqn.State) (core : Int) (g : Rng),
      (Dqn.train_network core (Dqn.update_target_network core st) g).1.target_network core
        = (Dqn.train_network core (Dqn.update_target_network core st) g).1.q_network core) ∧
    (∀ g : Rng,
      Dqn.forward Dqn.state_refreshed.heap (Dqn.state_refreshed.target_network 0)
          (fun _ => 0) 0 = 0 ∧
      Dqn.forward (Dqn.train_network 0 Dqn.state_refreshed g).1.heap
          ((Dqn.train_network 0 Dqn.state_refreshed g).1.target_network 0) (fun _ => 0) 0 < 0 ∧
      (Dqn.state_refreshed.heap.neurons
          (Dqn.state_refreshed.target_network 0).output.neurons 0).bias = 0 ∧
      ((Dqn.train_network 0 Dqn.state_refreshed g).1.heap.neurons
          ((Dqn.train_network 0 Dqn.state_refreshed g).1.target_network 0).output.neurons
          0).bias < 0) := by
  refine ⟨fun g x => Dqn.train_network_separate_target 0 Dqn.state_warm g x
    Dqn.state_warm_separate, fun st core g => ?_, fun g => ?_⟩
  · obtain ⟨hq, ht, _⟩ := Dqn.train_network_frame core (Dqn.update_target_network core st) g
    rw [hq, ht]
    simp only [Dqn.update_target_network, Function.update_same]
  · have htgt : Dqn.state_refreshed.target_network 0 = Dqn.state_warm.q_network 0 := by
      simp only [Dqn.state_refreshed, Dqn.update_target_network, Function.update_same]
    have hcount : ¬ (Dqn.state_refreshed.replay_buffer_count 0 < (Dqn.BATCH_SIZE : Int)) := by
      decide
    have htrain : Dqn.train_network 0 Dqn.state_refreshed g
        = iterate_body (fun _ sg => Dqn.train_step 0 sg) (Dqn.state_refreshed, g)
            Dqn.BATCH_SIZE := by
      unfold Dqn.train_network
      rw [if_neg hcount, for_loop_zero]
    have htgt2 : (Dqn.train_network 0 Dqn.state_refreshed g).1.target_network 0
        = Dqn.state_warm.q_network 0 := by
      rw [(Dqn.train_network_frame 0 Dqn.state_refreshed g).2.1, htgt]
    have hs0 := Dqn.state_refreshed_shift
    obtain ⟨d, hs, _, hd, hneg⟩ := Dqn.train_loop_shift g Dqn.BATCH_SIZE
    have hdneg : d < 0 := hneg (by decide)
    rw [← htrain] at hs
    rw [htgt, htgt2]
    refine ⟨?_, ?_, ?_, ?_⟩
    · rw [Dqn.forward_zero_input _ _ 0 (by decide)
        (fun j hj => by rw [hs0.1 j hj]; linarith)]
      exact hs0.2 0 (by decide)
    · rw [Dqn.forward_zero_input _ _ 0 (by decide)
        (fun j hj => by rw [hs.1 j hj]; linarith)]
      rw [hs.2 0 (by decide)]
      exact hdneg
    · exact hs0.2 0 (by decide)
    · rw [hs.2 0 (by decide)]
      exact hdneg

/-- C11: from `replay_buffer_count = 0`, after `N` calls of `add_experience` on
a core the count is `min(N, REPLAY_BUFFER_SIZE)`; it lies between 0 and
`REPLAY_BUFFER_SIZE`; the slot the next call writes, `count % REPLAY_BUFFER_SIZE`,
lies in `0..REPLAY_BUFFER_SIZE-1` and is the only slot that call changes; and
for `N > REPLAY_BUFFER_SIZE` the count is `REPLAY_BUFFER_SIZE`. -/
theorem C11_replay_buffer_count (core : Int) (es : Nat → Dqn.experience) (st : Dqn.State)
    (h0 : st.replay_buffer_count core = 0) (N : Nat) :
    (Dqn.add_experiences core es st N).replay_buffer_count core
      = ((min N Dqn.REPLAY_BUFFER_SIZE : Nat) : Int) ∧
    0 ≤ (Dqn.add_experiences core es st N).replay_buffer_count core ∧
    (Dqn.add_experiences core es st N).replay_buffer_count core
      ≤ (Dqn.REPLAY_BUFFER_SIZE : Int) ∧
    0 ≤ Int.tmod ((Dqn.add_experiences core es st N).replay_buffer_count core)
          (Dqn.REPLAY_BUFFER_SIZE : Int) ∧
    Int.tmod ((Dqn.add_experiences core es st N).replay_buffer_count core)
        (Dqn.REPLAY_BUFFER_SIZE : Int) < (Dqn.REPLAY_BUFFER_SIZE : Int) ∧
    (∀ i : Int,
      i ≠ Int.tmod ((Dqn.add_experiences core es st N).replay_buffer_count core)
            (Dqn.REPLAY_BUFFER_SIZE : Int) →
      (Dqn.add_experiences core es st (N + 1)).replay_buffer core i
        = (Dqn.add_experiences core es st N).replay_buffer core i) ∧
    (Dqn.REPLAY_BUFFER_SIZE < N →
      (Dqn.add_experiences core es st N).replay_buffer_count core
        = (Dqn.REPLAY_BUFFER_SIZE : Int)) := by
  have hc := (Dqn.add_experiences_spec core es st h0 N).1
  have hcap : Dqn.REPLAY_BUFFER_SIZE = 1000 := rfl
  have hmin : min N Dqn.REPLAY_BUFFER_SIZE ≤ 1000 := by rw [hcap]; omega
  refine ⟨hc, ?_, ?_, ?_, ?_, fun i hi => ?_, fun hN => ?_⟩
  · rw [hc]
    exact Int.ofNat_nonneg _
  · rw [hc, hcap]
    exact_mod_cast hmin
  · rw [hc, ← Int.ofNat_tmod]
    exact Int.ofNat_nonneg _
  · rw [hc, ← Int.ofNat_tmod, hcap]
    have : min N 1000 % 1000 < 1000 := Nat.mod_lt _ (by decide)
    exact_mod_cast this
  · exact Dqn.add_experience_other_slot core _ _ _ _ _ _ i hi
  · rw [hc]
    have : min N Dqn.REPLAY_BUFFER_SIZE = Dqn.REPLAY_BUFFER_SIZE := by
      rw [hcap] at hN ⊢
      omega
    rw [this]

/-- C11 at a concrete input: 1002 labelled experiences added to the empty buffer
of `Dqn.state_empty`. -/
theorem C11_replay_buffer_count_witness :
    Dqn.state_empty.replay_buffer_count 0 = 0 ∧
    (Dqn.add_experiences 0 Dqn.exp_labelled Dqn.state_empty 1002).replay_buffer_count 0
      = ((min 1002 Dqn.REPLAY_BUFFER_SIZE : Nat) : Int) ∧
    (Dqn.add_experiences 0 Dqn.exp_labelled Dqn.state_empty 1002).replay_buffer_count 0
      ≤ (Dqn.REPLAY_BUFFER_SIZE : Int) :=
  ⟨rfl, (C11_replay_buffer_count 0 Dqn.exp_labelled Dqn.state_empty rfl 1002).1,
   (C11_replay_buffer_count 0 Dqn.exp_labelled Dqn.state_empty rfl 1002).2.2.1⟩

/-- C13: for the large-increase action (action 4) of the DQN and double-Q
governors, when `cur_freq + 300000` does not overflow 32 bits the requested
target is `min(cur_freq + 300000, policy->max)`: it is `cur_freq + 300000` when
that is at most `policy->max`, and `policy->max` otherwise. -/
theorem C13_large_increase (p : Policy) (h : p.cur + 300000 < U32_MOD) :
    Dqn.next_freq 4 p = min (p.cur + 300000) p.max ∧
    DoubleQ.next_freq 4 p = min (p.cur + 300000) p.max ∧
    (p.cur + 300000 ≤ p.max →
      Dqn.next_freq 4 p = p.cur + 300000 ∧ DoubleQ.next_freq 4 p = p.cur + 300000) ∧
    (p.max < p.cur + 300000 →
      Dqn.next_freq 4 p = p.max ∧ DoubleQ.next_freq 4 p = p.max) := by
  have hadd : u32_add p.cur 300000 = p.cur + 300000 := Nat.mod_eq_of_lt h
  have h1 : Dqn.next_freq 4 p = min (p.cur + 300000) p.max := by
    simp [Dqn.next_freq, hadd]
  have h2 : DoubleQ.next_freq 4 p = min (p.cur + 300000) p.max := by
    simp [DoubleQ.next_freq, hadd]
  refine ⟨h1, h2, fun hle => ?_, fun hlt => ?_⟩
  · rw [h1, h2, min_eq_left hle]
    exact ⟨rfl, rfl⟩
  · rw [h1, h2, min_eq_right (le_of_lt hlt)]
    exact ⟨rfl, rfl⟩

/-- C13 at the two scenarios: `min = 800000`, `max = 2000000`, `cur = 1200000`
gives 1500000, and `cur = 1900000` gives 2000000, not 2200000. -/
theorem C13_large_increase_witness :
    (1200000 + 300000 < U32_MOD ∧
      Dqn.next_freq 4 ⟨1200000, 800000, 2000000, 50, 0⟩ = 1500000 ∧
      DoubleQ.next_freq 4 ⟨1200000, 800000, 2000000, 50, 0⟩ = 1500000) ∧
    (1900000 + 300000 < U32_MOD ∧
      Dqn.next_freq 4 ⟨1900000, 800000, 2000000, 50, 0⟩ = 2000000 ∧
      DoubleQ.next_freq 4 ⟨1900000, 800000, 2000000, 50, 0⟩ = 2000000) :=
  ⟨⟨by decide,
    (C13_large_increase ⟨1200000, 800000, 2000000, 50, 0⟩ (by decide)).2.2.1 (by decide)⟩,
   ⟨by decide,
    (C13_large_increase ⟨1900000, 800000, 2000000, 50, 0⟩ (by decide)).2.2.2 (by decide)⟩⟩

/-- C14 (the claim fails): with `util = 50`, `next_freq = 1000000`,
`max = 3000000` the integer frequency percentage is 33, so `dqn_governor`
computes `-17 / 100` and `rl_governor` computes `-17`, while the formula
`-|u - next_freq / max|` gives `-1 / 6`. -/
theorem C14_reward_formula_counterexample :
    ((50 : Nat) ≤ 100 ∧ (0 : Nat) < 3000000 ∧ (1000000 : Nat) ≤ 3000000) ∧
    Dqn.reward 50 1000000 3000000 = some (-17 / 100) ∧
    Rl.reward 50 1000000 3000000 = some (-17) ∧
    reward_formula 50 1000000 3000000 = -1 / 6 ∧
    Dqn.reward 50 1000000 3000000 ≠ some (reward_formula 50 1000000 3000000) ∧
    Rl.reward 50 1000000 3000000 ≠ some (reward_formula 50 1000000 3000000) := by
  have h : abs_u32 (u32_sub 50 (u32_mul 1000000 100 / 3000000)) = 17 := by decide
  have hd : Dqn.reward 50 1000000 3000000 = some (-17 / 100) := by
    simp only [Dqn.reward, h]
    norm_num
  have hr : Rl.reward 50 1000000 3000000 = some (-17) := by
    simp only [Rl.reward, h]
    norm_num
  have hf : reward_formula 50 1000000 3000000 = -1 / 6 := by
    unfold reward_formula
    norm_num [abs_of_nonneg]
  refine ⟨⟨by decide, by decide, by decide⟩, hd, hr, hf, ?_, ?_⟩
  · rw [hd, hf]
    norm_num
  · rw [hr, hf]
    norm_num

/-- C14 (amended): for `util` in `0..100`, `max > 0`, `next_freq <= max` and
`next_freq * 100` below `2 ^ 32`, with `p = next_freq * 100 / max` the integer
frequency percentage (rounded down): `dqn_governor` computes
`-|util - p| / 100`, `rl_governor` computes `-|util - p|` (percentage points,
100 times as much), the value of `dqn_governor` is less than `1 / 100` away from
`-|u - next_freq / max|`, and equals it when `max` divides `next_freq * 100`. -/
theorem C14_reward_integer_percent (util nf mx : Nat) (hu : util ≤ 100) (hmax : 0 < mx) (hnf : nf ≤ mx)
    (hno : nf * 100 < U32_MOD) :
    Dqn.reward util nf mx = some (-|(util : ℚ) - ((nf * 100 / mx : Nat) : ℚ)| / 100) ∧
    Rl.reward util nf mx = some (-|(util : ℚ) - ((nf * 100 / mx : Nat) : ℚ)|) ∧
    |(-|(util : ℚ) - ((nf * 100 / mx : Nat) : ℚ)| / 100) - reward_formula util nf mx| < 1 / 100 ∧
    (mx ∣ nf * 100 → Dqn.reward util nf mx = some (reward_formula util nf mx)) := by
  have hmul : u32_mul nf 100 = nf * 100 := Nat.mod_eq_of_lt hno
  have hp : nf * 100 / mx ≤ 100 := by
    have := percent_le nf mx hnf
    rwa [hmul] at this
  have hd : Dqn.reward util nf mx
      = some (-|(util : ℚ) - ((nf * 100 / mx : Nat) : ℚ)| / 100) := by
    unfold Dqn.reward
    rw [if_neg (Nat.pos_iff_ne_zero.mp hmax), hmul, abs_u32, toInt32_u32_sub_small util _ hu hp]
    push_cast
    rfl
  have hr : Rl.reward util nf mx = some (-|(util : ℚ) - ((nf * 100 / mx : Nat) : ℚ)|) := by
    unfold Rl.reward
    rw [if_neg (Nat.pos_iff_ne_zero.mp hmax), hmul, abs_u32, toInt32_u32_sub_small util _ hu hp]
    push_cast
    rfl
  have hmq : (0 : ℚ) < (mx : ℚ) := by exact_mod_cast hmax
  have hfl1 : ((nf * 100 / mx : Nat) : ℚ) ≤ (nf : ℚ) * 100 / (mx : ℚ) := by
    rw [le_div_iff₀ hmq]
    have : nf * 100 / mx * mx ≤ nf * 100 := Nat.div_mul_le_self _ _
    exact_mod_cast this
  have hfl2 : (nf : ℚ) * 100 / (mx : ℚ) < ((nf * 100 / mx : Nat) : ℚ) + 1 := by
    rw [div_lt_iff₀ hmq]
    have h1 := Nat.div_add_mod (nf * 100) mx
    have h2 := Nat.mod_lt (nf * 100) hmax
    have : nf * 100 < (nf * 100 / mx + 1) * mx := by nlinarith
    exact_mod_cast this
  refine ⟨hd, hr, ?_, fun hdvd => ?_⟩
  · unfold reward_formula
    have hb : |(util : ℚ) - ((nf * 100 / mx : Nat) : ℚ)| / 100
        = |(util : ℚ) / 100 - ((nf * 100 / mx : Nat) : ℚ) / 100| := by
      rw [← sub_div, abs_div]
      norm_num
    have hsw : -|(util : ℚ) - ((nf * 100 / mx : Nat) : ℚ)| / 100
          - -|(util : ℚ) / 100 - (nf : ℚ) / (mx : ℚ)|
        = |(util : ℚ) / 100 - (nf : ℚ) / (mx : ℚ)|
          - |(util : ℚ) / 100 - ((nf * 100 / mx : Nat) : ℚ) / 100| := by
      rw [← hb]
      ring
    rw [hsw]
    refine lt_of_le_of_lt (abs_abs_sub_abs_le_abs_sub _ _) ?_
    have hdiff : (util : ℚ) / 100 - (nf : ℚ) / (mx : ℚ)
          - ((util : ℚ) / 100 - ((nf * 100 / mx : Nat) : ℚ) / 100)
        = -(((nf : ℚ) * 100 / (mx : ℚ) - ((nf * 100 / mx : Nat) : ℚ)) / 100) := by
      ring
    rw [hdiff, abs_neg, abs_of_nonneg (by linarith)]
    linarith
  · obtain ⟨c, hc⟩ := hdvd
    have hq : nf * 100 / mx = c := by
      rw [hc]
      exact Nat.mul_div_cancel_left c hmax
    rw [hd, hq]
    have hcq : (c : ℚ) = (nf : ℚ) * 100 / (mx : ℚ) := by
      rw [eq_div_iff (ne_of_gt hmq)]
      have : c * mx = nf * 100 := by rw [hc]; ring
      exact_mod_cast this
    unfold reward_formula
    congr 1
    rw [hcq]
    have : (util : ℚ) - (nf : ℚ) * 100 / (mx : ℚ)
        = 100 * ((util : ℚ) / 100 - (nf : ℚ) / (mx : ℚ)) := by ring
    rw [this, abs_mul]
    norm_num
    ring

/-- C14 (amended) at a concrete input: `util = 75`, `next_freq = 1500000`,
`max = 2000000`, where the percentage is exact. -/
theorem C14_reward_integer_percent_witness :
    ((75 : Nat) ≤ 100 ∧ (0 : Nat) < 2000000 ∧ (1500000 : Nat) ≤ 2000000 ∧
      1500000 * 100 < U32_MOD) ∧
    Dqn.reward 75 1500000 2000000
      = some (-|((75 : Nat) : ℚ) - ((1500000 * 100 / 2000000 : Nat) : ℚ)| / 100) ∧
    Rl.reward 75 1500000 2000000
      = some (-|((75 : Nat) : ℚ) - ((1500000 * 100 / 2000000 : Nat) : ℚ)|) ∧
    Dqn.reward 75 1500000 2000000 = some (reward_formula 75 1500000 2000000) :=
  ⟨⟨by decide, by decide, by decide, by decide⟩,
   (C14_reward_integer_percent 75 1500000 2000000 (by decide) (by decide) (by decide)
      (by decide)).1,
   (C14_reward_integer_percent 75 1500000 2000000 (by decide) (by decide) (by decide)
      (by decide)).2.1,
   (C14_reward_integer_percent 75 1500000 2000000 (by decide) (by decide) (by decide)
      (by decide)).2.2.2 ⟨75, by decide⟩⟩

/-- C16 (fails on the code): neither initialisation reports a failed
allocation.  `double_q_gov_init` calls `cpufreq_register_governor` and returns
its result whatever `init_q_tables` met; with the allocation for core 2
failing (`DoubleQ.kmalloc_ex`) and the registration returning 0, the module
loads with the governor registered, cores 0 and 1 initialised and the tables of
cores 2 and 3 NULL.  `dqn_gov_init` has no NULL check: when its first
allocation fails `init_dqn` stores through the NULL pointer (`none`), every
run that returns has registered the governor and returns the registration's
result, and when only the allocation of core 0's replay buffer fails (call
number 80) it returns 0 with the governor registered and `replay_buffer[0]`
NULL. -/
theorem C16_init_registers_after_failed_allocation :
    (∀ (kmalloc : Nat → Option DoubleQ.q_table) (now : Nat → Nat) (r : Int)
        (st : DoubleQ.InitState),
      (DoubleQ.double_q_gov_init kmalloc now r st).registered = true ∧
      (DoubleQ.double_q_gov_init kmalloc now r st).ret = r) ∧
    (DoubleQ.kmalloc_ex 2 = none ∧
      (DoubleQ.double_q_gov_init DoubleQ.kmalloc_ex (fun _ => 7) 0
        DoubleQ.init_zero).registered = true ∧
      (DoubleQ.double_q_gov_init DoubleQ.kmalloc_ex (fun _ => 7) 0 DoubleQ.init_zero).ret = 0 ∧
      ((DoubleQ.double_q_gov_init DoubleQ.kmalloc_ex (fun _ => 7) 0
        DoubleQ.init_zero).state.q_tables 0).isSome = true ∧
      ((DoubleQ.double_q_gov_init DoubleQ.kmalloc_ex (fun _ => 7) 0
        DoubleQ.init_zero).state.q_tables 1).isSome = true ∧
      (DoubleQ.double_q_gov_init DoubleQ.kmalloc_ex (fun _ => 7) 0
        DoubleQ.init_zero).state.q_tables 2 = none ∧
      (DoubleQ.double_q_gov_init DoubleQ.kmalloc_ex (fun _ => 7) 0
        DoubleQ.init_zero).state.q_tables 3 = none) ∧
    (∀ (r : Int) (st : Dqn.InitState),
      st.ctx.alloc.fails st.ctx.alloc.calls = true → Dqn.dqn_gov_init r st = none) ∧
    (∀ (r : Int) (st : Dqn.InitState) (res : Dqn.InitResult),
      Dqn.dqn_gov_init r st = some res → res.registered = true ∧ res.ret = r) ∧
    (∃ res, Dqn.dqn_gov_init 0 (Dqn.init_zero (Dqn.ctx_failing 80)) = some res ∧
      res.registered = true ∧ res.ret = 0 ∧ res.state.replay_buffer 0 = none) := by
  refine ⟨DoubleQ.double_q_gov_init_registers, ⟨rfl, rfl, rfl, ?_⟩,
    Dqn.dqn_gov_init_null, Dqn.dqn_gov_init_registers, Dqn.dqn_gov_init_missing_buffer 0⟩
  exact DoubleQ.init_q_tables_partial (fun _ => 7)

/-- C17: when `policy->util` equals the integer frequency percentage
`next_freq * 100 / policy->max` as the code computes it, the Variant A reward of
`dqn_governor` and of `rl_governor` is exactly 0 (for instance `util = 50`,
`next_freq = max / 2`); and for `util` in `0..100` and `next_freq <= max` the
reward of `rl_governor` is at most 0 and that of `dqn_governor` lies in
`[-1, 0]`.  The reward exists when `policy->max` is not zero. -/
theorem C17_reward_zero_nonpositive (util nf mx : Nat) (hmax : mx ≠ 0) :
    ∃ rd rr : ℚ, Dqn.reward util nf mx = some rd ∧ Rl.reward util nf mx = some rr ∧
      (util = u32_mul nf 100 / mx → rd = 0 ∧ rr = 0) ∧
      (util ≤ 100 → nf ≤ mx → rr ≤ 0 ∧ -1 ≤ rd ∧ rd ≤ 0) := by
  refine ⟨_, _, if_neg hmax, if_neg hmax, fun heq => ?_, fun hu hnf => ?_⟩
  · rw [← heq, u32_sub_self]
    simp [abs_u32, toInt32]
  · have hp := percent_le nf mx hnf
    rw [abs_u32, toInt32_u32_sub_small util _ hu hp]
    generalize u32_mul nf 100 / mx = pct at hp ⊢
    have habs : |(util : Int) - (pct : Int)| ≤ 100 := by
      rw [abs_le]
      constructor <;> omega
    have hnn : 0 ≤ |(util : Int) - (pct : Int)| := abs_nonneg _
    have hq : ((|(util : Int) - (pct : Int)| : Int) : ℚ) ≤ 100 := by
      exact_mod_cast habs
    have hq0 : (0 : ℚ) ≤ ((|(util : Int) - (pct : Int)| : Int) : ℚ) := by
      exact_mod_cast hnn
    push_cast
    refine ⟨?_, ?_, ?_⟩
    · push_cast at hq0
      linarith
    · push_cast at hq
      linarith
    · push_cast at hq0
      linarith

/-- C17 at the scenario `util = 50`, `next_freq = max / 2` with
`max = 2000000`: both rewards are 0. -/
theorem C17_reward_zero_nonpositive_witness :
    (2000000 : Nat) ≠ 0 ∧
    Dqn.reward 50 1000000 2000000 = some 0 ∧ Rl.reward 50 1000000 2000000 = some 0 := by
  obtain ⟨rd, rr, h1, h2, hz, _⟩ := C17_reward_zero_nonpositive 50 1000000 2000000 (by decide)
  obtain ⟨hd, hr⟩ := hz (by decide)
  rw [h1, h2, hd, hr]
  exact ⟨by decide, rfl, rfl⟩

/-- C18 (fails on the code): the TD error `train_network` computes for a
sampled experience is `target - forward(q_network, exp.state)[exp.action]`,
with `target = exp.reward` when `exp.done` and
`target = exp.reward + GAMMA * max_a forward(target_network, exp.next_state)[a]`
otherwise, the maximum being over the outputs of the network read through
`target_network[core]`, and every pass of the batch loop adjusts the live
network with this error.  But from the first `update_target_network` on,
through every later `train_network`, `target_network[core]` holds the `neurons`
pointers of the live network, so the maximum is over the outputs of the live
network.  On `Dqn.state_refreshed` (core 0 just refreshed, every stored
experience `Dqn.exp_idle`) the bootstrap maximum is 0 before `train_network(0)`
and negative after it, whatever the draws; on `Dqn.state_warm`, where the
target network still has its own blocks, it stays 0. -/
theorem C18_bootstrap_reads_live_network :
    (∀ (h : Dqn.Heap) (q target : Dqn.dqn) (exp : Dqn.experience),
      Dqn.td_error h q target exp
        = (if exp.done then exp.reward
           else exp.reward + Dqn.GAMMA
             * max_over Dqn.NUM_ACTIONS (by decide) (Dqn.forward h target exp.next_state))
          - Dqn.forward h q exp.state exp.action.toNat) ∧
    (∀ (core : Int) (sg : Dqn.State × Rng),
      (Dqn.train_step core sg).1.heap
        = Dqn.adjust_output (sg.1.q_network core)
            (Dqn.td_error sg.1.heap (sg.1.q_network core) (sg.1.target_network core)
              (sg.1.replay_buffer core (Dqn.sample_index core sg).1))
            (Dqn.adjust_hidden (sg.1.q_network core)
              (Dqn.td_error sg.1.heap (sg.1.q_network core) (sg.1.target_network core)
                (sg.1.replay_buffer core (Dqn.sample_index core sg).1))
              (sg.1.replay_buffer core (Dqn.sample_index core sg).1)
              sg.1.heap)) ∧
    (∀ (st : Dqn.State) (core : Int) (g : Rng) (exp : Dqn.experience),
      (Dqn.train_network core (Dqn.update_target_network core st) g).1.target_network core
        = (Dqn.train_network core (Dqn.update_target_network core st) g).1.q_network core ∧
      Dqn.td_error (Dqn.train_network core (Dqn.update_target_network core st) g).1.heap
          ((Dqn.train_network core (Dqn.update_target_network core st) g).1.q_network core)
          ((Dqn.train_network core (Dqn.update_target_network core st) g).1.target_network core)
          exp
        = (if exp.done then exp.reward
           else exp.reward + Dqn.GAMMA
             * max_over Dqn.NUM_ACTIONS (by decide)
                 (Dqn.forward
                   (Dqn.train_network core (Dqn.update_target_network core st) g).1.heap
                   ((Dqn.train_network core (Dqn.update_target_network core st) g).1.q_network
                     core)
                   exp.next_state))
          - Dqn.forward (Dqn.train_network core (Dqn.update_target_network core st) g).1.heap
              ((Dqn.train_network core (Dqn.update_target_network core st) g).1.q_network core)
              exp.state exp.action.toNat) ∧
    (∀ g : Rng,
      max_over Dqn.NUM_ACTIONS (by decide)
          (Dqn.forward Dqn.state_refreshed.heap (Dqn.state_refreshed.target_network 0)
            Dqn.exp_idle.next_state) = 0 ∧
      max_over Dqn.NUM_ACTIONS (by decide)
          (Dqn.forward (Dqn.train_network 0 Dqn.state_refreshed g).1.heap
            ((Dqn.train_network 0 Dqn.state_refreshed g).1.target_network 0)
            Dqn.exp_idle.next_state) < 0 ∧
      max_over Dqn.NUM_ACTIONS (by decide)
          (Dqn.forward Dqn.state_warm.heap (Dqn.state_warm.target_network 0)
            Dqn.exp_idle.next_state) = 0 ∧
      max_over Dqn.NUM_ACTIONS (by decide)
          (Dqn.forward (Dqn.train_network 0 Dqn.state_warm g).1.heap
            ((Dqn.train_network 0 Dqn.state_warm g).1.target_network 0)
            Dqn.exp_idle.next_state) = 0) := by
  have hformula : ∀ (h : Dqn.Heap) (q target : Dqn.dqn) (exp : Dqn.experience),
      Dqn.td_error h q target exp
        = (if exp.done then exp.reward
           else exp.reward + Dqn.GAMMA
             * max_over Dqn.NUM_ACTIONS (by decide) (Dqn.forward h target exp.next_state))
          - Dqn.forward h q exp.state exp.action.toNat := by
    intro h q target exp
    have hmax := scan_max_eq_max_over (Dqn.forward h target exp.next_state) Dqn.NUM_ACTIONS
      (by decide)
    unfold Dqn.td_error
    simp only [hmax]
    cases exp.done <;> simp
  refine ⟨hformula, fun core sg => Dqn.train_step_heap core sg, fun st core g exp => ?_,
    fun g => ?_⟩
  · have halias :
        (Dqn.train_network core (Dqn.update_target_network core st) g).1.target_network core
          = (Dqn.train_network core (Dqn.update_target_network core st) g).1.q_network core := by
      obtain ⟨hq, ht, _⟩ := Dqn.train_network_frame core (Dqn.update_target_network core st) g
      rw [hq, ht]
      simp only [Dqn.update_target_network, Function.update_same]
    refine ⟨halias, ?_⟩
    rw [halias]
    exact hformula _ _ _ exp
  · have hzero : Dqn.exp_idle.next_state = fun _ => 0 := rfl
    have htgt : Dqn.state_refreshed.target_network 0 = Dqn.state_warm.q_network 0 := by
      simp only [Dqn.state_refreshed, Dqn.update_target_network, Function.update_same]
    have hcount : ¬ (Dqn.state_refreshed.replay_buffer_count 0 < (Dqn.BATCH_SIZE : Int)) := by
      decide
    have htrain : Dqn.train_network 0 Dqn.state_refreshed g
        = iterate_body (fun _ sg => Dqn.train_step 0 sg) (Dqn.state_refreshed, g)
            Dqn.BATCH_SIZE := by
      unfold Dqn.train_network
      rw [if_neg hcount, for_loop_zero]
    have htgt2 : (Dqn.train_network 0 Dqn.state_refreshed g).1.target_network 0
        = Dqn.state_warm.q_network 0 := by
      rw [(Dqn.train_network_frame 0 Dqn.state_refreshed g).2.1, htgt]
    have hs0 := Dqn.state_refreshed_shift
    obtain ⟨d, hs, _, hd, hneg⟩ := Dqn.train_loop_shift g Dqn.BATCH_SIZE
    have hdneg : d < 0 := hneg (by decide)
    rw [← htrain] at hs
    have hwarm : ∀ i, i < Dqn.NUM_ACTIONS →
        Dqn.forward Dqn.state_warm.heap (Dqn.state_warm.target_network 0) (fun _ => 0) i
          = 0 := by
      intro i hi
      rw [Dqn.forward_zero_input _ _ i hi (fun j _ => by
        show (if (4 * (0 : Int).toNat + 2) % 2 = 0 then (-1 : ℚ) else 0) ≤ 0
        norm_num)]
      show (if (4 * (0 : Int).toNat + 3) % 2 = 0 then (-1 : ℚ) else 0) = 0
      norm_num
    rw [hzero, htgt, htgt2]
    refine ⟨?_, ?_, ?_, ?_⟩
    · apply max_over_const
      intro i hi
      rw [Dqn.forward_zero_input _ _ i hi (fun j hj => by rw [hs0.1 j hj]; linarith)]
      exact hs0.2 i hi
    · rw [max_over_const Dqn.NUM_ACTIONS (by decide) _ d (fun i hi => by
        rw [Dqn.forward_zero_input _ _ i hi (fun j hj => by rw [hs.1 j hj]; linarith)]
        exact hs.2 i hi)]
      exact hdneg
    · exact max_over_const Dqn.NUM_ACTIONS (by decide) _ 0 hwarm
    · apply max_over_const
      intro i hi
      rw [Dqn.train_network_separate_target 0 Dqn.state_warm g (fun _ => 0)
        Dqn.state_warm_separate]
      exact hwarm i hi

/-- C19: for one sampled experience with TD error `e`, on a live network with its
own blocks, the adjustment of `train_network` raises every hidden weight
`[j][k]` by `LEARNING_RATE * e * exp.state[k]`, the bias of every hidden unit
and of every output unit by `LEARNING_RATE * e`, and every output weight
`[a][k]` by `LEARNING_RATE * e * relu(b_k)`, with `b_k` the bias of hidden unit
`k` after its own adjustment (the old bias plus `LEARNING_RATE * e`), not the
activation of the unit on `exp.state`.  The last part says that this is the
heap a pass on the experience at `index` leaves. -/
theorem C19_weight_adjustment (h : Dqn.Heap) (q : Dqn.dqn) (e : ℚ) (exp : Dqn.experience)
    (hown : Dqn.OwnBlocks h q) :
    (∀ j k, j < Dqn.HIDDEN_SIZE → k < Dqn.STATE_DIM →
      (Dqn.adjust_output q e (Dqn.adjust_hidden q e exp h)).floats
          (h.neurons q.hidden.neurons j).weights k
        = h.floats (h.neurons q.hidden.neurons j).weights k
          + Dqn.LEARNING_RATE * e * exp.state k) ∧
    (∀ j, j < Dqn.HIDDEN_SIZE →
      ((Dqn.adjust_output q e (Dqn.adjust_hidden q e exp h)).neurons q.hidden.neurons j).bias
        = (h.neurons q.hidden.neurons j).bias + Dqn.LEARNING_RATE * e) ∧
    (∀ a, a < Dqn.NUM_ACTIONS →
      ((Dqn.adjust_output q e (Dqn.adjust_hidden q e exp h)).neurons q.output.neurons a).bias
        = (h.neurons q.output.neurons a).bias + Dqn.LEARNING_RATE * e) ∧
    (∀ a k, a < Dqn.NUM_ACTIONS → k < Dqn.HIDDEN_SIZE →
      (Dqn.adjust_output q e (Dqn.adjust_hidden q e exp h)).floats
          (h.neurons q.output.neurons a).weights k
        = h.floats (h.neurons q.output.neurons a).weights k
          + Dqn.LEARNING_RATE * e
            * Dqn.relu ((h.neurons q.hidden.neurons k).bias + Dqn.LEARNING_RATE * e)) ∧
    (∀ (core index : Int) (st : Dqn.State),
      (Dqn.train_sample core index st).heap
        = Dqn.adjust_output (st.q_network core)
            (Dqn.td_error st.heap (st.q_network core) (st.target_network core)
              (st.replay_buffer core index))
            (Dqn.adjust_hidden (st.q_network core)
              (Dqn.td_error st.heap (st.q_network core) (st.target_network core)
                (st.replay_buffer core index))
              (st.replay_buffer core index) st.heap)) := by
  obtain ⟨hne, hdh, hdo, hcross⟩ := hown
  obtain ⟨w1, b1, f1⟩ := Dqn.layer_loop_spec q.hidden.neurons Dqn.STATE_DIM
    (fun k => Dqn.LEARNING_RATE * e * exp.state k) (Dqn.LEARNING_RATE * e) h
    Dqn.HIDDEN_SIZE hdh Dqn.HIDDEN_SIZE (le_refl _)
  rw [← Dqn.adjust_hidden_eq] at w1 b1 f1
  have hdo2 : ∀ i j, i < Dqn.NUM_ACTIONS → j < Dqn.NUM_ACTIONS → i ≠ j →
      ((Dqn.adjust_hidden q e exp h).neurons q.output.neurons i).weights
        ≠ ((Dqn.adjust_hidden q e exp h).neurons q.output.neurons j).weights := by
    intro i j hi hj hij
    rw [w1, w1]
    exact hdo i j hi hj hij
  obtain ⟨w2, b2, f2⟩ := Dqn.layer_loop_spec q.output.neurons Dqn.HIDDEN_SIZE
    (fun k => Dqn.LEARNING_RATE * e
      * Dqn.relu ((Dqn.adjust_hidden q e exp h).neurons q.hidden.neurons k).bias)
    (Dqn.LEARNING_RATE * e) (Dqn.adjust_hidden q e exp h)
    Dqn.NUM_ACTIONS hdo2 Dqn.NUM_ACTIONS (le_refl _)
  rw [← Dqn.adjust_output_eq q e _ hne] at w2 b2 f2
  refine ⟨fun j k hj hk => ?_, fun j hj => ?_, fun a ha => ?_, fun a k ha hk => ?_,
    fun _ _ _ => rfl⟩
  · rw [f2, f1]
    have hno : ¬ ((∃ a, a < Dqn.NUM_ACTIONS ∧ (h.neurons q.hidden.neurons j).weights
        = ((Dqn.adjust_hidden q e exp h).neurons q.output.neurons a).weights)
        ∧ k < Dqn.HIDDEN_SIZE) := by
      rintro ⟨⟨a, ha, hpa⟩, _⟩
      rw [w1] at hpa
      exact hcross j a hj ha hpa
    rw [if_neg hno, add_zero, if_pos ⟨⟨j, hj, rfl⟩, hk⟩]
  · have hn : ¬ (q.hidden.neurons = q.output.neurons ∧ j < Dqn.NUM_ACTIONS) :=
      fun hc => hne hc.1
    rw [b2, b1, if_neg hn, if_pos ⟨rfl, hj⟩, add_zero]
  · have hn : ¬ (q.output.neurons = q.hidden.neurons ∧ a < Dqn.HIDDEN_SIZE) :=
      fun hc => hne hc.1.symm
    rw [b2, b1, if_neg hn, if_pos ⟨rfl, ha⟩, add_zero]
  · rw [f2, f1]
    have hno : ¬ ((∃ j, j < Dqn.HIDDEN_SIZE ∧ (h.neurons q.output.neurons a).weights
        = (h.neurons q.hidden.neurons j).weights) ∧ k < Dqn.STATE_DIM) := by
      rintro ⟨⟨j, hj, hpj⟩, _⟩
      exact hcross j a hj ha hpj.symm
    have hyes : (∃ a2, a2 < Dqn.NUM_ACTIONS ∧ (h.neurons q.output.neurons a).weights
        = ((Dqn.adjust_hidden q e exp h).neurons q.output.neurons a2).weights)
        ∧ k < Dqn.HIDDEN_SIZE := ⟨⟨a, ha, (w1 _ _).symm⟩, hk⟩
    rw [if_neg hno, add_zero, if_pos hyes, b1, if_pos ⟨rfl, hk⟩]

/-- C19 at a concrete input: the live network of core 0 in `Dqn.state_warm`,
error 1, experience `Dqn.exp_idle`. -/
theorem C19_weight_adjustment_witness :
    Dqn.OwnBlocks Dqn.state_warm.heap (Dqn.state_warm.q_network 0) ∧
    (∀ j, j < Dqn.HIDDEN_SIZE →
      ((Dqn.adjust_output (Dqn.state_warm.q_network 0) 1
          (Dqn.adjust_hidden (Dqn.state_warm.q_network 0) 1 Dqn.exp_idle
            Dqn.state_warm.heap)).neurons (Dqn.state_warm.q_network 0).hidden.neurons j).bias
        = (Dqn.state_warm.heap.neurons (Dqn.state_warm.q_network 0).hidden.neurons j).bias
          + Dqn.LEARNING_RATE * 1) :=
  ⟨Dqn.state_warm_own_blocks,
   (C19_weight_adjustment Dqn.state_warm.heap (Dqn.state_warm.q_network 0) 1 Dqn.exp_idle
      Dqn.state_warm_own_blocks).2.1⟩

/-- C20: with `0 <= replay_buffer_count[core] <= REPLAY_BUFFER_SIZE`,
`train_network` either returns at the `BATCH_SIZE` guard without computing an
index, or runs the batch loop, and then in every pass the modulus
`replay_buffer_count[core]` is not zero and the index
`get_random_u32() % replay_buffer_count[core]` satisfies `0 <= index < count`,
whatever the draws.  When the buffer was filled by `add_experience` from an empty
buffer, every slot below the count is the slot written by one of those calls. -/
theorem C20_sample_index_in_bounds (core : Int) (st : Dqn.State) (g : Rng)
    (hlo : 0 ≤ st.replay_buffer_count core)
    (hhi : st.replay_buffer_count core ≤ (Dqn.REPLAY_BUFFER_SIZE : Int)) :
    (st.replay_buffer_count core < (Dqn.BATCH_SIZE : Int) →
      Dqn.train_network core st g = (st, g)) ∧
    (¬ st.replay_buffer_count core < (Dqn.BATCH_SIZE : Int) →
      Dqn.train_network core st g
        = iterate_body (fun _ sg => Dqn.train_step core sg) (st, g) Dqn.BATCH_SIZE ∧
      ∀ k, k < Dqn.BATCH_SIZE →
        (Dqn.sample_index core
          (iterate_body (fun _ sg => Dqn.train_step core sg) (st, g) k)).2 ≠ 0 ∧
        0 ≤ (Dqn.sample_index core
          (iterate_body (fun _ sg => Dqn.train_step core sg) (st, g) k)).1 ∧
        (Dqn.sample_index core
          (iterate_body (fun _ sg => Dqn.train_step core sg) (st, g) k)).1
          < st.replay_buffer_count core) ∧
    (∀ (es : Nat → Dqn.experience) (st0 : Dqn.State) (N : Nat),
      st0.replay_buffer_count core = 0 →
      ∀ i : Nat, (i : Int) < (Dqn.add_experiences core es st0 N).replay_buffer_count core →
        ∃ m, m < N ∧
          Int.tmod ((Dqn.add_experiences core es st0 m).replay_buffer_count core)
            (Dqn.REPLAY_BUFFER_SIZE : Int) = (i : Int)) := by
  have hcap : Dqn.REPLAY_BUFFER_SIZE = 1000 := rfl
  have hbatch : (Dqn.BATCH_SIZE : Int) = 32 := rfl
  refine ⟨fun h => ?_, fun h => ⟨?_, fun k _ => ?_⟩, fun es st0 N h0 i hi => ?_⟩
  · unfold Dqn.train_network
    rw [if_pos h]
  · unfold Dqn.train_network
    rw [if_neg h, for_loop_zero]
  · have hcount := (Dqn.train_loop_frame core st g k).2.2.2.1
    have hU := toU32_of_small _ hlo hhi
    rw [hbatch] at h
    have hpos : 0 < toU32 (st.replay_buffer_count core) := by
      have : (0 : Int) < ((toU32 (st.replay_buffer_count core) : Nat) : Int) := by
        rw [hU]
        omega
      exact_mod_cast this
    unfold Dqn.sample_index
    simp only [hcount]
    refine ⟨Nat.pos_iff_ne_zero.mp hpos, Int.ofNat_nonneg _, ?_⟩
    have hlt := Nat.mod_lt
      (get_random_u32 (iterate_body (fun _ sg => Dqn.train_step core sg) (st, g) k).2).1 hpos
    calc ((_ % toU32 (st.replay_buffer_count core) : Nat) : Int)
        < ((toU32 (st.replay_buffer_count core) : Nat) : Int) := by exact_mod_cast hlt
      _ = st.replay_buffer_count core := hU
  · have hN := (Dqn.add_experiences_spec core es st0 h0 N).1
    have hm := (Dqn.add_experiences_spec core es st0 h0 i).1
    rw [hN] at hi
    have hi2 : i < min N Dqn.REPLAY_BUFFER_SIZE := by exact_mod_cast hi
    rw [hcap] at hi2
    have hmin : min i Dqn.REPLAY_BUFFER_SIZE = i := by rw [hcap]; omega
    refine ⟨i, by omega, ?_⟩
    rw [hm, hmin, hcap, ← Int.ofNat_tmod, Nat.mod_eq_of_lt (by omega)]

/-- C20 at a concrete input: `Dqn.state_warm`, whose count is 32. -/
theorem C20_sample_index_in_bounds_witness :
    (0 ≤ Dqn.state_warm.replay_buffer_count 0 ∧
      Dqn.state_warm.replay_buffer_count 0 ≤ (Dqn.REPLAY_BUFFER_SIZE : Int)) ∧
    (∀ k, k < Dqn.BATCH_SIZE →
      (Dqn.sample_index 0
        (iterate_body (fun _ sg => Dqn.train_step 0 sg) (Dqn.state_warm, rng_max) k)).2 ≠ 0 ∧
      0 ≤ (Dqn.sample_index 0
        (iterate_body (fun _ sg => Dqn.train_step 0 sg) (Dqn.state_warm, rng_max) k)).1 ∧
      (Dqn.sample_index 0
        (iterate_body (fun _ sg => Dqn.train_step 0 sg) (Dqn.state_warm, rng_max) k)).1
        < Dqn.state_warm.replay_buffer_count 0) :=
  ⟨⟨by decide, by decide⟩,
   ((C20_sample_index_in_bounds 0 Dqn.state_warm rng_max (by decide) (by decide)).2.1
      (by decide)).2⟩
